import Mathlib

/-!
# Whirlwind type solver: conversions and interface bindings

A shallow embedding of `src/typing/conv.go` (`CoerceTo`, `CastTo`) and
`src/typing/bindings.go` (`ClearWildcards`, `CheckBindingConflicts`,
`GetBindings`, `ImplementsInterf`, `Derive`, `containsMethod`).

The declarations of the data types themselves (`types.go`) and the helpers
`Equals`, `InnerType`, `ContainsType`, `pureEquals`, `Numeric`,
`GenericSpecialization.Match` and `CreateGenericInstance` are not part of the
available sources.  They are
modelled from the specification and marked as such.

Conventions of the embedding:
* Go maps (`map[string]*T`) are association lists, looked up by first match.
* A `*InterfType` is an interface object: its address `Addr` and its method
  map.  The mutable `Instances` slice of the object lives in the object store
  `Solver.Instances`, keyed by address, because it is written through the
  pointer.
* The wildcard objects of a binding (`Binding.Wildcards`) also occur in its
  match type; a write to their `Value` is applied to both.
* `Derive` and `CheckBindingConflicts` return the objects they write
  (interfaces, registry) as the call leaves them.
* A run-time panic of the Go code is the `Except.error` result.
* `CoerceTo` and `CastTo` recurse on both arguments; they are defined by
  recursion on a fuel counter, and `Fault.outOfFuel` is returned when it is
  exhausted.
-/

namespace Whirlwind

/-! ## Data model -/

/-- Modelled from the spec: the kind of a primitive type
(unit/boolean/integral/floating/text). -/
inductive PrimKind
  | PrimKindUnit
  | PrimKindBoolean
  | PrimKindIntegral
  | PrimKindFloating
  | PrimKindText
deriving DecidableEq, Repr

/-- Modelled from the spec: the kind of an interface method.  `bindings.go`
names the four constants. -/
inductive MethodKind
  | MKAbstract
  | MKVirtual
  | MKImplement
  | MKOverride
deriving DecidableEq, Repr

/-- Modelled from the spec: a `TypeValue` (the value of a struct field): a type
with its `const` and `vol` modifiers (see `walkTypeValues`). -/
structure TypeValueOf (α : Type) where
  Ty : α
  Constant : Bool
  Volatile : Bool

/-- Modelled from the spec: an `InterfMethod`: signature, kind and the
matching-type lists of its generic specializations. -/
structure InterfMethodOf (α : Type) where
  Signature : α
  Kind : MethodKind
  Specializations : List (List α)

/-- Modelled from the spec: an `InterfType` object: the address of the object
and its method map.  The `Instances` slice of the object is kept in
`Solver.Instances` under `Addr`. -/
structure InterfTypeOf (α : Type) where
  Addr : Nat
  Methods : List (String × InterfMethodOf α)

/-- Modelled from the spec: the variants of `DataType` (section 3 of the
specification), with the function type and the algebraic variant that
`conv.go` mentions. -/
inductive DataType where
  | Primitive (PrimKind : PrimKind) (PrimSpec : Nat)
  | Tuple (elems : List DataType)
  | Vector (ElemType : DataType) (Size : Nat)
  | Ref (ElemType : DataType) (Constant : Bool)
  | Struct (Name : String) (SrcPackageID : Nat) (Fields : List (String × TypeValueOf DataType))
      (Inherit : Option DataType) (Packed : Bool)
  | Interf (it : InterfTypeOf DataType)
  | Algebraic (Name : String) (SrcPackageID : Nat) (Variants : List DataType) (Closed : Bool)
  | AlgebraicVariant (Name : String) (Values : List DataType)
  | Constraint (Name : String) (Types : List DataType) (Intrinsic : Bool)
  | Func (Params : List DataType) (ReturnType : DataType)
  | Generic (TypeParams : List DataType) (Template : DataType)
  | GenericInstance (Generic : DataType) (TypeParams : List DataType)
      (MemoizedGenerate : Option DataType)
  | Wildcard (Name : String) (Constraints : List DataType) (Value : Option DataType)
  | Opaque (Name : String) (EvalType : Option DataType)
  | OpaqueGeneric (EvalType : Option DataType)
  | OpaqueGenericInstance (TypeParams : List DataType) (MemoizedGenerate : Option DataType)

abbrev TypeValue := TypeValueOf DataType
abbrev InterfMethod := InterfMethodOf DataType
abbrev InterfType := InterfTypeOf DataType

/-- Modelled from the spec: a `WildcardType` object as it is held by a binding
(`Binding.Wildcards`). -/
structure WildcardType where
  Name : String
  Constraints : List DataType
  Value : Option DataType

/-- Modelled from the spec: spec code of `rune` (text kind). -/
def PrimTextRune : Nat := 0

/-- Modelled from the spec: spec code of `string` (text kind). -/
def PrimTextString : Nat := 1

/-- Modelled from the spec: the integral spec codes.  The specification fixes
that signedness is the parity of the code and that a wider type has a greater
code; `conv.go` names `PrimIntI64` and `PrimIntU64`.  The numbering below
follows that scheme. -/
def PrimIntU8 : Nat := 0
def PrimIntI8 : Nat := 1
def PrimIntU16 : Nat := 2
def PrimIntI16 : Nat := 3
def PrimIntU32 : Nat := 4
def PrimIntI32 : Nat := 5
def PrimIntU64 : Nat := 6
def PrimIntI64 : Nat := 7

/-- Modelled from the spec: `PrimitiveType.Numeric`: the numeric kinds are the
integral and the floating kind. -/
def PrimKind.Numeric (k : PrimKind) : Bool :=
  k == PrimKind.PrimKindIntegral || k == PrimKind.PrimKindFloating

/-- Modelled from the spec: `InnerType` unwraps a wildcard through its bound
value and an opaque placeholder (opaque type, opaque generic, opaque generic
instance) through its evaluated type or memoized generate, repeatedly; the
`equals` methods of `opaque.go` are "only called if no inner type exists". -/
def InnerType : DataType → DataType
  | .Wildcard _ _ (some v) => InnerType v
  | .Opaque _ (some e) => InnerType e
  | .OpaqueGeneric (some e) => InnerType e
  | .OpaqueGenericInstance _ (some g) => InnerType g
  | t => t

/-! ## Equality -/

mutual
/-- Modelled from the spec: `Equals(a, b)` is exact structural equality after
unwrapping wildcards with a value and opaque types with an evaluated type on
both sides.  Primitive, tuple, vector, reference, struct, constraint and
algebraic types compare attribute by attribute (maps as maps); two generic
instances are equal when their root generics and their parameter lists are;
an unresolved opaque type and a wildcard without value equal nothing. -/
def Equals : DataType → DataType → Bool
  | .Wildcard _ _ (some v), b => Equals v b
  | .Opaque _ (some e), b => Equals e b
  | .OpaqueGeneric (some e), b => Equals e b
  | .OpaqueGenericInstance _ (some g), b => Equals g b
  | .Wildcard _ _ none, _ => false
  | .Opaque _ none, _ => false
  | .OpaqueGeneric none, _ => false
  | .OpaqueGenericInstance _ none, _ => false
  | .Primitive k sp, b =>
    match InnerType b with
    | .Primitive k2 sp2 => k == k2 && sp == sp2
    | _ => false
  | .Tuple xs, b =>
    match InnerType b with
    | .Tuple ys => EqualsList xs ys
    | _ => false
  | .Vector e n, b =>
    match InnerType b with
    | .Vector e2 n2 => Equals e e2 && n == n2
    | _ => false
  | .Ref e c, b =>
    match InnerType b with
    | .Ref e2 c2 => Equals e e2 && c == c2
    | _ => false
  | .Struct n p fs inh pk, b =>
    match InnerType b with
    | .Struct n2 p2 fs2 inh2 pk2 =>
      n == n2 && p == p2 && pk == pk2 && fs.length == fs2.length
        && EqualsFields fs fs2 && EqualsOption inh inh2
    | _ => false
  | .Interf it, b =>
    match InnerType b with
    | .Interf it2 => EqualsInterf it it2
    | _ => false
  | .Algebraic n p vs cl, b =>
    match InnerType b with
    | .Algebraic n2 p2 vs2 cl2 => n == n2 && p == p2 && cl == cl2 && EqualsList vs vs2
    | _ => false
  | .AlgebraicVariant n vals, b =>
    match InnerType b with
    | .AlgebraicVariant n2 vals2 => n == n2 && EqualsList vals vals2
    | _ => false
  | .Constraint n ts i, b =>
    match InnerType b with
    | .Constraint n2 ts2 i2 => n == n2 && i == i2 && EqualsList ts ts2
    | _ => false
  | .Func ps r, b =>
    match InnerType b with
    | .Func ps2 r2 => EqualsList ps ps2 && Equals r r2
    | _ => false
  | .Generic tps t, b =>
    match InnerType b with
    | .Generic tps2 t2 => tps.length == tps2.length && Equals t t2
    | _ => false
  | .GenericInstance g tps _, b =>
    match InnerType b with
    | .GenericInstance g2 tps2 _ => Equals g g2 && EqualsList tps tps2
    | _ => false
termination_by structural a => a
/-- Pairwise `Equals` of two type lists of the same length. -/
def EqualsList : List DataType → List DataType → Bool
  | [], [] => true
  | x :: xs, y :: ys => Equals x y && EqualsList xs ys
  | _, _ => false
termination_by structural a => a
/-- Equality of two optional types (`nil` only equals `nil`). -/
def EqualsOption : Option DataType → Option DataType → Bool
  | none, none => true
  | some a, some b => Equals a b
  | _, _ => false
termination_by structural a => a
/-- Every field of the first map is a field of the second with an equal
type value. -/
def EqualsFields : List (String × TypeValueOf DataType) → List (String × TypeValueOf DataType) → Bool
  | [], _ => true
  | f :: fs, fs2 => EqualsField f fs2 && EqualsFields fs fs2
termination_by structural a => a
/-- The field is a field of the map, with an equal type value. -/
def EqualsField : String × TypeValueOf DataType → List (String × TypeValueOf DataType) → Bool
  | (name, tv), fs2 =>
    match fs2.lookup name with
    | some tv2 => EqualsTypeValue tv tv2
    | none => false
termination_by structural a => a
/-- Modelled from the spec: `TypeValue.Equals`: equal types and equal
modifiers. -/
def EqualsTypeValue : TypeValueOf DataType → TypeValueOf DataType → Bool
  | ⟨t, c, v⟩, tv2 => Equals t tv2.Ty && c == tv2.Constant && v == tv2.Volatile
termination_by structural a => a
/-- Two interfaces are equal when their method maps are: the same names, with
equal signatures and kinds. -/
def EqualsInterf : InterfTypeOf DataType → InterfTypeOf DataType → Bool
  | ⟨_, ms⟩, it2 => ms.length == it2.Methods.length && EqualsMethods ms it2.Methods
termination_by structural a => a
/-- Every method of the first map is a method of the second with an equal
signature and the same kind. -/
def EqualsMethods : List (String × InterfMethodOf DataType) → List (String × InterfMethodOf DataType) → Bool
  | [], _ => true
  | m :: ms, ms2 => EqualsMethod m ms2 && EqualsMethods ms ms2
termination_by structural a => a
/-- The method is a method of the map, with an equal signature and kind. -/
def EqualsMethod : String × InterfMethodOf DataType → List (String × InterfMethodOf DataType) → Bool
  | (name, m), ms2 =>
    match ms2.lookup name with
    | some m2 => EqualsSignature m m2
    | none => false
termination_by structural a => a
/-- Equal signature and the same kind. -/
def EqualsSignature : InterfMethodOf DataType → InterfMethodOf DataType → Bool
  | ⟨sig, k, _⟩, m2 => Equals sig m2.Signature && k == m2.Kind
termination_by structural a => a
end

/-- Modelled from the spec: `ContainsType(dt, slice)`: `dt` is structurally
equal to one of the types of the slice. -/
def ContainsType (dt : DataType) (slice : List DataType) : Bool :=
  slice.any (fun item => Equals dt item)

/-- Modelled from the spec: `pureEquals` is the value-insensitive structural
match of a binding's match type against a type: a wildcard match type is
taken without its bound value and matches every type that satisfies its
constraints (every type when it has none); any other match type is compared
with `Equals`. -/
def pureEquals (a b : DataType) : Bool :=
  match a with
  | .Wildcard _ cons _ => cons.isEmpty || ContainsType b cons
  | _ => Equals a b

/-! ## Resolved types -/

mutual
/-- A type is resolved when it holds no unresolved opaque placeholder and no
wildcard without value, and the keys of its maps (struct fields, interface
methods) are distinct, as the keys of a Go map are. -/
def Resolved : DataType → Bool
  | .Primitive _ _ => true
  | .Tuple xs => ResolvedList xs
  | .Vector e _ => Resolved e
  | .Ref e _ => Resolved e
  | .Struct _ _ fs inh _ =>
    decide ((fs.map Prod.fst).Nodup) && ResolvedFields fs && ResolvedOption inh
  | .Interf it => ResolvedInterf it
  | .Algebraic _ _ vs _ => ResolvedList vs
  | .AlgebraicVariant _ vs => ResolvedList vs
  | .Constraint _ ts _ => ResolvedList ts
  | .Func ps r => ResolvedList ps && Resolved r
  | .Generic _ t => Resolved t
  | .GenericInstance g tps _ => Resolved g && ResolvedList tps
  | .Wildcard _ _ (some v) => Resolved v
  | .Wildcard _ _ none => false
  | .Opaque _ (some e) => Resolved e
  | .Opaque _ none => false
  | .OpaqueGeneric (some e) => Resolved e
  | .OpaqueGeneric none => false
  | .OpaqueGenericInstance _ (some g) => Resolved g
  | .OpaqueGenericInstance _ none => false
termination_by structural t => t
/-- Every type of the list is resolved. -/
def ResolvedList : List DataType → Bool
  | [] => true
  | x :: xs => Resolved x && ResolvedList xs
termination_by structural ts => ts
/-- The optional type is absent or resolved. -/
def ResolvedOption : Option DataType → Bool
  | none => true
  | some t => Resolved t
termination_by structural o => o
/-- Every field type of the map is resolved. -/
def ResolvedFields : List (String × TypeValueOf DataType) → Bool
  | [] => true
  | f :: fs => ResolvedField f && ResolvedFields fs
termination_by structural fs => fs
/-- The type of the field is resolved. -/
def ResolvedField : String × TypeValueOf DataType → Bool
  | (_, tv) => ResolvedTypeValue tv
termination_by structural f => f
/-- The type of the type value is resolved. -/
def ResolvedTypeValue : TypeValueOf DataType → Bool
  | ⟨t, _, _⟩ => Resolved t
termination_by structural tv => tv
/-- The method names are distinct and every signature is resolved. -/
def ResolvedInterf : InterfTypeOf DataType → Bool
  | ⟨_, ms⟩ => decide ((ms.map Prod.fst).Nodup) && ResolvedMethods ms
termination_by structural it => it
/-- Every signature of the method map is resolved. -/
def ResolvedMethods : List (String × InterfMethodOf DataType) → Bool
  | [] => true
  | m :: ms => ResolvedMethod m && ResolvedMethods ms
termination_by structural ms => ms
/-- The signature of the method is resolved. -/
def ResolvedMethod : String × InterfMethodOf DataType → Bool
  | (_, m) => ResolvedSignature m
termination_by structural m => m
/-- The signature is resolved. -/
def ResolvedSignature : InterfMethodOf DataType → Bool
  | ⟨sig, _, _⟩ => Resolved sig
termination_by structural m => m
end

/-! ## Binding registry and solver state (`bindings.go`) -/

/-- Binding of `bindings.go`: a single binding of a type interface to a given
type. -/
structure Binding where
  MatchType : DataType
  Wildcards : List WildcardType
  TypeInterf : DataType
  Exported : Bool

/-- BindingRegistry of `bindings.go`. -/
structure BindingRegistry where
  Bindings : List Binding

/-- Solver state: the two binding registries, and the `Instances` slices of the
interface objects by address. -/
structure Solver where
  LocalBindings : BindingRegistry
  GlobalBindings : BindingRegistry
  Instances : Nat → List DataType

/-- Run-time faults of the Go code, and exhaustion of the recursion fuel of the
embedding. -/
inductive Fault
  | indexOutOfRange
  | typeAssertion
  | nilDereference
  | outOfFuel
deriving DecidableEq, Repr

/-- Result of a check of the solver: the boolean, and the solver state after the
call. -/
abbrev Check := Except Fault (Bool × Solver)

/-- The boolean a check returns, `none` when it does not return. -/
def Check.result (c : Check) : Option Bool :=
  match c with
  | .ok (b, _) => some b
  | .error _ => none

/-- Modelled from the spec: the type of `Solver.CreateGenericInstance`, which
is taken as a parameter: from the generic and the type parameters read off the
wildcards (a `nil` value is `none`) to the generic instance and the success
flag. -/
abbrev GenericInstantiation := DataType → List (Option DataType) → Option DataType × Bool

mutual
/-- The write `wc.Value = nil` as it is seen through a type that holds the
wildcard object: the occurrences of the wildcards named in `names` lose their
bound value. -/
def clearWildcardValues (names : List String) : DataType → DataType
  | .Primitive k sp => .Primitive k sp
  | .Tuple xs => .Tuple (clearWildcardValuesList names xs)
  | .Vector e n => .Vector (clearWildcardValues names e) n
  | .Ref e c => .Ref (clearWildcardValues names e) c
  | .Struct n p fs inh pk =>
    .Struct n p (clearWildcardValuesFields names fs) (clearWildcardValuesOption names inh) pk
  | .Interf it => .Interf (clearWildcardValuesInterf names it)
  | .Algebraic n p vs cl => .Algebraic n p (clearWildcardValuesList names vs) cl
  | .AlgebraicVariant n vals => .AlgebraicVariant n (clearWildcardValuesList names vals)
  | .Constraint n ts i => .Constraint n (clearWildcardValuesList names ts) i
  | .Func ps r => .Func (clearWildcardValuesList names ps) (clearWildcardValues names r)
  | .Generic tps t => .Generic (clearWildcardValuesList names tps) (clearWildcardValues names t)
  | .GenericInstance g tps m =>
    .GenericInstance (clearWildcardValues names g) (clearWildcardValuesList names tps)
      (clearWildcardValuesOption names m)
  | .Wildcard n cs v =>
    if names.contains n then .Wildcard n (clearWildcardValuesList names cs) none
    else .Wildcard n (clearWildcardValuesList names cs) (clearWildcardValuesOption names v)
  | .Opaque n e => .Opaque n (clearWildcardValuesOption names e)
  | .OpaqueGeneric e => .OpaqueGeneric (clearWildcardValuesOption names e)
  | .OpaqueGenericInstance tps m =>
    .OpaqueGenericInstance (clearWildcardValuesList names tps) (clearWildcardValuesOption names m)
termination_by structural t => t
/-- The write, through every type of a list. -/
def clearWildcardValuesList (names : List String) : List DataType → List DataType
  | [] => []
  | x :: xs => clearWildcardValues names x :: clearWildcardValuesList names xs
termination_by structural ts => ts
/-- The write, through an optional type. -/
def clearWildcardValuesOption (names : List String) : Option DataType → Option DataType
  | none => none
  | some t => some (clearWildcardValues names t)
termination_by structural o => o
/-- The write, through the field types of a struct. -/
def clearWildcardValuesFields (names : List String) :
    List (String × TypeValueOf DataType) → List (String × TypeValueOf DataType)
  | [] => []
  | f :: fs => clearWildcardValuesField names f :: clearWildcardValuesFields names fs
termination_by structural fs => fs
/-- The write, through the type of a field. -/
def clearWildcardValuesField (names : List String) :
    String × TypeValueOf DataType → String × TypeValueOf DataType
  | (name, tv) => (name, clearWildcardValuesTypeValue names tv)
termination_by structural f => f
/-- The write, through a type value. -/
def clearWildcardValuesTypeValue (names : List String) :
    TypeValueOf DataType → TypeValueOf DataType
  | ⟨t, c, v⟩ => ⟨clearWildcardValues names t, c, v⟩
termination_by structural tv => tv
/-- The write, through the methods of an interface. -/
def clearWildcardValuesInterf (names : List String) :
    InterfTypeOf DataType → InterfTypeOf DataType
  | ⟨a, ms⟩ => ⟨a, clearWildcardValuesMethods names ms⟩
termination_by structural it => it
/-- The write, through a method map. -/
def clearWildcardValuesMethods (names : List String) :
    List (String × InterfMethodOf DataType) → List (String × InterfMethodOf DataType)
  | [] => []
  | m :: ms => clearWildcardValuesMethod names m :: clearWildcardValuesMethods names ms
termination_by structural ms => ms
/-- The write, through one entry of a method map. -/
def clearWildcardValuesMethod (names : List String) :
    String × InterfMethodOf DataType → String × InterfMethodOf DataType
  | (name, m) => (name, clearWildcardValuesSignature names m)
termination_by structural m => m
/-- The write, through the signature and the specializations of a method. -/
def clearWildcardValuesSignature (names : List String) :
    InterfMethodOf DataType → InterfMethodOf DataType
  | ⟨sig, k, sps⟩ => ⟨clearWildcardValues names sig, k, clearWildcardValuesLists names sps⟩
termination_by structural m => m
/-- The write, through the matching types of the specializations. -/
def clearWildcardValuesLists (names : List String) : List (List DataType) → List (List DataType)
  | [] => []
  | l :: ls => clearWildcardValuesList names l :: clearWildcardValuesLists names ls
termination_by structural ls => ls
end

/-- ClearWildcards of `bindings.go`: clears the wildcard values of a binding.
The wildcard objects of `Wildcards` are the ones that occur in the match type
of the binding, so the write `wc.Value = nil` through the pointers also clears
the occurrences of these wildcards, identified by name, in `MatchType`. -/
def Binding.ClearWildcards (b : Binding) : Binding :=
  { b with
    Wildcards := b.Wildcards.map (fun wc => { wc with Value := none }),
    MatchType := clearWildcardValues (b.Wildcards.map (fun wc => wc.Name)) b.MatchType }

/-- The body of the loop of `GetBindings` over the bindings of the registry:
the matches found, and the bindings as the loop leaves them. -/
def getBindingsLoop (CreateGenericInstance : GenericInstantiation) (dt : DataType) :
    List Binding → Except Fault (List InterfType × List Binding)
  | [] => .ok ([], [])
  | binding :: rest =>
    if pureEquals binding.MatchType dt then
      match binding.TypeInterf with
      | .Interf v =>
        -- no wildcards to clear here since this is not a generic binding
        match getBindingsLoop CreateGenericInstance dt rest with
        | .ok (matched, rest1) => .ok (v :: matched, binding :: rest1)
        | .error e => .error e
      | .Generic tps tmpl =>
        let typeValues := binding.Wildcards.map (fun wc => wc.Value)
        let binding1 := binding.ClearWildcards
        match (CreateGenericInstance (.Generic tps tmpl) typeValues).1 with
        | some (.GenericInstance _ _ (some (.Interf gi))) =>
          match getBindingsLoop CreateGenericInstance dt rest with
          | .ok (matched, rest1) => .ok (gi :: matched, binding1 :: rest1)
          | .error e => .error e
        | _ => .error Fault.typeAssertion
      | _ =>
        match getBindingsLoop CreateGenericInstance dt rest with
        | .ok (matched, rest1) => .ok (matched, binding :: rest1)
        | .error e => .error e
    else
      match getBindingsLoop CreateGenericInstance dt rest with
      | .ok (matched, rest1) => .ok (matched, binding :: rest1)
      | .error e => .error e

/-- GetBindings of `bindings.go`: fetches all applicable interface bindings for
a given type; the registry is returned as the call leaves it. -/
def GetBindings (CreateGenericInstance : GenericInstantiation) (br : BindingRegistry)
    (dt : DataType) : Except Fault (List InterfType × BindingRegistry) :=
  match getBindingsLoop CreateGenericInstance dt br.Bindings with
  | .ok (matched, bs) => .ok (matched, { Bindings := bs })
  | .error e => .error e

/-- The function containsMethod of `bindings.go`: checks if a given type
interface contains a method. -/
def containsMethod (binding : InterfType) (methodName : String) (method : InterfMethod) : Bool :=
  match binding.Methods.lookup methodName with
  | some bmethod => Equals bmethod.Signature method.Signature
  | none => false

/-- Outcome of one inner loop of `ImplementsInterf` over a list of bindings. -/
inductive Search
  | continueOuter
  | returnFalse
  | exhausted
deriving DecidableEq, Repr

/-- The inner loops of `ImplementsInterf`: `for _, binding := range bindings`
with the body `if containsMethod(...) { continue outerloop } else
{ return false }`. -/
def searchBindings (name : String) (method : InterfMethod) : List InterfType → Search
  | [] => Search.exhausted
  | binding :: _ =>
    if containsMethod binding name method then Search.continueOuter else Search.returnFalse

/-- The loop `outerloop` of `ImplementsInterf` over the methods of the
interface: `false` when the loop executes `return false`, `true` when it runs
to its end. -/
def methodsLoop (localBindings globalBindings : List InterfType) :
    List (String × InterfMethod) → Bool
  | [] => true
  | (name, method) :: rest =>
    if method.Kind = MethodKind.MKAbstract then
      match searchBindings name method localBindings with
      | Search.continueOuter => methodsLoop localBindings globalBindings rest
      | Search.returnFalse => false
      | Search.exhausted =>
        match searchBindings name method globalBindings with
        | Search.continueOuter => methodsLoop localBindings globalBindings rest
        | Search.returnFalse => false
        | Search.exhausted => methodsLoop localBindings globalBindings rest
    else methodsLoop localBindings globalBindings rest

/-- ImplementsInterf of `bindings.go`: tests if a given type implements the
given interface.  Returns the result and the solver state after the call
(registries as `GetBindings` leaves them, `Instances` of the interface with
`dt` appended on success of the search). -/
def ImplementsInterf (CreateGenericInstance : GenericInstantiation) (s : Solver)
    (dt : DataType) (it : InterfType) : Check :=
  match dt with
  | .Interf _ => .ok (false, s)
  | .Ref _ _ => .ok (false, s)
  | _ =>
    if ContainsType dt (s.Instances it.Addr) then .ok (true, s)
    else
      match GetBindings CreateGenericInstance s.LocalBindings dt with
      | .error e => .error e
      | .ok (localBindings, lb) =>
        match GetBindings CreateGenericInstance s.GlobalBindings dt with
        | .error e => .error e
        | .ok (globalBindings, gb) =>
          let s1 : Solver := { s with LocalBindings := lb, GlobalBindings := gb }
          if methodsLoop localBindings globalBindings it.Methods then
            .ok (true, { s1 with
              Instances := Function.update s1.Instances it.Addr (s1.Instances it.Addr ++ [dt]) })
          else .ok (false, s1)

/-! ## Coercion (`conv.go`) -/


/-- Loop `for _, r := range rs { if s.CoerceTo(r, dest) { return true } }`:
`true` when some iteration returns, `false` when the loop runs to its end. -/
def anySrcLoop (conv : Solver → DataType → DataType → Check) (dest : DataType) :
    Solver → List DataType → Check
  | s, [] => .ok (false, s)
  | s, r :: rest =>
    match conv s r dest with
    | .error e => .error e
    | .ok (true, s1) => .ok (true, s1)
    | .ok (false, s1) => anySrcLoop conv dest s1 rest

/-- Loop `for _, item := range items { if s.CoerceTo(src, item) { return true } }`. -/
def anyDestLoop (conv : Solver → DataType → DataType → Check) (src : DataType) :
    Solver → List DataType → Check
  | s, [] => .ok (false, s)
  | s, item :: rest =>
    match conv s src item with
    | .error e => .error e
    | .ok (true, s1) => .ok (true, s1)
    | .ok (false, s1) => anyDestLoop conv src s1 rest

/-- Loop `for _, item := range items { if !s.CoerceTo(item, dv) { return false } }`
followed by `return true`. -/
def allSrcLoop (conv : Solver → DataType → DataType → Check) (dv : DataType) :
    Solver → List DataType → Check
  | s, [] => .ok (true, s)
  | s, item :: rest =>
    match conv s item dv with
    | .error e => .error e
    | .ok (false, s1) => .ok (false, s1)
    | .ok (true, s1) => allSrcLoop conv dv s1 rest

/-- Tuple loop of `CoerceTo`: `for i, item := range dv { if !s.CoerceTo(stt[i],
item) { return false } }` followed by `return true`; `stt[i]` past the end of
`stt` is an index-out-of-range panic. -/
def coerceTupleLoop (conv : Solver → DataType → DataType → Check) (stt : List DataType) :
    Solver → Nat → List DataType → Check
  | s, _, [] => .ok (true, s)
  | s, i, item :: rest =>
    match stt.get? i with
    | none => .error Fault.indexOutOfRange
    | some x =>
      match conv s x item with
      | .error e => .error e
      | .ok (false, s1) => .ok (false, s1)
      | .ok (true, s1) => coerceTupleLoop conv stt s1 (i + 1) rest

/-- The `switch dv := dest.(type)` of `CoerceTo` with the final `return false`;
`conv` is `CoerceTo` for the recursive calls. -/
def coerceSwitch (CreateGenericInstance : GenericInstantiation)
    (conv : Solver → DataType → DataType → Check) (s : Solver) (src dest : DataType) : Check :=
  match dest with
  | .Primitive dvKind dvSpec =>
    -- check for any (since all types can coerce to it)
    if dvKind = PrimKind.PrimKindUnit ∧ dvSpec = 1 then .ok (true, s)
    else
      match src with
      | .Primitive sptKind sptSpec =>
        if dvKind = PrimKind.PrimKindFloating then
          .ok (decide (sptKind = PrimKind.PrimKindFloating ∧ sptSpec < dvSpec), s)
        else if dvKind = PrimKind.PrimKindIntegral then
          if sptKind = PrimKind.PrimKindIntegral then
            .ok (decide (dvSpec % 2 = sptSpec % 2 ∧ dvSpec > sptSpec), s)
          else .ok (false, s)
        else if dvKind = PrimKind.PrimKindText then
          -- rune to string
          .ok (decide (dvSpec = 1 ∧ sptSpec = 0), s)
        else .ok (false, s)
      | _ => .ok (false, s)
  | .Tuple dv =>
    match src with
    | .Tuple stt => coerceTupleLoop conv stt s 0 dv
    | _ => .ok (false, s)
  | .Vector dvElem dvSize =>
    match src with
    | .Vector svtElem svtSize =>
      match conv s svtElem dvElem with
      | .error e => .error e
      | .ok (b, s1) => .ok (b && decide (dvSize = svtSize), s1)
    | _ => .ok (false, s)
  | .Ref dvElem dvConstant =>
    match src with
    | .Ref srtElem srtConstant => .ok (Equals dvElem srtElem && dvConstant && !srtConstant, s)
    | _ => .ok (false, s)
  | .Interf dv => ImplementsInterf CreateGenericInstance s src dv
  | .Constraint dvName dvTypes dvIntrinsic =>
    if dvIntrinsic then
      if dvName = "Vector" then
        match src with
        | .Vector _ _ => .ok (true, s)
        | _ => .ok (false, s)
      else if dvName = "Tuple" then
        match src with
        | .Tuple _ => .ok (true, s)
        | _ => .ok (false, s)
      else if dvName = "TypedVector" then
        match src with
        | .Vector svtElem _ =>
          match dvTypes.get? 0 with
          | none => .error Fault.indexOutOfRange
          | some t => .ok (Equals svtElem t, s)
        | _ => .ok (false, s)
      else if dvName = "IntegralVector" then
        match src with
        | .Vector svtElem _ =>
          match conv s svtElem (.Primitive PrimKind.PrimKindIntegral PrimIntI64) with
          | .error e => .error e
          | .ok (true, s1) => .ok (true, s1)
          | .ok (false, s1) => conv s1 svtElem (.Primitive PrimKind.PrimKindIntegral PrimIntU64)
        | _ => .ok (false, s)
      else .ok (false, s)
    else
      match src with
      | .Constraint _ sconsTypes _ => allSrcLoop conv dest s sconsTypes
      | _ => anyDestLoop conv src s dvTypes
  | .Wildcard _ dvConstraints dvValue =>
    match dvValue with
    | none => anyDestLoop conv src s dvConstraints
    | some v => conv s src v
  | _ => .ok (false, s)

/-- CoerceTo of `conv.go`: implements coercion checking for the solver. -/
def CoerceTo (CreateGenericInstance : GenericInstantiation) :
    Nat → Solver → DataType → DataType → Check
  | 0, _, _, _ => .error Fault.outOfFuel
  | fuel + 1, s, src0, dest0 =>
    if Equals src0 dest0 then .ok (true, s)
    else
      let src := InnerType src0
      let dest := InnerType dest0
      -- coercions from Wildcard types are checked ahead of the switch
      match src with
      | .Wildcard _ swtConstraints none =>
        match anySrcLoop (CoerceTo CreateGenericInstance fuel) dest s swtConstraints with
        | .error e => .error e
        | .ok (true, s1) => .ok (true, s1)
        | .ok (false, s1) =>
          coerceSwitch CreateGenericInstance (CoerceTo CreateGenericInstance fuel) s1 src dest
      | .Wildcard _ _ (some v) => CoerceTo CreateGenericInstance fuel s v dest
      | _ => coerceSwitch CreateGenericInstance (CoerceTo CreateGenericInstance fuel) s src dest

/-! ## Casting (`conv.go`) -/

/-- Tuple loop of `CastTo`: `for i, item := range sv { if !s.CastTo(item,
dtt[i]) { return false } }` followed by `return true`; `dtt[i]` past the end
of `dtt` is an index-out-of-range panic. -/
def castTupleLoop (conv : Solver → DataType → DataType → Check) (dtt : List DataType) :
    Solver → Nat → List DataType → Check
  | s, _, [] => .ok (true, s)
  | s, i, item :: rest =>
    match dtt.get? i with
    | none => .error Fault.indexOutOfRange
    | some y =>
      match conv s item y with
      | .error e => .error e
      | .ok (false, s1) => .ok (false, s1)
      | .ok (true, s1) => castTupleLoop conv dtt s1 (i + 1) rest

/-- Struct loop of `CastTo`: `for name, field := range sv.Fields { if dfield,
ok := dst.Fields[name]; !ok || !field.Equals(dfield) { return false } }`;
`true` when the loop runs to its end. -/
def castFieldsLoop (dstFields : List (String × TypeValue)) : List (String × TypeValue) → Bool
  | [] => true
  | (name, field) :: rest =>
    match dstFields.lookup name with
    | none => false
    | some dfield => if EqualsTypeValue field dfield then castFieldsLoop dstFields rest else false

/-- Interface loop of `CastTo`: `false` when a method name of both interfaces
has signatures that are not equal. -/
def castMethodsLoop (ditMethods : List (String × InterfMethod)) :
    List (String × InterfMethod) → Bool
  | [] => true
  | (name, method) :: rest =>
    match ditMethods.lookup name with
    | some dmethod =>
      if Equals method.Signature dmethod.Signature then castMethodsLoop ditMethods rest
      else false
    | none => castMethodsLoop ditMethods rest

/-- Algebraic loop of `CastTo`: `for i, variant := range sv.Variants { if
!Equals(variant, dat.Variants[i]) { return false } }`. -/
def castVariantsLoop (datVariants : List DataType) : Nat → List DataType → Except Fault Bool
  | _, [] => .ok true
  | i, variant :: rest =>
    match datVariants.get? i with
    | none => .error Fault.indexOutOfRange
    | some dvariant =>
      if Equals variant dvariant then castVariantsLoop datVariants (i + 1) rest else .ok false

/-- The `switch sv := src.(type)` of `CastTo` with the final `return false`;
`conv` is `CastTo` for the recursive calls. -/
def castSwitch (CreateGenericInstance : GenericInstantiation)
    (conv : Solver → DataType → DataType → Check) (s : Solver) (src dest : DataType) : Check :=
  match src with
  | .Primitive svKind svSpec =>
    -- any to some other type always succeeds
    if svKind = PrimKind.PrimKindUnit ∧ svSpec = 1 then .ok (true, s)
    else
      match dest with
      | .Primitive dptKind _ =>
        if svKind.Numeric && dptKind.Numeric then .ok (true, s)
        else
          .ok (decide (svKind = PrimKind.PrimKindBoolean ∧ dptKind = PrimKind.PrimKindIntegral), s)
      | _ => .ok (false, s)
  | .Tuple sv =>
    match dest with
    | .Tuple dtt => castTupleLoop conv dtt s 0 sv
    | _ => .ok (false, s)
  | .Vector svElem svSize =>
    match dest with
    | .Vector dvtElem dvtSize =>
      match conv s svElem dvtElem with
      | .error e => .error e
      | .ok (b, s1) => .ok (b && decide (svSize = dvtSize), s1)
    | _ => .ok (false, s)
  | .Struct _ _ svFields svInherit svPacked =>
    match dest with
    | .Struct _ _ dstFields dstInherit dstPacked =>
      if svPacked ≠ dstPacked then .ok (false, s)
      else if svFields.length ≠ dstFields.length then .ok (false, s)
      -- in order for two structs to have the same fields they must have the same
      -- inherit: `Equals(sv.Inherit, dst.Inherit)`, a missing inherit only equals a
      -- missing one
      else if castFieldsLoop dstFields svFields then .ok (EqualsOption svInherit dstInherit, s)
      else .ok (false, s)
    | _ => .ok (false, s)
  | .Interf sv =>
    match dest with
    | .Interf dit => .ok (castMethodsLoop dit.Methods sv.Methods, s)
    | _ => ImplementsInterf CreateGenericInstance s dest sv
  | .Algebraic _ _ svVariants svClosed =>
    match dest with
    | .Algebraic _ _ datVariants datClosed =>
      if svVariants.length ≠ datVariants.length then .ok (false, s)
      else
        match castVariantsLoop datVariants 0 svVariants with
        | .error e => .error e
        | .ok false => .ok (false, s)
        | .ok true => .ok (decide (svClosed = datClosed), s)
    | _ => .ok (false, s)
  | .Constraint _ svTypes _ => .ok (ContainsType dest svTypes, s)
  | .Wildcard _ svConstraints svValue =>
    match svValue with
    | none => anySrcLoop conv dest s svConstraints
    | some v => conv s v dest
  | _ => .ok (false, s)

/-- CastTo of `conv.go`: implements the explicit cast checking. -/
def CastTo (CreateGenericInstance : GenericInstantiation) :
    Nat → Solver → DataType → DataType → Check
  | 0, _, _, _ => .error Fault.outOfFuel
  | fuel + 1, s, src0, dest0 =>
    let src := InnerType src0
    let dest := InnerType dest0
    -- casts to WildcardTypes are checked ahead of the switch
    match dest with
    | .Wildcard _ dwtConstraints none =>
      match anyDestLoop (CastTo CreateGenericInstance fuel) src s dwtConstraints with
      | .error e => .error e
      | .ok (true, s1) => .ok (true, s1)
      | .ok (false, s1) =>
        castSwitch CreateGenericInstance (CastTo CreateGenericInstance fuel) s1 src dest
    | .Wildcard _ _ (some v) => CastTo CreateGenericInstance fuel s src v
    | _ => castSwitch CreateGenericInstance (CastTo CreateGenericInstance fuel) s src dest

/-! ## Interface derivation (`bindings.go`) -/

/-- Modelled from the spec: the type of `GenericSpecialization.Match`, the
pairwise structural match of two specializations (given by their matching
types), which is taken as a parameter. -/
abbrev SpecializationMatch := List DataType → List DataType → Bool

/-- Write through the pointer `imethod` of `it.Methods[name]`: the method
object held under `name` is replaced by its updated state. -/
def setMethod (name : String) (m : InterfMethod) :
    List (String × InterfMethod) → List (String × InterfMethod)
  | [] => []
  | (k, v) :: rest => if k == name then (k, m) :: rest else (k, v) :: setMethod name m rest

/-- The loops `for _, spec := range method.Specializations { for _, ispec :=
range imethod.Specializations { if !spec.Match(ispec) { method.Specializations
= append(method.Specializations, ispec) } } }` of `Derive`: the value of
`method.Specializations` after them. -/
def deriveSpecializations (Match : SpecializationMatch)
    (imethodSpecs methodSpecs : List (List DataType)) : List (List DataType) :=
  methodSpecs.foldl
    (fun acc spec =>
      imethodSpecs.foldl (fun acc2 ispec => if Match spec ispec then acc2 else acc2 ++ [ispec]) acc)
    methodSpecs

/-- The body of the loop of `Derive` for one method `name, method` of
`deriving`: the method map of `it` and the method object `method` after it. -/
def deriveMethod (Match : SpecializationMatch) (itMethods : List (String × InterfMethod))
    (name : String) (method : InterfMethod) : List (String × InterfMethod) × InterfMethod :=
  match itMethods.lookup name with
  | some imethod =>
    -- MKAbstract in parent: implement in derived; else (MKVirtual in parent) override
    let kind :=
      if method.Kind = MethodKind.MKAbstract then MethodKind.MKImplement
      else MethodKind.MKOverride
    -- migrate/derive specializations
    if imethod.Specializations.length = 0 ∧ method.Specializations.length > 0 then
      (setMethod name { imethod with Kind := kind, Specializations := method.Specializations }
        itMethods, method)
    else
      (setMethod name { imethod with Kind := kind } itMethods,
        { method with
          Specializations :=
            deriveSpecializations Match imethod.Specializations method.Specializations })
  | none =>
    if method.Kind = MethodKind.MKVirtual then (itMethods ++ [(name, method)], method)
    else (itMethods, method)

/-- The loop `for name, method := range deriving.Methods` of `Derive`: the
method map of `it` and the method map of `deriving` after it. -/
def deriveLoop (Match : SpecializationMatch) :
    List (String × InterfMethod) → List (String × InterfMethod) →
      List (String × InterfMethod) × List (String × InterfMethod)
  | itMethods, [] => (itMethods, [])
  | itMethods, (name, method) :: rest =>
    let step := deriveMethod Match itMethods name method
    let tail := deriveLoop Match step.1 rest
    (tail.1, (name, step.2) :: tail.2)

/-- Derive of `bindings.go`: performs a formal implement (an `is` derivation)
on a type interface.  The argument `deriving` of the source is `parent` here.
Returns the interface `it` and the interface `parent` as the call leaves them;
the method objects of the two interfaces are distinct objects. -/
def Derive (Match : SpecializationMatch) (it parent : InterfType) : InterfType × InterfType :=
  let r := deriveLoop Match it.Methods parent.Methods
  ({ it with Methods := r.1 }, { parent with Methods := r.2 })

/-- The method of `it` under `name` after the loop body of `Derive` for the
parent method `name, method`. -/
def derivedMethod (imethod : Option InterfMethod) (method : InterfMethod) : Option InterfMethod :=
  match imethod with
  | some im =>
    some { im with
      Kind := if method.Kind = MethodKind.MKAbstract then MethodKind.MKImplement
              else MethodKind.MKOverride,
      Specializations :=
        if im.Specializations.length = 0 ∧ method.Specializations.length > 0
        then method.Specializations else im.Specializations }
  | none => if method.Kind = MethodKind.MKVirtual then some method else none

/-- The method object `method` of the parent after the loop body of `Derive`
for it. -/
def derivedParentMethod (Match : SpecializationMatch) (imethod : Option InterfMethod)
    (method : InterfMethod) : InterfMethod :=
  match imethod with
  | some im =>
    if im.Specializations.length = 0 ∧ method.Specializations.length > 0 then method
    else
      { method with
        Specializations := deriveSpecializations Match im.Specializations method.Specializations }
  | none => method

/-! ## Binding conflicts (`bindings.go`) -/

/-- The closure `getInterfType` of `CheckBindingConflicts`: the interface of a
binding, the template interface for a generic binding; `none` is the `nil` of
the case marked unreachable. -/
def getInterfType (b : Binding) : Except Fault (Option InterfType) :=
  match b.TypeInterf with
  | .Interf v => .ok (some v)
  | .Generic _ (.Interf v) => .ok (some v)
  | .Generic _ _ => .error Fault.typeAssertion
  | _ => .ok none

/-- The loop `for name := range ait.Methods { if _, ok := bit.Methods[name]; ok
{ return name, true } }`: the name returned, `none` when the loop runs to its
end. -/
def sharedMethodLoop (bitMethods : List (String × InterfMethod)) :
    List (String × InterfMethod) → Option String
  | [] => none
  | (name, _) :: rest =>
    match bitMethods.lookup name with
    | some _ => some name
    | none => sharedMethodLoop bitMethods rest

/-- The method loop of `CheckBindingConflicts` on the two results of
`getInterfType`; reading the method map of a `nil` interface is a nil
dereference. -/
def sharedMethod (ait bit : Option InterfType) : Except Fault (Option String) :=
  match ait with
  | none => .error Fault.nilDereference
  | some a =>
    match a.Methods with
    | [] => .ok none
    | _ :: _ =>
      match bit with
      | none => .error Fault.nilDereference
      | some b => .ok (sharedMethodLoop b.Methods a.Methods)

/-- The loop of `CheckBindingConflicts` over the bindings of the registry: the
returned pair, and the bindings as the call leaves them. -/
def checkBindingConflictsLoop (nb : Binding) :
    List Binding → Except Fault ((String × Bool) × List Binding)
  | [] => .ok (("", false), [])
  | binding :: rest =>
    if Equals binding.MatchType nb.MatchType then
      let binding1 := binding.ClearWildcards
      match getInterfType binding1 with
      | .error e => .error e
      | .ok ait =>
        match getInterfType nb with
        | .error e => .error e
        | .ok bit =>
          match sharedMethod ait bit with
          | .error e => .error e
          | .ok (some name) => .ok ((name, true), binding1 :: rest)
          | .ok none =>
            match checkBindingConflictsLoop nb rest with
            | .error e => .error e
            | .ok (r, rest1) => .ok (r, binding1 :: rest1)
    else
      match checkBindingConflictsLoop nb rest with
      | .error e => .error e
      | .ok (r, rest1) => .ok (r, binding.ClearWildcards :: rest1)

/-- CheckBindingConflicts of `bindings.go`: takes in a binding and checks if it
conflicts with any binding of the registry; returns the name of the
conflicting method with the flag, and the registry as the call leaves it. -/
def BindingRegistry.CheckBindingConflicts (br : BindingRegistry) (nb : Binding) :
    Except Fault ((String × Bool) × BindingRegistry) :=
  match checkBindingConflictsLoop nb br.Bindings with
  | .error e => .error e
  | .ok (r, bs) => .ok (r, { Bindings := bs })

/-- No wildcard of the binding holds a bound value. -/
def Binding.wildcardsCleared (b : Binding) : Bool :=
  b.Wildcards.all (fun wc => wc.Value.isNone)

/-! ## Private copies of bindings (`bindings.go`) -/

/-- A `Binding` object as Go builds it from a composite literal: a field that
the literal does not set is `nil` (`none`), an unset slice is empty. -/
structure BindingLiteral where
  MatchType : Option DataType
  Wildcards : List WildcardType
  TypeInterf : Option DataType
  Exported : Bool

/-- PrivateCopy of `bindings.go`: creates a new copy of a binding that is no
longer exported.  The literal `&Binding{TypeInterf: b.TypeInterf, Exported:
false}` sets two fields. -/
def Binding.PrivateCopy (b : Binding) : BindingLiteral :=
  { MatchType := none, Wildcards := [], TypeInterf := some b.TypeInterf, Exported := false }

/-! ## Opaque types (`opaque.go`) -/

/-- Repr of `opaque.go`: an `OpaqueType` has the representation of its
evaluated type if there is one and its name otherwise; an opaque generic that
of its evaluated generic, or a special string; an opaque generic instance
without generate a special string.  The `Repr` methods of the other variants
are in `types.go`, which is not part of the available sources: they are the
parameter `baseRepr`, which also stands for the representation of an opaque
generic instance with a generate (built from the template of the evaluated
generic of its owner). -/
def Repr (baseRepr : DataType → String) : DataType → String
  | .Opaque _ (some evalType) => Repr baseRepr evalType
  | .Opaque name none => name
  | .OpaqueGeneric (some evalType) => Repr baseRepr evalType
  | .OpaqueGeneric none => "<opaque generic>"
  | .OpaqueGenericInstance _ none => "<opaque generate>"
  | t => baseRepr t

/-- OpaqueGenericInstanceType of `opaque.go`, as an object owned by its opaque
generic: the back-reference `OpaqueGeneric` is the owner of the list that holds
the object, and `TypeParamsBranch` is the position token of the request. -/
structure OpaqueGenericInstanceType where
  TypeParams : List DataType
  MemoizedGenerate : Option DataType
  TypeParamsBranch : Nat

/-- OpaqueGenericType of `opaque.go`: the evaluated generic and the instance
objects created from the opaque type. -/
structure OpaqueGenericType where
  EvalType : Option DataType
  Instances : List OpaqueGenericInstanceType

/-- The loop of `Evaluate` over the instances: the flag `instancesMatched`
and the instance objects after it. -/
def evaluateLoop (CreateGenericInstance : GenericInstantiation) (gt : DataType) :
    List OpaqueGenericInstanceType → Bool × List OpaqueGenericInstanceType
  | [] => (true, [])
  | I :: rest =>
    let tail := evaluateLoop CreateGenericInstance gt rest
    match CreateGenericInstance gt (I.TypeParams.map some) with
    | (generate, true) => (tail.1, { I with MemoizedGenerate := generate } :: tail.2)
    | (_, false) => (false, I :: tail.2)

/-- Evaluate of `opaque.go`: takes in a type to act as the evaluated generic,
updates the opaque type and checks all of the instances.  Returns the flag and
the opaque generic as the call leaves it. -/
def OpaqueGenericType.Evaluate (CreateGenericInstance : GenericInstantiation)
    (ogt : OpaqueGenericType) (gt : DataType) : Bool × OpaqueGenericType :=
  let r := evaluateLoop CreateGenericInstance gt ogt.Instances
  (r.1, { EvalType := some gt, Instances := r.2 })

/-- The value `Walker.createGenericInstance` returns for an opaque generic: the
new pending instance object (by its position in the list of its opaque
generic), the generic instance `CreateGenericInstance` produced, or `nil`. -/
inductive InstanceResult
  | pending (index : Nat)
  | generated (gi : Option DataType)
  | nil

/-- The case `*typing.OpaqueGenericType` of `Walker.createGenericInstance`
(`generic_walker.go`), for the parameters `params` that `walkTypeList`
returned: the result, the flag, and the opaque generic after the call. -/
def createGenericInstance (CreateGenericInstance : GenericInstantiation)
    (v : OpaqueGenericType) (params : List DataType) (paramsBranch : Nat) :
    (InstanceResult × Bool) × OpaqueGenericType :=
  match v.EvalType with
  | none =>
    let ogi : OpaqueGenericInstanceType :=
      { TypeParams := params, MemoizedGenerate := none, TypeParamsBranch := paramsBranch }
    ((InstanceResult.pending v.Instances.length, true),
      { v with Instances := v.Instances ++ [ogi] })
  | some evalType =>
    match CreateGenericInstance evalType (params.map some) with
    | (gi, true) => ((InstanceResult.generated gi, true), v)
    | (_, false) => ((InstanceResult.nil, false), v)

/-! ## Copies and representation of opaque generic instances (`opaque.go`) -/

/-- Modelled from the spec: `copyTemplateSlice`, the structural copy of a slice
of types, which is not part of the available sources (`types.go`); it is a
parameter.  Its result is the copied slice together with its writes to the
opaque generic: an element that is itself an instance of the same opaque
generic (directly or nested in another element) is copied by the method
`copyTemplate` of `opaque.go`, which adds the copy to the opaque generic.
These calls are given in their order, each by the position of the instance in
the list of the opaque generic and the copied type parameters of the
instance. -/
abbrev CopyTemplateSlice := List DataType → List DataType × List (Nat × List DataType)

/-- The calls of `copyTemplate` on instances of the opaque generic `og` that
are made while a slice of types is copied: each call appends the copy of the
instance at the given position, with the memoized generate and the branch of
that instance, to the list of `og`. -/
def copyInstances : OpaqueGenericType → List (Nat × List DataType) → OpaqueGenericType
  | og, [] => og
  | og, (index, params) :: rest =>
    match og.Instances[index]? with
    | some inner =>
      copyInstances
        { og with
          Instances := og.Instances ++
            [{ TypeParams := params, MemoizedGenerate := inner.MemoizedGenerate,
               TypeParamsBranch := inner.TypeParamsBranch }] }
        rest
    | none => copyInstances og rest

/-- The method `copyTemplate` of `OpaqueGenericInstanceType` (`opaque.go`):
preserves the internal opaque generic reference while copying the type
parameters and the memoized generate, and adds the copy to the opaque
generic.  `og` is the opaque generic that `ogi.OpaqueGeneric` refers to; the
copy holds the same reference, so it is an object of the same `og`.  The type
parameters are copied first, the append to `Instances` comes after it. -/
def OpaqueGenericInstanceType.copyTemplate (copyTemplateSlice : CopyTemplateSlice)
    (ogi : OpaqueGenericInstanceType) (og : OpaqueGenericType) :
    OpaqueGenericInstanceType × OpaqueGenericType :=
  let params := copyTemplateSlice ogi.TypeParams
  let og1 := copyInstances og params.2
  let copy : OpaqueGenericInstanceType :=
    { TypeParams := params.1,
      MemoizedGenerate := ogi.MemoizedGenerate, -- this field may be `nil`
      TypeParamsBranch := ogi.TypeParamsBranch }
  (copy, { og1 with Instances := og1.Instances ++ [copy] })

/-- The method `Repr` of `OpaqueGenericInstanceType` (`opaque.go`): acts like
the representation of a generic instance type; if the memoized generate has
not been determined yet, it returns a special string.  `og` is the opaque
generic that `ogi.OpaqueGeneric` refers to: `og.EvalType.Template` is read
through it, which is a nil dereference when `og` has no evaluated type. -/
def OpaqueGenericInstanceType.Repr (baseRepr : DataType → String)
    (ogi : OpaqueGenericInstanceType) (og : OpaqueGenericType) : Except Fault String :=
  match ogi.MemoizedGenerate with
  | none => .ok "<opaque generate>"
  | some _ =>
    match og.EvalType with
    | none => .error Fault.nilDereference
    | some (.Generic _ template) =>
      .ok (Whirlwind.Repr baseRepr template ++ "<"
        ++ String.intercalate ", " (ogi.TypeParams.map (Whirlwind.Repr baseRepr)) ++ ">")
    | some _ => .error Fault.typeAssertion

/-- One operation on an opaque generic: an instance request with a parameter
list (`Walker.createGenericInstance`), `copyTemplate` on the instance at a
position of its list, or `Evaluate` with a generic type. -/
inductive OpaqueOp
  | request (params : List DataType) (paramsBranch : Nat)
  | copy (index : Nat)
  | evaluate (typeParams : List DataType) (template : DataType)

/-- The opaque generic after one operation. -/
def OpaqueOp.apply (CreateGenericInstance : GenericInstantiation)
    (copyTemplateSlice : CopyTemplateSlice)
    (og : OpaqueGenericType) : OpaqueOp → OpaqueGenericType
  | .request params paramsBranch =>
    (createGenericInstance CreateGenericInstance og params paramsBranch).2
  | .copy index =>
    match og.Instances[index]? with
    | some ogi => (ogi.copyTemplate copyTemplateSlice og).2
    | none => og
  | .evaluate typeParams template =>
    (og.Evaluate CreateGenericInstance (.Generic typeParams template)).2

/-- The opaque generic after a sequence of operations. -/
def OpaqueOp.run (CreateGenericInstance : GenericInstantiation)
    (copyTemplateSlice : CopyTemplateSlice)
    (og : OpaqueGenericType) (ops : List OpaqueOp) : OpaqueGenericType :=
  ops.foldl (OpaqueOp.apply CreateGenericInstance copyTemplateSlice) og

/-! ## The scanner (`scanner.go`) -/

/-- Token of the package `syntax`, with the four fields that `addToken` sets;
its declaration is not part of the available sources. -/
structure Token where
  Name : String
  Value : String
  Line : Nat
  Col : Nat
deriving DecidableEq

/-- The tables `keywords`, `keywordDataTypes`, `integralTypes`,
`multiParticles` and `singleParticles` of the package `syntax`, which are
declared outside `scanner.go` and not part of the available sources: they are
parameters of the scanner.  A Go map from a key to an unused value is the set
of its keys; `integralTypes` is listed in the order in which `range` visits
it. -/
structure Lexicon where
  keywords : String → Bool
  keywordDataTypes : String → Bool
  integralTypes : List (String × String)
  multiParticles : Char → Option String
  singleParticles : Char → Bool

/-- Scanner of `scanner.go`.  `file` is the part of the input that the reader
has not delivered yet, as the runes `ReadRune` returns one by one; a rune is a
`Char`. -/
structure Scanner where
  file : List Char
  fpath : String
  line : Nat
  col : Nat
  tokBuff : List Char
  pos : Nat
  curr : Char
  currValid : Bool
  Tokens : List Token
deriving DecidableEq

/-- The error `scan` returns: `Malformed Token "%s" at (Ln: %d, Col: %d)` with
the contents of the token buffer, the line and the column. -/
structure MalformedToken where
  tokBuff : String
  line : Nat
  col : Nat
deriving DecidableEq

/-- NewScanner of `scanner.go`: create a new scanner. -/
def NewScanner (file : List Char) (fpath : String) : Scanner :=
  { file := file, fpath := fpath, line := 1, col := 0, tokBuff := [], pos := 0,
    curr := Char.ofNat 0, currValid := true, Tokens := [] }

/-- Test if a rune is an ASCII letter: `r > 96 && r < 123 || r > 64 && r < 91`
(the runes before `a`, after `z`, before `A` and after `Z`). -/
def isLetter (r : Char) : Bool :=
  (decide (r.toNat > 96) && decide (r.toNat < 123)) ||
    (decide (r.toNat > 64) && decide (r.toNat < 91))

/-- Test if a rune is an ASCII digit: `r > '/' && r < ':'`. -/
def isDigit (r : Char) : Bool :=
  decide (r.toNat > 47) && decide (r.toNat < 58)

/-- The string of a rune slice, `string(s.tokBuff)`. -/
def runesToString (runes : List Char) : String := String.mk runes

/-- The function `strings.ToUpper` on the letters `a` to `z`. -/
def ToUpper (str : String) : String :=
  String.mk (str.data.map (fun c => if 96 < c.toNat ∧ c.toNat < 123 then Char.ofNat (c.toNat - 32) else c))

/-- Create a token at the current position from the provided data; `len(value)`
is the length of the string in bytes. -/
def Scanner.addToken (s : Scanner) (name value : String) : Scanner :=
  { s with
    Tokens := s.Tokens ++ [{ Name := name, Value := value, Line := s.line, Col := s.col }],
    col := s.col + value.utf8ByteSize }

/-- Discards the current token buffer. -/
def Scanner.discardBuff (s : Scanner) : Scanner := { s with tokBuff := [] }

/-- Collect the current contents of the token buffer into a string and add a
token with the name and the value of it. -/
def Scanner.pushToken (s : Scanner) : Scanner :=
  s.addToken (runesToString s.tokBuff) (runesToString s.tokBuff)

/-- Same behavior as `pushToken` except it accepts a token name. -/
def Scanner.pushTokenOf (s : Scanner) (name : String) : Scanner :=
  s.addToken name (runesToString s.tokBuff)

/-- Reads a rune from the file stream into the token buffer and returns
whether or not there are more runes to be read (`false` at the end of the
input). -/
def Scanner.readNext (s : Scanner) : Bool × Scanner :=
  match s.file with
  | [] => (false, { s with currValid := false })
  | r :: rest =>
    -- do line and column counting
    let s1 : Scanner := if r.toNat = 10 then { s with line := s.line + 1, col := 0 } else s
    (true, { s1 with file := rest, tokBuff := s1.tokBuff ++ [r], curr := r, pos := s1.pos + 1 })

/-- Same behavior as `readNext` but does not populate the token buffer. -/
def Scanner.skipNext (s : Scanner) : Bool × Scanner :=
  match s.file with
  | [] => (false, { s with currValid := false })
  | r :: rest =>
    let s1 : Scanner := if r.toNat = 10 then { s with line := s.line + 1, col := 0 } else s
    (true, { s1 with file := rest, curr := r, pos := s1.pos + 1 })

/-- The first byte of the UTF-8 encoding of a rune. -/
def firstByte (r : Char) : Nat :=
  if r.toNat < 128 then r.toNat
  else if r.toNat < 2048 then 192 + r.toNat / 64
  else if r.toNat < 65536 then 224 + r.toNat / 4096
  else 240 + r.toNat / 262144

/-- Peek a rune ahead on the scanner: peeks a single byte ahead and converts
it to a rune. -/
def Scanner.peek (s : Scanner) : Char × Bool :=
  match s.file with
  | [] => (Char.ofNat 0, false)
  | r :: _ => (Char.ofNat (firstByte r), true)

/-- The loop `for c, more := s.peek(); more; s.readNext() { ... }` of
`readWord`, entered with `more` true: `c` is the rune that the init statement
peeked.  Returns `keywordValid` and the scanner when the loop is left, `none`
when the fuel is used up before. -/
def readWordLoop (c : Char) : Nat → Bool → Scanner → Option (Bool × Scanner)
  | 0, _, _ => none
  | fuel + 1, keywordValid, s =>
    if isDigit c || c.toNat = 95 then readWordLoop c fuel false s.readNext.2
    else if !isLetter c then some (keywordValid, s)
    else readWordLoop c fuel keywordValid s.readNext.2

/-- The loop `for k, v := range integralTypes` of `readWord`: the name of the
token when an entry matches. -/
def integralTypeName (tokValue : String) : List (String × String) → Option String
  | [] => none
  | (k, v) :: rest =>
    if tokValue = k then some (ToUpper tokValue ++ "_TYPE")
    else if tokValue = v ++ k then some (ToUpper k ++ "_TYPE")
    else integralTypeName tokValue rest

/-- Reads an identifier or a keyword from the input stream (`readWord`); `none`
when the fuel is used up. -/
def Scanner.readWord (lex : Lexicon) (fuel : Nat) (s : Scanner) : Option Scanner :=
  let p := s.peek
  let loop := if p.2 then readWordLoop p.1 fuel true s else some (true, s)
  match loop with
  | none => none
  | some (keywordValid, s1) =>
    let tokValue := runesToString s1.tokBuff
    if keywordValid then
      if lex.keywords tokValue then some (s1.addToken (ToUpper tokValue) tokValue)
      else if lex.keywordDataTypes tokValue then
        some (s1.addToken (ToUpper tokValue ++ "_TYPE") tokValue)
      else
        match integralTypeName tokValue lex.integralTypes with
        | some name => some (s1.addToken name tokValue)
        | none => some (s1.addToken "IDENTIFIER" tokValue)
    else some (s1.addToken "IDENTIFIER" tokValue)

/-- The local variables of `readNumberLiteral`. -/
structure NumberFlags where
  isHex : Bool
  isBin : Bool
  isOct : Bool
  isFloat : Bool
  isUns : Bool
  isLong : Bool
  expectNeg : Bool
  eValid : Bool

/-- How one pass through the loop body of `readNumberLiteral` ends: it reaches
the post statement (`continue` or the end of the body), it leaves the loop
(`break`), or it returns `true` from the function. -/
inductive NumberStep
  | next (f : NumberFlags)
  | stop (f : NumberFlags)
  | malformed

/-- The part of the loop body of `readNumberLiteral` after the checks of the
floating-point state: determine the token type based on `s.curr`. -/
def numberKind (f : NumberFlags) (curr : Char) : NumberFlags :=
  if curr = 'x' then { f with isHex := true }
  else if curr = 'b' then { f with isBin := true }
  else if curr = 'o' then { f with isOct := true }
  else if curr = '.' then { f with isFloat := true, eValid := true }
  else if curr = 'e' then { f with isFloat := true, expectNeg := true }
  else if curr = 'u' then { f with isUns := true }
  else if curr = 'l' then { f with isLong := true }
  else f

/-- The loop body of `readNumberLiteral`. -/
def numberStep (f0 : NumberFlags) (s : Scanner) : NumberStep :=
  if f0.isLong && f0.isUns then .stop f0
  else if f0.isLong then
    if s.curr = 'u' then .next { f0 with isUns := true } else .stop f0
  else if f0.isUns then
    if s.curr = 'l' then .next { f0 with isLong := true } else .stop f0
  else
    let f : NumberFlags :=
      if f0.expectNeg && s.curr != '-' then { f0 with expectNeg := false } else f0
    if f.isBin then
      if s.curr = '0' ∨ s.curr = '1' then .next f else .stop f
    else if f.isOct then
      if s.curr.toNat > 47 ∧ s.curr.toNat < 57 then .next f else .stop f
    else if isDigit s.curr then .next f
    else if f.isHex && (decide (s.curr.toNat < 65) || decide (s.curr.toNat > 70))
        && (decide (s.curr.toNat < 97) || decide (s.curr.toNat > 102)) then .stop f
    else if f.isFloat then
      if s.curr = 'e' then
        if f.eValid then .next (numberKind { f with eValid := false } s.curr) else .stop f
      else if s.curr = '-' then
        if f.expectNeg then
          -- a non-number ahead means three tokens; the end of the input a malformed one
          if !s.peek.2 then .malformed
          else if !isDigit s.peek.1 then .stop f
          else .next (numberKind { f with expectNeg := false } s.curr)
        else .stop f
      else .stop f
    else .next (numberKind f s.curr)

/-- The loop `for ok := true; ok; ok = s.readNext()` of `readNumberLiteral`:
the flags when the loop is left (`none` when the function returns `true` from
inside the loop) and the scanner; `none` when the fuel is used up. -/
def readNumberLoop : Nat → NumberFlags → Scanner → Option (Option NumberFlags × Scanner)
  | 0, _, _ => none
  | fuel + 1, f, s =>
    match numberStep f s with
    | .malformed => some (none, s)
    | .stop f1 => some (some f1, s)
    | .next f1 =>
      let r := s.readNext
      if r.1 then readNumberLoop fuel f1 r.2 else some (some f1, r.2)

/-- Read in a floating point or integral number; returns whether the token is
malformed. -/
def Scanner.readNumberLiteral (fuel : Nat) (s : Scanner) : Option (Bool × Scanner) :=
  match readNumberLoop fuel ⟨false, false, false, false, false, false, false, false⟩ s with
  | none => none
  | some (none, s1) => some (true, s1)
  | some (some f, s1) =>
    let name :=
      if f.isFloat then "FLOAT_LITERAL"
      else if f.isBin then "BIN_LITERAL"
      else if f.isHex then "HEX_LITERAL"
      else if f.isOct then "OCT_LITERAL"
      else "INT_LITERAL"
    some (false, s1.addToken name (runesToString s1.tokBuff))

/-- The check `invalidUEscape` of `readEscapeSequence`: the rune is no
hexadecimal digit. -/
def invalidUEscape (r : Char) : Bool :=
  !isDigit r && (decide (r.toNat < 65) || decide (r.toNat > 70))
    && (decide (r.toNat < 97) || decide (r.toNat > 102))

/-- The loops `for i := 0; i < n; i++ { if !s.readNext() { return false }; if
invalidUEscape(s.curr) { return false } }` of `readEscapeSequence`: `false`
when an iteration returns. -/
def readUEscape : Nat → Scanner → Bool × Scanner
  | 0, s => (true, s)
  | n + 1, s =>
    let r := s.readNext
    if !r.1 then (false, r.2)
    else if invalidUEscape r.2.curr then (false, r.2)
    else readUEscape n r.2

/-- The runes `a b n f r t v 0 s`, the double quote, the single quote and the
backslash, which `readEscapeSequence` accepts after a backslash. -/
def escapeRunes : List Nat := [97, 98, 110, 102, 114, 116, 118, 48, 115, 34, 39, 92]

/-- The method `readEscapeSequence`: returns whether the escape sequence is
accepted. -/
def Scanner.readEscapeSequence (s : Scanner) : Bool × Scanner :=
  let r := s.readNext
  if !r.1 then (false, r.2)
  else if r.2.curr.toNat ∈ escapeRunes then (true, r.2)
  else if r.2.curr = 'u' then readUEscape 4 r.2
  else if r.2.curr = 'U' then readUEscape 8 r.2
  else (true, r.2)

/-- The loop `for s.readNext() { ... }` of `readStringLiteral`: the value of
`expectingEscape` when the loop is left (`none` when the function returns
`true` from inside the loop) and the scanner; `none` when the fuel is used
up. -/
def readStringLoop : Nat → Bool → Scanner → Option (Option Bool × Scanner)
  | 0, _, _ => none
  | fuel + 1, expectingEscape, s =>
    let r := s.readNext
    if !r.1 then some (some expectingEscape, r.2)
    else
      -- test for escape first
      let e := if expectingEscape then r.2.readEscapeSequence else (true, r.2)
      if !e.1 then some (none, e.2)
      else if e.2.curr.toNat = 92 then readStringLoop fuel true e.2
      else if e.2.curr.toNat = 34 then some (some false, e.2)
      else readStringLoop fuel false e.2

/-- Read in a string literal; returns whether the token is malformed.  The
token buffer holds the opening quote, so its last rune exists. -/
def Scanner.readStringLiteral (fuel : Nat) (s : Scanner) : Option (Bool × Scanner) :=
  match readStringLoop fuel false s with
  | none => none
  | some (none, s1) => some (true, s1)
  | some (some expectingEscape, s1) =>
    -- escape sequence occurred at end of file
    if expectingEscape then some (true, s1)
    -- EOF occurred before end of string
    else if (s1.tokBuff.getLast?.map Char.toNat) != some 34 then some (true, s1)
    else some (false, s1.pushTokenOf "STRING_LITERAL")

/-- Read in a char literal (`readCharLiteral`); the returned flag is what the
source returns. -/
def Scanner.readCharLiteral (s : Scanner) : Bool × Scanner :=
  -- if the char has no content then it is malformed
  let r1 := s.readNext
  if !r1.1 then (false, r1.2)
  else
    -- if there is an escape sequence, read it and if it is invalid, char lit is malformed
    let e := if r1.2.curr.toNat = 92 then r1.2.readEscapeSequence else (true, r1.2)
    if !e.1 then (false, e.2)
    else
      -- not a closing quote: too long, or we are at EOF
      let r2 := e.2.readNext
      if !r2.1 || r2.2.curr.toNat != 39 then (false, r2.2)
      -- assume it is properly formed
      else (true, r2.2.pushTokenOf "CHAR_LITERAL")

/-- The loop `for s.skipNext() && s.curr != '\n' { }` of `skipLineComment`. -/
def Scanner.skipLineComment : Nat → Scanner → Option Scanner
  | 0, _ => none
  | fuel + 1, s =>
    let r := s.skipNext
    if r.1 && r.2.curr.toNat != 10 then Scanner.skipLineComment fuel r.2 else some r.2

/-- The loop `for s.skipNext() { ... }` of `skipBlockComment`. -/
def skipBlockLoop : Nat → Scanner → Option Scanner
  | 0, _ => none
  | fuel + 1, s =>
    let r := s.skipNext
    if !r.1 then some r.2
    else if r.2.curr = '*' ∧ r.2.peek.2 = true ∧ r.2.peek.1 = '/' then some r.2.skipNext.2
    else skipBlockLoop fuel r.2

/-- The method `skipBlockComment`: skip the opening `*`, then the comment. -/
def Scanner.skipBlockComment (fuel : Nat) (s : Scanner) : Option Scanner :=
  skipBlockLoop fuel s.skipNext.2

/-- The loop `for i := 0; i < 2; i++ { p, more := s.peek(); if more && p == '.'
{ s.readNext() } }` of `scan`. -/
def readDots : Nat → Scanner → Scanner
  | 0, s => s
  | n + 1, s =>
    if s.peek.2 = true ∧ s.peek.1 = '.' then readDots n s.readNext.2 else readDots n s

/-- The `switch s.curr` of `scan` for a rune that is no white space: the value
of `malformed` and the scanner after it; `none` when the fuel is used up. -/
def scanToken (lex : Lexicon) (fuel : Nat) (s : Scanner) : Option (Bool × Scanner) :=
  -- handle string-like
  if s.curr.toNat = 34 then s.readStringLiteral fuel
  else if s.curr.toNat = 39 then some s.readCharLiteral
  -- handle comments
  else if s.curr = '/' then
    let p := s.peek
    let s1 := if !p.2 then s.pushToken else s
    if p.1 = '/' then (s1.skipLineComment fuel).map (fun s2 => (false, s2))
    else if p.1 = '*' then (s1.skipBlockComment fuel).map (fun s2 => (false, s2))
    else some (false, s1.pushToken)
  -- read in the '.', '..', and '...' tokens
  else if s.curr = '.' then some (false, (readDots 2 s).pushToken)
  -- check for identifiers
  else if isLetter s.curr then (s.readWord lex fuel).map (fun s1 => (false, s1))
  -- check numeric literals
  else if isDigit s.curr then s.readNumberLiteral fuel
  else
    match lex.multiParticles s.curr with
    -- handle compound operators
    | some follows =>
      let p := s.peek
      let s1 := if p.2 = true ∧ p.1 ∈ follows.data then s.readNext.2 else s
      some (false, s1.pushToken)
    | none =>
      -- simple, single token operators
      if lex.singleParticles s.curr then some (false, s.pushToken)
      -- any other token must be malformed in some way
      else some (false, s)

/-- The method `scan`: run the main scanning algorithm.  Returns the error (or
`nil`) and the scanner; `none` when the fuel is used up before `scan`
returns. -/
def Scanner.scan (lex : Lexicon) : Nat → Scanner → Option (Option MalformedToken × Scanner)
  | 0, _ => none
  | fuel + 1, s =>
    let r := s.readNext
    if !r.1 then some (none, r.2)
    -- skip white space
    else if r.2.curr = ' ' ∨ r.2.curr.toNat = 9 ∨ r.2.curr.toNat = 10 then
      Scanner.scan lex fuel r.2
    else
      match scanToken lex fuel r.2 with
      | none => none
      | some (malformed, s1) =>
        -- error out on any malformed tokens (along with contents of token buffer)
        if malformed then
          some (some { tokBuff := runesToString s1.tokBuff, line := s1.line, col := s1.col }, s1)
        -- discard the buff for the current scanned token
        else Scanner.scan lex fuel s1.discardBuff

/-! ## Concrete types used in the examples -/

/-- The solver with no binding and no recorded instance. -/
def emptySolver : Solver :=
  { LocalBindings := { Bindings := [] }, GlobalBindings := { Bindings := [] },
    Instances := fun _ => [] }

/-- A generic instantiation that always fails; no example below holds a
generic binding. -/
def noGenerics : GenericInstantiation := fun _ _ => (none, false)

def boolType : DataType := .Primitive PrimKind.PrimKindBoolean 0
def anyType : DataType := .Primitive PrimKind.PrimKindUnit 1
def runeType : DataType := .Primitive PrimKind.PrimKindText PrimTextRune
def stringType : DataType := .Primitive PrimKind.PrimKindText PrimTextString
def int16Type : DataType := .Primitive PrimKind.PrimKindIntegral PrimIntI16
def int32Type : DataType := .Primitive PrimKind.PrimKindIntegral PrimIntI32
def int64Type : DataType := .Primitive PrimKind.PrimKindIntegral PrimIntI64
def uint64Type : DataType := .Primitive PrimKind.PrimKindIntegral PrimIntU64
def floatType : DataType := .Primitive PrimKind.PrimKindFloating 0

/-- The struct `Circle` of the interface scenario. -/
def circleType : DataType :=
  .Struct "Circle" 0 [("radius", ⟨floatType, false, false⟩)] none false

/-- The interface `Shape{area() float}` with its abstract method. -/
def shapeInterf : InterfType :=
  ⟨1, [("area", ⟨.Func [] floatType, MethodKind.MKAbstract, []⟩)]⟩

/-- An interface bound to `Circle` that supplies `area() float`. -/
def areaInterf : InterfType :=
  ⟨2, [("area", ⟨.Func [] floatType, MethodKind.MKVirtual, []⟩)]⟩

/-- An interface bound to `Circle` that supplies `perimeter() float` only. -/
def perimeterInterf : InterfType :=
  ⟨3, [("perimeter", ⟨.Func [] floatType, MethodKind.MKVirtual, []⟩)]⟩

/-- An unresolved opaque type (a forward reference to `Node`). -/
def nodeOpaque : DataType := .Opaque "Node" none

/-- The solver whose local registry holds one binding of the interface to the
match type `T`, an unconstrained wildcard. -/
def wildcardSolver (it : InterfType) : Solver :=
  { LocalBindings :=
      { Bindings := [{ MatchType := .Wildcard "T" [] none, Wildcards := [⟨"T", [], none⟩],
                       TypeInterf := .Interf it, Exported := false }] },
    GlobalBindings := { Bindings := [] },
    Instances := fun _ => [] }

/-- The state `wildcardSolver areaInterf` with `Node` recorded as an instance of
`Shape`. -/
def nodeMemoSolver : Solver :=
  { wildcardSolver areaInterf with Instances := Function.update (fun _ => []) 1 [nodeOpaque] }

/-- The solver whose local registry holds the given bindings for `Circle`, in
that order. -/
def circleSolver (interfs : List InterfType) : Solver :=
  { LocalBindings :=
      { Bindings := interfs.map (fun it =>
          { MatchType := circleType, Wildcards := [], TypeInterf := .Interf it,
            Exported := false }) },
    GlobalBindings := { Bindings := [] },
    Instances := fun _ => [] }

/-- The state `circleSolver [areaInterf]` with `Circle` recorded as an instance
of `Shape`. -/
def circleMemoSolver : Solver :=
  { circleSolver [areaInterf] with Instances := Function.update (fun _ => []) 1 [circleType] }


/-- Modelled from the spec: a concrete `GenericSpecialization.Match` for the
examples: the matching types of the two specializations are pairwise equal. -/
def specMatch : SpecializationMatch := fun a b => EqualsList a b

/-- The struct `Vec2{x: int, y: int}`. -/
def vec2Type : DataType :=
  .Struct "Vec2" 0 [("x", ⟨int32Type, false, false⟩), ("y", ⟨int32Type, false, false⟩)] none false

/-- The struct `Point2D{x: int, y: int}`, declared in another package. -/
def point2DType : DataType :=
  .Struct "Point2D" 1 [("x", ⟨int32Type, false, false⟩), ("y", ⟨int32Type, false, false⟩)]
    none false

/-- A struct with one field of the unresolved opaque type `Node`. -/
def linkType : DataType := .Struct "Link" 0 [("next", ⟨nodeOpaque, false, false⟩)] none false

/-- Another struct with the same field of the unresolved opaque type `Node`. -/
def chainType : DataType := .Struct "Chain" 0 [("next", ⟨nodeOpaque, false, false⟩)] none false

/-- A child interface that overrides `draw` with one specialization and
declares `name`. -/
def childInterf : InterfType :=
  ⟨10, [("draw", ⟨.Func [] floatType, MethodKind.MKVirtual, [[int32Type]]⟩),
        ("name", ⟨.Func [] stringType, MethodKind.MKVirtual, []⟩)]⟩

/-- A parent interface: abstract `draw` with one specialization, virtual
`area` and abstract `scale`. -/
def parentInterf : InterfType :=
  ⟨11, [("draw", ⟨.Func [] floatType, MethodKind.MKAbstract, [[floatType]]⟩),
        ("area", ⟨.Func [] floatType, MethodKind.MKVirtual, []⟩),
        ("scale", ⟨.Func [floatType] floatType, MethodKind.MKAbstract, []⟩)]⟩

/-- A binding of `areaInterf` to `Circle`. -/
def circleBinding : Binding :=
  { MatchType := circleType, Wildcards := [], TypeInterf := .Interf areaInterf, Exported := true }

/-- A binding of `perimeterInterf` to `int32`. -/
def intBinding : Binding :=
  { MatchType := int32Type, Wildcards := [], TypeInterf := .Interf perimeterInterf,
    Exported := true }

/-- A new binding for `Circle` whose interface declares `area` as well. -/
def circleNewBinding : Binding :=
  { MatchType := circleType, Wildcards := [], TypeInterf := .Interf shapeInterf,
    Exported := false }

/-- A binding of `areaInterf` to the wildcard `T`, which still holds the value
`int32` of an earlier match. -/
def staleBinding : Binding :=
  { MatchType := .Wildcard "T" [] (some int32Type), Wildcards := [⟨"T", [], some int32Type⟩],
    TypeInterf := .Interf areaInterf, Exported := false }

/-- The binding `staleBinding` with the value of `T` cleared. -/
def clearedBinding : Binding :=
  { MatchType := .Wildcard "T" [] none, Wildcards := [⟨"T", [], none⟩],
    TypeInterf := .Interf areaInterf, Exported := false }

/-- A new binding of `shapeInterf` to `int32`. -/
def intNewBinding : Binding :=
  { MatchType := int32Type, Wildcards := [], TypeInterf := .Interf shapeInterf,
    Exported := false }

/-- A generic `Option<T>`-like template used in the examples. -/
def boxGeneric : DataType := .Generic [.Wildcard "T" [] none] (.Tuple [.Wildcard "T" [] none])

/-- Another generic, with two type parameters. -/
def pairGeneric : DataType :=
  .Generic [.Wildcard "T" [] none, .Wildcard "U" [] none]
    (.Tuple [.Wildcard "T" [] none, .Wildcard "U" [] none])

/-- A generic instantiation for the examples: it accepts exactly as many type
parameters as the generic declares and records them in the instance. -/
def arityInstantiation : GenericInstantiation := fun g params =>
  match g with
  | .Generic tps _ =>
    if tps.length = params.length then (some (.GenericInstance g (params.filterMap id) none), true)
    else (none, false)
  | _ => (none, false)

/-- An unresolved opaque generic with no pending instance. -/
def freshOpaque : OpaqueGenericType := { EvalType := none, Instances := [] }

/-- A tuple type that is longer than `(int32)`. -/
def pairTuple : DataType := .Tuple [int32Type, int32Type]

/-- The tuple type `(int32)`. -/
def singleTuple : DataType := .Tuple [int32Type]

/-- The type set `{(int32, int32), (int32)}`, not intrinsic. -/
def tupleSet : DataType := .Constraint "Tuples" [pairTuple, singleTuple] false

/-- An unbound wildcard whose constraints are the tuple types `(int32, int32)`
and `(int32)`. -/
def tupleWildcard : DataType := .Wildcard "T" [pairTuple, singleTuple] none

/-- The algebraic type `Option` with the variants `Some(int32)` and `None`. -/
def optionType : DataType :=
  .Algebraic "Option" 0 [.AlgebraicVariant "Some" [int32Type], .AlgebraicVariant "None" []] false

/-- An algebraic type `Maybe` with exactly the variants of `Option`. -/
def maybeType : DataType :=
  .Algebraic "Maybe" 0 [.AlgebraicVariant "Some" [int32Type], .AlgebraicVariant "None" []] false

/-- The type set `{int32, float}`. -/
def numberSet : DataType := .Constraint "Number" [int32Type, floatType] false

/-- Modelled from the spec: `copyTemplateSlice` for the examples: a slice
whose single element is an opaque generic instance holds the instance at the
first position of the list of the opaque generic, which is copied by
`copyTemplate` with its own type parameters; every other slice is copied
without a write to the opaque generic. -/
def nestedSliceCopy : CopyTemplateSlice := fun params =>
  match params with
  | [.OpaqueGenericInstance inner _] => (params, [(0, inner)])
  | _ => (params, [])

/-- A representation of types for the examples, by the kind of the type. -/
def kindRepr : DataType → String
  | .Primitive _ _ => "prim"
  | .Tuple _ => "tuple"
  | _ => "type"

/-- An unresolved opaque type whose name is the text of the special string of
an opaque generic instance without its brackets. -/
def generateNamedOpaque : DataType := .Opaque "opaque generate" none

/-- A parent interface whose abstract method `draw` has the two
specializations `[float]` and `[bool]`. -/
def wideParentInterf : InterfType :=
  ⟨12, [("draw", ⟨.Func [] floatType, MethodKind.MKAbstract, [[floatType], [boolType]]⟩)]⟩

/-- A lexicon for the examples: the keyword `if`, the data type keyword
`bool`, the integral type `int` with the prefix `u`, the compound operators
that start with `=` and the single operator `;`. -/
def exampleLexicon : Lexicon :=
  { keywords := fun w => w = "if",
    keywordDataTypes := fun w => w = "bool",
    integralTypes := [("int", "u")],
    multiParticles := fun c => if c = '=' then some "=>" else none,
    singleParticles := fun c => c = ';' }

/-- The input that holds the char literal of the rune `a`: a single quote, `a`
and a single quote. -/
def charLiteralInput : List Char := [Char.ofNat 39, 'a', Char.ofNat 39]

/-- The input of a char literal that is too long: a single quote, `a`, `b` and
a single quote. -/
def longCharLiteralInput : List Char := [Char.ofNat 39, 'a', 'b', Char.ofNat 39]

/-- The input of a char literal without content and without closing quote: a
single quote at the end of the input. -/
def openCharLiteralInput : List Char := [Char.ofNat 39]

/-! ## Lemmas on primitive types -/

theorem Equals_Primitive (k k2 : PrimKind) (sp sp2 : Nat) :
    Equals (.Primitive k sp) (.Primitive k2 sp2) = (k == k2 && sp == sp2) := by
  simp [Equals, InnerType]

/-- One call of `CoerceTo` on two primitive types, in closed form. -/
theorem CoerceTo_Primitive (cgi : GenericInstantiation) (fuel : Nat) (s : Solver)
    (ka kb : PrimKind) (sa sb : Nat) :
    CoerceTo cgi (fuel + 1) s (.Primitive ka sa) (.Primitive kb sb) =
      .ok (decide ((ka = kb ∧ sa = sb) ∨ (kb = PrimKind.PrimKindUnit ∧ sb = 1)
        ∨ (kb = PrimKind.PrimKindFloating ∧ ka = PrimKind.PrimKindFloating ∧ sa < sb)
        ∨ (kb = PrimKind.PrimKindIntegral ∧ ka = PrimKind.PrimKindIntegral ∧
            sb % 2 = sa % 2 ∧ sb > sa)
        ∨ (kb = PrimKind.PrimKindText ∧ sb = 1 ∧ sa = 0)), s) := by
  simp only [CoerceTo, Equals_Primitive, InnerType, coerceSwitch]
  by_cases h : ka = kb ∧ sa = sb
  · simp [h]
  · have h2 : (ka == kb && sa == sb) = false := by
      simpa using h
    simp only [h2]
    cases kb <;> simp [h] <;> split <;> simp_all

/-- One call of `CastTo` on two primitive types, in closed form. -/
theorem CastTo_Primitive (cgi : GenericInstantiation) (fuel : Nat) (s : Solver)
    (ka kb : PrimKind) (sa sb : Nat) :
    CastTo cgi (fuel + 1) s (.Primitive ka sa) (.Primitive kb sb) =
      .ok (decide ((ka = PrimKind.PrimKindUnit ∧ sa = 1)
        ∨ (ka.Numeric = true ∧ kb.Numeric = true)
        ∨ (ka = PrimKind.PrimKindBoolean ∧ kb = PrimKind.PrimKindIntegral)), s) := by
  simp only [CastTo, InnerType, castSwitch]
  by_cases h : ka = PrimKind.PrimKindUnit ∧ sa = 1
  · simp [h]
  · simp only [h, if_false]
    cases ka <;> cases kb <;> simp_all [PrimKind.Numeric]

theorem result_ok (b : Bool) (s : Solver) : Check.result (.ok (b, s)) = some b := rfl

/-! ## `Equals` is reflexive on resolved types -/

theorem InnerType_idem : ∀ (b : DataType), InnerType (InnerType b) = InnerType b
  | .Wildcard _ _ (some v) => by simpa [InnerType] using InnerType_idem v
  | .Opaque _ (some e) => by simpa [InnerType] using InnerType_idem e
  | .OpaqueGeneric (some e) => by simpa [InnerType] using InnerType_idem e
  | .OpaqueGenericInstance _ (some g) => by simpa [InnerType] using InnerType_idem g
  | .Wildcard _ _ none => by simp [InnerType]
  | .Opaque _ none => by simp [InnerType]
  | .OpaqueGeneric none => by simp [InnerType]
  | .OpaqueGenericInstance _ none => by simp [InnerType]
  | .Primitive _ _ => by simp [InnerType]
  | .Tuple _ => by simp [InnerType]
  | .Vector _ _ => by simp [InnerType]
  | .Ref _ _ => by simp [InnerType]
  | .Struct _ _ _ _ _ => by simp [InnerType]
  | .Interf _ => by simp [InnerType]
  | .Algebraic _ _ _ _ => by simp [InnerType]
  | .AlgebraicVariant _ _ => by simp [InnerType]
  | .Constraint _ _ _ => by simp [InnerType]
  | .Func _ _ => by simp [InnerType]
  | .Generic _ _ => by simp [InnerType]
  | .GenericInstance _ _ _ => by simp [InnerType]

theorem Equals_InnerType_right : ∀ (a b : DataType), Equals a (InnerType b) = Equals a b
  | .Wildcard _ _ (some v), b => by simpa [Equals] using Equals_InnerType_right v b
  | .Opaque _ (some e), b => by simpa [Equals] using Equals_InnerType_right e b
  | .OpaqueGeneric (some e), b => by simpa [Equals] using Equals_InnerType_right e b
  | .OpaqueGenericInstance _ (some g), b => by simpa [Equals] using Equals_InnerType_right g b
  | .Wildcard _ _ none, _ => by simp [Equals]
  | .Opaque _ none, _ => by simp [Equals]
  | .OpaqueGeneric none, _ => by simp [Equals]
  | .OpaqueGenericInstance _ none, _ => by simp [Equals]
  | .Primitive _ _, b => by simp only [Equals, InnerType_idem]
  | .Tuple _, b => by simp only [Equals, InnerType_idem]
  | .Vector _ _, b => by simp only [Equals, InnerType_idem]
  | .Ref _ _, b => by simp only [Equals, InnerType_idem]
  | .Struct _ _ _ _ _, b => by simp only [Equals, InnerType_idem]
  | .Interf _, b => by simp only [Equals, InnerType_idem]
  | .Algebraic _ _ _ _, b => by simp only [Equals, InnerType_idem]
  | .AlgebraicVariant _ _, b => by simp only [Equals, InnerType_idem]
  | .Constraint _ _ _, b => by simp only [Equals, InnerType_idem]
  | .Func _ _, b => by simp only [Equals, InnerType_idem]
  | .Generic _ _, b => by simp only [Equals, InnerType_idem]
  | .GenericInstance _ _ _, b => by simp only [Equals, InnerType_idem]

theorem lookup_of_mem_of_nodup {β : Type} :
    ∀ (l : List (String × β)) (a : String) (b : β),
      (l.map Prod.fst).Nodup → (a, b) ∈ l → l.lookup a = some b
  | [], _, _, _, h => by simp at h
  | (k, v) :: rest, a, b, hnd, h => by
    simp only [List.map_cons, List.nodup_cons, List.mem_map, not_exists, not_and] at hnd
    simp only [List.mem_cons, Prod.mk.injEq] at h
    rcases h with ⟨rfl, rfl⟩ | h
    · simp [List.lookup]
    · have hne : a ≠ k := by
        intro hak
        subst hak
        exact hnd.1 (a, b) h rfl
      have hne2 : (a == k) = false := by simpa using hne
      simp only [List.lookup, hne2]
      exact lookup_of_mem_of_nodup rest a b hnd.2 h

mutual
theorem Equals_refl_of_Resolved : ∀ (t : DataType), Resolved t = true → Equals t t = true
  | .Primitive k sp, _ => by simp [Equals, InnerType]
  | .Tuple xs, h => by
    have := EqualsList_refl_of_Resolved xs (by simpa [Resolved] using h)
    simpa [Equals, InnerType] using this
  | .Vector e n, h => by
    have := Equals_refl_of_Resolved e (by simpa [Resolved] using h)
    simpa [Equals, InnerType] using this
  | .Ref e c, h => by
    have := Equals_refl_of_Resolved e (by simpa [Resolved] using h)
    simpa [Equals, InnerType] using this
  | .Struct n p fs inh pk, h => by
    simp only [Resolved, Bool.and_eq_true, decide_eq_true_eq] at h
    have h1 := EqualsFields_refl_of_Resolved fs fs
      (fun a b hm => lookup_of_mem_of_nodup fs a b h.1.1 hm) h.1.2
    have h2 := EqualsOption_refl_of_Resolved inh h.2
    simp [Equals, InnerType, h1, h2]
  | .Interf it, h => by
    have := EqualsInterf_refl_of_Resolved it (by simpa [Resolved] using h)
    simpa [Equals, InnerType] using this
  | .Algebraic n p vs c, h => by
    have := EqualsList_refl_of_Resolved vs (by simpa [Resolved] using h)
    simpa [Equals, InnerType] using this
  | .AlgebraicVariant n vs, h => by
    have := EqualsList_refl_of_Resolved vs (by simpa [Resolved] using h)
    simpa [Equals, InnerType] using this
  | .Constraint n ts i, h => by
    have := EqualsList_refl_of_Resolved ts (by simpa [Resolved] using h)
    simpa [Equals, InnerType] using this
  | .Func ps r, h => by
    simp only [Resolved, Bool.and_eq_true] at h
    have h1 := EqualsList_refl_of_Resolved ps h.1
    have h2 := Equals_refl_of_Resolved r h.2
    simp [Equals, InnerType, h1, h2]
  | .Generic tps t, h => by
    have := Equals_refl_of_Resolved t (by simpa [Resolved] using h)
    simpa [Equals, InnerType] using this
  | .GenericInstance g tps m, h => by
    simp only [Resolved, Bool.and_eq_true] at h
    have h1 := Equals_refl_of_Resolved g h.1
    have h2 := EqualsList_refl_of_Resolved tps h.2
    simp [Equals, InnerType, h1, h2]
  | .Wildcard n cs (some v), h => by
    have hv := Equals_refl_of_Resolved v (by simpa [Resolved] using h)
    have := Equals_InnerType_right v (.Wildcard n cs (some v))
    rw [InnerType, Equals_InnerType_right] at this
    simp only [Equals]
    rw [← this]
    exact hv
  | .Opaque n (some e), h => by
    have hv := Equals_refl_of_Resolved e (by simpa [Resolved] using h)
    have := Equals_InnerType_right e (.Opaque n (some e))
    rw [InnerType, Equals_InnerType_right] at this
    simp only [Equals]
    rw [← this]
    exact hv
  | .OpaqueGeneric (some e), h => by
    have hv := Equals_refl_of_Resolved e (by simpa [Resolved] using h)
    have := Equals_InnerType_right e (.OpaqueGeneric (some e))
    rw [InnerType, Equals_InnerType_right] at this
    simp only [Equals]
    rw [← this]
    exact hv
  | .OpaqueGenericInstance tps (some g), h => by
    have hv := Equals_refl_of_Resolved g (by simpa [Resolved] using h)
    have := Equals_InnerType_right g (.OpaqueGenericInstance tps (some g))
    rw [InnerType, Equals_InnerType_right] at this
    simp only [Equals]
    rw [← this]
    exact hv
  | .Wildcard _ _ none, h => by simp [Resolved] at h
  | .Opaque _ none, h => by simp [Resolved] at h
  | .OpaqueGeneric none, h => by simp [Resolved] at h
  | .OpaqueGenericInstance _ none, h => by simp [Resolved] at h
termination_by structural t => t
theorem EqualsList_refl_of_Resolved : ∀ (ts : List DataType), ResolvedList ts = true →
    EqualsList ts ts = true
  | [], _ => by simp [EqualsList]
  | x :: xs, h => by
    simp only [ResolvedList, Bool.and_eq_true] at h
    simp [EqualsList, Equals_refl_of_Resolved x h.1, EqualsList_refl_of_Resolved xs h.2]
termination_by structural ts => ts
theorem EqualsOption_refl_of_Resolved : ∀ (o : Option DataType), ResolvedOption o = true →
    EqualsOption o o = true
  | none, _ => by simp [EqualsOption]
  | some t, h => by
    simpa [EqualsOption] using Equals_refl_of_Resolved t (by simpa [ResolvedOption] using h)
termination_by structural o => o
theorem EqualsFields_refl_of_Resolved :
    ∀ (part full : List (String × TypeValueOf DataType)),
      (∀ a b, (a, b) ∈ part → full.lookup a = some b) → ResolvedFields part = true →
      EqualsFields part full = true
  | [], _, _, _ => by simp [EqualsFields]
  | f :: fs, full, hl, h => by
    simp only [ResolvedFields, Bool.and_eq_true] at h
    have h1 := EqualsField_refl_of_Resolved f full
      (hl f.1 f.2 (by simp)) h.1
    have h2 := EqualsFields_refl_of_Resolved fs full
      (fun a b hm => hl a b (List.mem_cons_of_mem _ hm)) h.2
    simp [EqualsFields, h1, h2]
termination_by structural part => part
theorem EqualsField_refl_of_Resolved :
    ∀ (f : String × TypeValueOf DataType) (full : List (String × TypeValueOf DataType)),
      full.lookup f.1 = some f.2 → ResolvedField f = true → EqualsField f full = true
  | (name, tv), full, hl, h => by
    have := EqualsTypeValue_refl_of_Resolved tv (by simpa [ResolvedField] using h)
    simp only at hl
    simp [EqualsField, hl, this]
termination_by structural f => f
theorem EqualsTypeValue_refl_of_Resolved : ∀ (tv : TypeValueOf DataType),
    ResolvedTypeValue tv = true → EqualsTypeValue tv tv = true
  | ⟨t, c, v⟩, h => by
    have := Equals_refl_of_Resolved t (by simpa [ResolvedTypeValue] using h)
    simp [EqualsTypeValue, this]
termination_by structural tv => tv
theorem EqualsInterf_refl_of_Resolved : ∀ (it : InterfTypeOf DataType),
    ResolvedInterf it = true → EqualsInterf it it = true
  | ⟨a, ms⟩, h => by
    simp only [ResolvedInterf, Bool.and_eq_true, decide_eq_true_eq] at h
    have := EqualsMethods_refl_of_Resolved ms ms
      (fun a b hm => lookup_of_mem_of_nodup ms a b h.1 hm) h.2
    simp [EqualsInterf, this]
termination_by structural it => it
theorem EqualsMethods_refl_of_Resolved :
    ∀ (part full : List (String × InterfMethodOf DataType)),
      (∀ a b, (a, b) ∈ part → full.lookup a = some b) → ResolvedMethods part = true →
      EqualsMethods part full = true
  | [], _, _, _ => by simp [EqualsMethods]
  | m :: ms, full, hl, h => by
    simp only [ResolvedMethods, Bool.and_eq_true] at h
    have h1 := EqualsMethod_refl_of_Resolved m full (hl m.1 m.2 (by simp)) h.1
    have h2 := EqualsMethods_refl_of_Resolved ms full
      (fun a b hm => hl a b (List.mem_cons_of_mem _ hm)) h.2
    simp [EqualsMethods, h1, h2]
termination_by structural part => part
theorem EqualsMethod_refl_of_Resolved :
    ∀ (m : String × InterfMethodOf DataType) (full : List (String × InterfMethodOf DataType)),
      full.lookup m.1 = some m.2 → ResolvedMethod m = true → EqualsMethod m full = true
  | (name, m), full, hl, h => by
    have := EqualsSignature_refl_of_Resolved m (by simpa [ResolvedMethod] using h)
    simp only at hl
    simp [EqualsMethod, hl, this]
termination_by structural m => m
theorem EqualsSignature_refl_of_Resolved : ∀ (m : InterfMethodOf DataType),
    ResolvedSignature m = true → EqualsSignature m m = true
  | ⟨sig, k, sp⟩, h => by
    have := Equals_refl_of_Resolved sig (by simpa [ResolvedSignature] using h)
    simp [EqualsSignature, this]
termination_by structural m => m
end

/-! ## Claims on primitive conversions -/

/-- C1 (counterexample): `CoerceTo(rune, string)` is true while
`CastTo(rune, string)` is false, so casting alone is not a superset of
coercion. -/
theorem CoerceTo_rune_string_without_CastTo :
    (CoerceTo noGenerics 1 emptySolver runeType stringType).result = some true ∧
    (CastTo noGenerics 1 emptySolver runeType stringType).result = some false := by
  decide

/-- C1 (amended): for primitive types `A` and `B` with `B` of a numeric kind
(integral or floating), `CoerceTo(A, B)` implies `CastTo(A, B)`. -/
theorem CastTo_of_CoerceTo_numeric (cgi : GenericInstantiation) (fuel : Nat) (s : Solver)
    (ka kb : PrimKind) (sa sb : Nat) (hnum : kb.Numeric = true)
    (h : (CoerceTo cgi (fuel + 1) s (.Primitive ka sa) (.Primitive kb sb)).result = some true) :
    (CastTo cgi (fuel + 1) s (.Primitive ka sa) (.Primitive kb sb)).result = some true := by
  rw [CoerceTo_Primitive, result_ok] at h
  rw [CastTo_Primitive, result_ok]
  simp only [Option.some.injEq, decide_eq_true_eq] at h ⊢
  rcases h with h | h | h | h | h
  · right; left
    rw [h.1]
    exact ⟨hnum, hnum⟩
  · rw [h.1] at hnum
    simp [PrimKind.Numeric] at hnum
  · right; left
    refine ⟨?_, hnum⟩
    rw [h.2.1]
    rfl
  · right; left
    refine ⟨?_, hnum⟩
    rw [h.2.1]
    rfl
  · rw [h.1] at hnum
    simp [PrimKind.Numeric] at hnum

/-- Witness of C1 (amended) at `int16` and `int64`. -/
theorem CastTo_of_CoerceTo_numeric_witness :
    PrimKind.PrimKindIntegral.Numeric = true ∧
    (CoerceTo noGenerics 1 emptySolver int16Type int64Type).result = some true ∧
    (CastTo noGenerics 1 emptySolver int16Type int64Type).result = some true :=
  ⟨by decide, by decide,
    CastTo_of_CoerceTo_numeric noGenerics 0 emptySolver PrimKind.PrimKindIntegral
      PrimKind.PrimKindIntegral PrimIntI16 PrimIntI64 (by decide) (by decide)⟩

/-- C2 (counterexample): an unresolved opaque type does not coerce to
itself. -/
theorem CoerceTo_unresolved_opaque_self :
    (CoerceTo noGenerics 1 emptySolver (.Opaque "Node" none) (.Opaque "Node" none)).result
      = some false := by
  decide

/-- C2 (amended): coercion is reflexive on resolved types: for every type `T`
that holds no unresolved opaque placeholder and no wildcard without value,
`T` is equal to itself and `CoerceTo(T, T)` returns true, leaving the solver
unchanged. -/
theorem CoerceTo_refl_of_Resolved (cgi : GenericInstantiation) (fuel : Nat) (s : Solver)
    (T : DataType) (h : Resolved T = true) :
    Equals T T = true ∧ CoerceTo cgi (fuel + 1) s T T = .ok (true, s) := by
  have hE := Equals_refl_of_Resolved T h
  exact ⟨hE, by simp [CoerceTo, hE]⟩

/-- Witness of C2 (amended) at the struct `Circle`. -/
theorem CoerceTo_refl_of_Resolved_witness :
    Resolved circleType = true ∧
    CoerceTo noGenerics 1 emptySolver circleType circleType = .ok (true, emptySolver) :=
  ⟨by decide, (CoerceTo_refl_of_Resolved noGenerics 0 emptySolver circleType (by decide)).2⟩

/-- C3: direction invariant: for distinct primitive types `A` and `B`, if
`CoerceTo(A, B)` is true then `CoerceTo(B, A)` is false. -/
theorem CoerceTo_Primitive_no_cycle (cgi : GenericInstantiation) (fuel : Nat) (s s2 : Solver)
    (ka kb : PrimKind) (sa sb : Nat)
    (hne : DataType.Primitive ka sa ≠ DataType.Primitive kb sb)
    (h : (CoerceTo cgi (fuel + 1) s (.Primitive ka sa) (.Primitive kb sb)).result = some true) :
    (CoerceTo cgi (fuel + 1) s2 (.Primitive kb sb) (.Primitive ka sa)).result = some false := by
  rw [CoerceTo_Primitive, result_ok] at h
  rw [CoerceTo_Primitive, result_ok]
  simp only [Option.some.injEq, decide_eq_true_eq, decide_eq_false_iff_not] at h ⊢
  have hne2 : ¬ (ka = kb ∧ sa = sb) := by
    rintro ⟨h1, h2⟩
    exact hne (by rw [h1, h2])
  rcases h with h | h | h | h | h
  · exact absurd h hne2
  · obtain ⟨h1, h2⟩ := h
    subst h1 h2
    rintro (h | h | h | h | h)
    · exact hne2 ⟨h.1.symm, h.2.symm⟩
    · exact hne2 ⟨h.1, h.2⟩
    · simp at h
    · simp at h
    · simp at h
  · obtain ⟨h1, h2, h3⟩ := h
    subst h1 h2
    rintro (h | h | h | h | h)
    · omega
    · simp at h
    · omega
    · simp at h
    · simp at h
  · obtain ⟨h1, h2, h3, h4⟩ := h
    subst h1 h2
    rintro (h | h | h | h | h)
    · omega
    · simp at h
    · simp at h
    · omega
    · simp at h
  · obtain ⟨h1, h2, h3⟩ := h
    subst h1 h2 h3
    rintro (h | h | h | h | h)
    · omega
    · obtain ⟨h4, h5⟩ := h
      omega
    · simp at h
    · simp at h
    · obtain ⟨_, h5, _⟩ := h
      omega

/-- Witness of C3 at `int16` and `int64`. -/
theorem CoerceTo_Primitive_no_cycle_witness :
    int16Type ≠ int64Type ∧
    (CoerceTo noGenerics 1 emptySolver int16Type int64Type).result = some true ∧
    (CoerceTo noGenerics 1 emptySolver int64Type int16Type).result = some false :=
  ⟨by simp [int16Type, int64Type, PrimIntI16, PrimIntI64], by decide,
    CoerceTo_Primitive_no_cycle noGenerics 0 emptySolver emptySolver PrimKind.PrimKindIntegral
      PrimKind.PrimKindIntegral PrimIntI16 PrimIntI64 (by simp [PrimIntI16, PrimIntI64])
      (by decide)⟩

/-- C4: for distinct primitive types, `CoerceTo(src, dest)` with an integral
`dest` is true exactly when `src` is integral, of the same parity and of a
strictly smaller spec code; with a floating `dest` exactly when `src` is
floating with a strictly smaller spec code.  Hence `CoerceTo(int16, int64)` is
true, `CoerceTo(int16, uint64)` and `CoerceTo(bool, int32)` are false. -/
theorem CoerceTo_Primitive_widening (cgi : GenericInstantiation) (fuel : Nat) (s : Solver) :
    (∀ (ka kb : PrimKind) (sa sb : Nat),
      DataType.Primitive ka sa ≠ DataType.Primitive kb sb →
      (kb = PrimKind.PrimKindIntegral →
        (CoerceTo cgi (fuel + 1) s (.Primitive ka sa) (.Primitive kb sb)).result
          = some (decide (ka = PrimKind.PrimKindIntegral ∧ sb % 2 = sa % 2 ∧ sb > sa))) ∧
      (kb = PrimKind.PrimKindFloating →
        (CoerceTo cgi (fuel + 1) s (.Primitive ka sa) (.Primitive kb sb)).result
          = some (decide (ka = PrimKind.PrimKindFloating ∧ sa < sb)))) ∧
    (CoerceTo cgi (fuel + 1) s int16Type int64Type).result = some true ∧
    (CoerceTo cgi (fuel + 1) s int16Type uint64Type).result = some false ∧
    (CoerceTo cgi (fuel + 1) s boolType int32Type).result = some false := by
  refine ⟨?_, ?_, ?_, ?_⟩
  · intro ka kb sa sb hne
    have hne2 : ¬ (ka = kb ∧ sa = sb) := by
      rintro ⟨h1, h2⟩
      exact hne (by rw [h1, h2])
    constructor
    · intro hk
      subst hk
      rw [CoerceTo_Primitive, result_ok]
      simp only [Option.some.injEq, decide_eq_decide]
      constructor
      · rintro (h | h | h | h | h)
        · exact absurd h hne2
        · simp at h
        · simp at h
        · exact h.2
        · simp at h
      · intro h
        exact Or.inr (Or.inr (Or.inr (Or.inl ⟨trivial, h⟩)))
    · intro hk
      subst hk
      rw [CoerceTo_Primitive, result_ok]
      simp only [Option.some.injEq, decide_eq_decide]
      constructor
      · rintro (h | h | h | h | h)
        · exact absurd h hne2
        · simp at h
        · exact h.2
        · simp at h
        · simp at h
      · intro h
        exact Or.inr (Or.inr (Or.inl ⟨trivial, h⟩))
  · simp only [int16Type, int64Type]
    rw [CoerceTo_Primitive, result_ok]
    decide
  · simp only [int16Type, uint64Type]
    rw [CoerceTo_Primitive, result_ok]
    decide
  · simp only [boolType, int32Type]
    rw [CoerceTo_Primitive, result_ok]
    decide

/-- Witness of C4: the rule at `int16` and `uint64`, two distinct integral
types of different signedness. -/
theorem CoerceTo_Primitive_widening_witness :
    int16Type ≠ uint64Type ∧
    (CoerceTo noGenerics 1 emptySolver int16Type uint64Type).result = some false :=
  ⟨by simp [int16Type, uint64Type, PrimIntI16, PrimIntU64],
    (((CoerceTo_Primitive_widening noGenerics 0 emptySolver).1 PrimKind.PrimKindIntegral
      PrimKind.PrimKindIntegral PrimIntI16 PrimIntU64
      (by simp [PrimIntI16, PrimIntU64])).1 rfl).trans (by decide)⟩

/-- C5 (code at the failing input): `CoerceTo(src, string)` is true for every
primitive `src` with spec code 0, whatever its kind: boolean, integral,
floating and unit primitives with code 0 coerce to `string`, not only
`rune`. -/
theorem CoerceTo_string_from_any_kind (cgi : GenericInstantiation) (fuel : Nat) (s : Solver)
    (k : PrimKind) :
    (CoerceTo cgi (fuel + 1) s (.Primitive k 0) stringType).result = some true ∧
    (CoerceTo cgi (fuel + 1) s boolType stringType).result = some true := by
  simp only [stringType, boolType, PrimTextString]
  rw [CoerceTo_Primitive, CoerceTo_Primitive, result_ok, result_ok]
  simp

/-! ## Claims on tuple conversions -/

/-- C6 (code at the failing input): `CoerceTo` on tuples does not compare the
arities: a tuple of three elements coerces to a tuple of two, and a source
tuple shorter than the destination is read past its end (index out of
range). -/
theorem CoerceTo_Tuple_arity_unchecked :
    (CoerceTo noGenerics 2 emptySolver (.Tuple [int32Type, int32Type, boolType])
      (.Tuple [int32Type, int32Type])).result = some true ∧
    CoerceTo noGenerics 2 emptySolver (.Tuple [int32Type]) (.Tuple [int32Type, int32Type])
      = .error Fault.indexOutOfRange :=
  ⟨by decide, rfl⟩

/-- C7 (code at the failing input): `CastTo` on tuples does not compare the
arities: a tuple of one element casts to a tuple of two, and a destination
tuple shorter than the source is read past its end (index out of range). -/
theorem CastTo_Tuple_arity_unchecked :
    (CastTo noGenerics 2 emptySolver (.Tuple [int32Type]) (.Tuple [int32Type, boolType])).result
      = some true ∧
    CastTo noGenerics 2 emptySolver (.Tuple [int32Type, int32Type]) (.Tuple [int32Type])
      = .error Fault.indexOutOfRange :=
  ⟨by decide, rfl⟩

/-! ## Claims on interface satisfaction -/

/-- C8 (code at the failing input): with no binding registered at all,
`ImplementsInterf(Circle, Shape)` returns true although no binding defines the
abstract method `area`. -/
theorem ImplementsInterf_without_binding :
    (ImplementsInterf noGenerics emptySolver circleType shapeInterf).result = some true ∧
    (GetBindings noGenerics emptySolver.LocalBindings circleType).toOption.map
      (fun r => r.1.length) = some 0 ∧
    (GetBindings noGenerics emptySolver.GlobalBindings circleType).toOption.map
      (fun r => r.1.length) = some 0 := by
  decide

/-- C9 (code at the failing input): when the first binding that matches
`Circle` lacks `area` and the second one defines it, `ImplementsInterf(Circle,
Shape)` returns false; with the two bindings registered in the other order it
returns true. -/
theorem ImplementsInterf_first_binding_only :
    (ImplementsInterf noGenerics (circleSolver [perimeterInterf, areaInterf]) circleType
      shapeInterf).result = some false ∧
    (ImplementsInterf noGenerics (circleSolver [areaInterf, perimeterInterf]) circleType
      shapeInterf).result = some true ∧
    containsMethod areaInterf "area" ⟨.Func [] floatType, MethodKind.MKAbstract, []⟩ = true := by
  decide

/-! ## Claims on the memoization of `ImplementsInterf` -/

theorem ContainsType_mono (T : DataType) (l1 l2 : List DataType) (hp : l1 <+: l2)
    (h : ContainsType T l1 = true) : ContainsType T l2 = true := by
  obtain ⟨t, rfl⟩ := hp
  simp only [ContainsType, List.any_append, Bool.or_eq_true] at h ⊢
  exact Or.inl h

/-- The fast path of `ImplementsInterf`: a type found in the memo list that is
neither an interface nor a reference. -/
theorem ImplementsInterf_memo_hit (cgi : GenericInstantiation) (s : Solver) (T : DataType)
    (I : InterfType) (hI : ∀ it, T ≠ .Interf it) (hR : ∀ e c, T ≠ .Ref e c)
    (hc : ContainsType T (s.Instances I.Addr) = true) :
    ImplementsInterf cgi s T I = .ok (true, s) := by
  cases T <;> simp_all [ImplementsInterf]

/-- The three ways `ImplementsInterf` returns: false with the memo lists
untouched, true from the memo list, or true with `dt` appended. -/
theorem ImplementsInterf_ok (cgi : GenericInstantiation) (s s1 : Solver) (T : DataType)
    (I : InterfType) (b : Bool) (h : ImplementsInterf cgi s T I = .ok (b, s1)) :
    (b = false ∧ s1.Instances = s.Instances) ∨
    ((∀ it, T ≠ .Interf it) ∧ (∀ e c, T ≠ .Ref e c) ∧ b = true ∧
      ((s1 = s ∧ ContainsType T (s.Instances I.Addr) = true) ∨
       s1.Instances = Function.update s.Instances I.Addr (s.Instances I.Addr ++ [T]))) := by
  cases T <;> simp only [ImplementsInterf] at h
  case Interf it =>
    simp only [Except.ok.injEq, Prod.mk.injEq] at h
    obtain ⟨rfl, rfl⟩ := h
    exact Or.inl ⟨rfl, rfl⟩
  case Ref e c =>
    simp only [Except.ok.injEq, Prod.mk.injEq] at h
    obtain ⟨rfl, rfl⟩ := h
    exact Or.inl ⟨rfl, rfl⟩
  all_goals
    split at h
    · rename_i hc
      simp only [Except.ok.injEq, Prod.mk.injEq] at h
      obtain ⟨rfl, rfl⟩ := h
      exact Or.inr ⟨by simp, by simp, rfl, Or.inl ⟨rfl, hc⟩⟩
    · split at h
      · simp at h
      · split at h
        · simp at h
        · split at h
          · simp only [Except.ok.injEq, Prod.mk.injEq] at h
            obtain ⟨rfl, rfl⟩ := h
            exact Or.inr ⟨by simp, by simp, rfl, Or.inr rfl⟩
          · simp only [Except.ok.injEq, Prod.mk.injEq] at h
            obtain ⟨rfl, rfl⟩ := h
            exact Or.inl ⟨rfl, rfl⟩

/-- C10 (counterexample): for the unresolved opaque type `Node`, which is not
equal to itself, `ImplementsInterf(Node, Shape)` returns true and records
`Node`, but the memo lookup does not find it afterwards, and a later call with
another registry returns false. -/
theorem ImplementsInterf_memo_miss_unresolved :
    ImplementsInterf noGenerics (wildcardSolver areaInterf) nodeOpaque shapeInterf
      = .ok (true, nodeMemoSolver) ∧
    ContainsType nodeOpaque (nodeMemoSolver.Instances shapeInterf.Addr) = false ∧
    (ImplementsInterf noGenerics
      { wildcardSolver perimeterInterf with Instances := nodeMemoSolver.Instances }
      nodeOpaque shapeInterf).result = some false :=
  ⟨rfl, by decide, by decide⟩

/-- C10 (amended): no call of `ImplementsInterf` removes an element from an
`Instances` list (each list before the call is a prefix of the list after it);
whenever `ImplementsInterf(T, I)` returns true for a type `T` that is equal to
itself under `Equals`, `T` is afterwards found in `I.Instances`, and every
later call `ImplementsInterf(T, I)`, in any state whose `I.Instances` extends
that list, returns true from the memo list and changes nothing, whatever the
registries contain. -/
theorem ImplementsInterf_memo_monotone (cgi : GenericInstantiation) (s s1 : Solver)
    (T : DataType) (I : InterfType) (b : Bool)
    (h : ImplementsInterf cgi s T I = .ok (b, s1)) :
    (∀ a, s.Instances a <+: s1.Instances a) ∧
    (b = true → Equals T T = true →
      ContainsType T (s1.Instances I.Addr) = true ∧
      ∀ (cgi2 : GenericInstantiation) (s2 : Solver),
        s1.Instances I.Addr <+: s2.Instances I.Addr →
        ImplementsInterf cgi2 s2 T I = .ok (true, s2)) := by
  have hup : ∀ a, s.Instances a <+:
      Function.update s.Instances I.Addr (s.Instances I.Addr ++ [T]) a := by
    intro a
    by_cases ha : a = I.Addr
    · subst ha
      rw [Function.update_same]
      exact List.prefix_append _ _
    · rw [Function.update_noteq ha]
  rcases ImplementsInterf_ok cgi s s1 T I b h with ⟨hb, hs⟩ | ⟨hI, hR, hb, hs⟩
  · refine ⟨fun a => by rw [hs], ?_⟩
    intro hb2
    rw [hb] at hb2
    exact absurd hb2 (by decide)
  · have hmem : Equals T T = true → ContainsType T (s1.Instances I.Addr) = true := by
      intro hT
      rcases hs with ⟨hs, hc⟩ | hs
      · rw [hs]
        exact hc
      · rw [hs, Function.update_same]
        simp [ContainsType, hT]
    refine ⟨?_, fun _ hT => ⟨hmem hT, ?_⟩⟩
    · intro a
      rcases hs with ⟨hs, _⟩ | hs
      · rw [hs]
      · rw [hs]
        exact hup a
    · intro cgi2 s2 hp
      exact ImplementsInterf_memo_hit cgi2 s2 T I hI hR
        (ContainsType_mono T _ _ hp (hmem hT))

/-- Witness of C10 (amended): `Circle` with a binding that supplies `area`; the
later call runs with both registries emptied. -/
theorem ImplementsInterf_memo_monotone_witness :
    ImplementsInterf noGenerics (circleSolver [areaInterf]) circleType shapeInterf
      = .ok (true, circleMemoSolver) ∧
    Equals circleType circleType = true ∧
    ImplementsInterf noGenerics { emptySolver with Instances := circleMemoSolver.Instances }
      circleType shapeInterf
      = .ok (true, { emptySolver with Instances := circleMemoSolver.Instances }) :=
  ⟨rfl, by decide,
    ((ImplementsInterf_memo_monotone noGenerics (circleSolver [areaInterf]) circleMemoSolver
      circleType shapeInterf true rfl).2 rfl (by decide)).2 noGenerics
      { emptySolver with Instances := circleMemoSolver.Instances } (List.prefix_refl _)⟩

/-! ## Claims on `ImplementsInterf` and primitive casts -/

/-- C11: for every `dt` that is an interface type or a reference type and every
interface `I`, `ImplementsInterf(dt, I)` returns false at once, whatever
`I.Instances` holds, and leaves the solver state (with `I.Instances`)
unchanged. -/
theorem ImplementsInterf_Interf_or_Ref (cgi : GenericInstantiation) (s : Solver)
    (I : InterfType) :
    (∀ it : InterfType, ImplementsInterf cgi s (.Interf it) I = .ok (false, s)) ∧
    (∀ (e : DataType) (c : Bool), ImplementsInterf cgi s (.Ref e c) I = .ok (false, s)) ∧
    (ImplementsInterf noGenerics
        { emptySolver with Instances := fun _ => [.Ref int32Type false, .Interf areaInterf] }
        (.Ref int32Type false) shapeInterf).result = some false ∧
    (ImplementsInterf noGenerics
        { emptySolver with Instances := fun _ => [.Ref int32Type false, .Interf areaInterf] }
        (.Interf areaInterf) shapeInterf).result = some false :=
  ⟨fun _ => rfl, fun _ _ => rfl, by decide, by decide⟩

/-- C14: for every primitive `src` other than `any` and every primitive
`dest`, `CastTo(src, dest)` is true exactly when both are of a numeric kind, or
`src` is boolean and `dest` is integral.  So `CastTo(bool, int32)` is true,
while bool to floating, integral to bool and the casts from and to `string`
are false. -/
theorem CastTo_Primitive_rule (cgi : GenericInstantiation) (fuel : Nat) (s : Solver) :
    (∀ (ka kb : PrimKind) (sa sb : Nat), ¬ (ka = PrimKind.PrimKindUnit ∧ sa = 1) →
      (CastTo cgi (fuel + 1) s (.Primitive ka sa) (.Primitive kb sb)).result
        = some (decide ((ka.Numeric = true ∧ kb.Numeric = true)
            ∨ (ka = PrimKind.PrimKindBoolean ∧ kb = PrimKind.PrimKindIntegral)))) ∧
    (CastTo cgi (fuel + 1) s boolType int32Type).result = some true ∧
    (CastTo cgi (fuel + 1) s boolType floatType).result = some false ∧
    (CastTo cgi (fuel + 1) s int32Type boolType).result = some false ∧
    (∀ (kb : PrimKind) (sa sb : Nat),
      (CastTo cgi (fuel + 1) s (.Primitive PrimKind.PrimKindText sa) (.Primitive kb sb)).result
        = some false) ∧
    (∀ (ka : PrimKind) (sa sb : Nat), ¬ (ka = PrimKind.PrimKindUnit ∧ sa = 1) →
      (CastTo cgi (fuel + 1) s (.Primitive ka sa) (.Primitive PrimKind.PrimKindText sb)).result
        = some false) := by
  refine ⟨?_, ?_, ?_, ?_, ?_, ?_⟩
  · intro ka kb sa sb hany
    rw [CastTo_Primitive, result_ok]
    simp only [Option.some.injEq, decide_eq_decide]
    constructor
    · rintro (h | h | h)
      · exact absurd h hany
      · exact Or.inl h
      · exact Or.inr h
    · rintro (h | h)
      · exact Or.inr (Or.inl h)
      · exact Or.inr (Or.inr h)
  · simp only [boolType, int32Type]
    rw [CastTo_Primitive, result_ok]
    decide
  · simp only [boolType, floatType]
    rw [CastTo_Primitive, result_ok]
    decide
  · simp only [boolType, int32Type]
    rw [CastTo_Primitive, result_ok]
    decide
  · intro kb sa sb
    rw [CastTo_Primitive, result_ok]
    cases kb <;> simp [PrimKind.Numeric]
  · intro ka sa sb hany
    rw [CastTo_Primitive, result_ok]
    cases ka <;> simp_all [PrimKind.Numeric]

/-- Witness of C14 at `bool` and `int32`. -/
theorem CastTo_Primitive_rule_witness :
    ¬ (PrimKind.PrimKindBoolean = PrimKind.PrimKindUnit ∧ 0 = 1) ∧
    (CastTo noGenerics 1 emptySolver boolType int32Type).result = some true :=
  ⟨by decide,
    ((CastTo_Primitive_rule noGenerics 0 emptySolver).1 PrimKind.PrimKindBoolean
      PrimKind.PrimKindIntegral 0 PrimIntI32 (by decide)).trans (by decide)⟩

/-! ## Claims on struct casts -/

theorem mem_of_lookup_eq_some {β : Type} :
    ∀ (l : List (String × β)) (a : String) (b : β), l.lookup a = some b → (a, b) ∈ l
  | [], _, _, h => by simp [List.lookup] at h
  | (k, v) :: rest, a, b, h => by
    by_cases hak : a = k
    · subst hak
      simp [List.lookup] at h
      simp [h]
    · have hne : (a == k) = false := by simpa using hak
      simp only [List.lookup, hne] at h
      exact List.mem_cons_of_mem _ (mem_of_lookup_eq_some rest a b h)

theorem lookup_isSome_iff_mem_keys {β : Type} :
    ∀ (l : List (String × β)) (a : String), (∃ b, l.lookup a = some b) ↔ a ∈ l.map Prod.fst
  | [], a => by simp [List.lookup]
  | (k, v) :: rest, a => by
    by_cases hak : a = k
    · subst hak
      simp [List.lookup]
    · have hne : (a == k) = false := by simpa using hak
      simp only [List.lookup, hne, List.map_cons, List.mem_cons, hak, false_or]
      exact lookup_isSome_iff_mem_keys rest a

theorem castFieldsLoop_eq_EqualsFields (dst : List (String × TypeValue)) :
    ∀ (sv : List (String × TypeValue)), castFieldsLoop dst sv = EqualsFields sv dst
  | [] => by simp [castFieldsLoop, EqualsFields]
  | (name, field) :: rest => by
    have ih := castFieldsLoop_eq_EqualsFields dst rest
    simp only [castFieldsLoop, EqualsFields, EqualsField]
    cases hl : dst.lookup name with
    | none => simp
    | some dfield =>
      simp only [ih]
      cases EqualsTypeValue field dfield <;> simp

theorem castFieldsLoop_iff (dst : List (String × TypeValue)) :
    ∀ (sv : List (String × TypeValue)),
      castFieldsLoop dst sv = true ↔
        ∀ name field, (name, field) ∈ sv →
          ∃ dfield, dst.lookup name = some dfield ∧ EqualsTypeValue field dfield = true
  | [] => by simp [castFieldsLoop]
  | (n, f) :: rest => by
    have ih := castFieldsLoop_iff dst rest
    simp only [castFieldsLoop]
    constructor
    · intro h name field hm
      cases hl : dst.lookup n with
      | none => simp [hl] at h
      | some dfield =>
        simp only [hl] at h
        by_cases he : EqualsTypeValue f dfield = true
        · simp only [he, if_true] at h
          simp only [List.mem_cons, Prod.mk.injEq] at hm
          rcases hm with ⟨rfl, rfl⟩ | hm
          · exact ⟨dfield, hl, he⟩
          · exact ih.1 h name field hm
        · simp [he] at h
    · intro h
      obtain ⟨dfield, hl, he⟩ := h n f (by simp)
      simp only [hl, he, if_true]
      exact ih.2 (fun name field hm => h name field (List.mem_cons_of_mem _ hm))

/-- One call of `CastTo` on two struct types, in closed form. -/
theorem CastTo_Struct (cgi : GenericInstantiation) (fuel : Nat) (s : Solver)
    (n n2 : String) (p p2 : Nat) (fs fs2 : List (String × TypeValue))
    (inh inh2 : Option DataType) (pk pk2 : Bool) :
    CastTo cgi (fuel + 1) s (.Struct n p fs inh pk) (.Struct n2 p2 fs2 inh2 pk2) =
      .ok (decide (pk = pk2) && decide (fs.length = fs2.length) && castFieldsLoop fs2 fs
        && EqualsOption inh inh2, s) := by
  simp only [CastTo, InnerType, castSwitch]
  by_cases h1 : pk = pk2
  · by_cases h2 : fs.length = fs2.length
    · cases h3 : castFieldsLoop fs2 fs <;> simp [h1, h2, h3]
    · simp [h1, h2]
  · simp [h1]

/-- C12: for struct types `src` and `dest` (their field maps having distinct
names, as Go maps have), `CastTo(src, dest)` returns, and it is true if and
only if both have the same `Packed` flag, the same set of field names, every
pair of same-named fields is equal under `TypeValue.Equals`, and
`Equals(src.Inherit, dest.Inherit)` holds; the result does not depend on the
names or the package ids of the structs. -/
theorem CastTo_Struct_iff (cgi : GenericInstantiation) (fuel : Nat) (s : Solver)
    (n n2 : String) (p p2 : Nat) (fs fs2 : List (String × TypeValue))
    (inh inh2 : Option DataType) (pk pk2 : Bool)
    (hs : (fs.map Prod.fst).Nodup) (hd : (fs2.map Prod.fst).Nodup) :
    (∃ b, CastTo cgi (fuel + 1) s (.Struct n p fs inh pk) (.Struct n2 p2 fs2 inh2 pk2)
        = .ok (b, s) ∧
      (b = true ↔
        pk = pk2 ∧
        (∀ name, name ∈ fs.map Prod.fst ↔ name ∈ fs2.map Prod.fst) ∧
        (∀ name f g, fs.lookup name = some f → fs2.lookup name = some g →
          EqualsTypeValue f g = true) ∧
        EqualsOption inh inh2 = true)) ∧
    (∀ (m m2 : String) (q q2 : Nat),
      CastTo cgi (fuel + 1) s (.Struct m q fs inh pk) (.Struct m2 q2 fs2 inh2 pk2)
        = CastTo cgi (fuel + 1) s (.Struct n p fs inh pk) (.Struct n2 p2 fs2 inh2 pk2)) := by
  refine ⟨⟨_, CastTo_Struct cgi fuel s n n2 p p2 fs fs2 inh inh2 pk pk2, ?_⟩, ?_⟩
  · simp only [Bool.and_eq_true, decide_eq_true_eq, castFieldsLoop_iff]
    constructor
    · rintro ⟨⟨⟨h1, h2⟩, h3⟩, h4⟩
      have hsub : fs.map Prod.fst ⊆ fs2.map Prod.fst := by
        intro name hm
        obtain ⟨f, hf⟩ := (lookup_isSome_iff_mem_keys fs name).2 hm
        obtain ⟨g, hg, _⟩ := h3 name f (mem_of_lookup_eq_some fs name f hf)
        exact (lookup_isSome_iff_mem_keys fs2 name).1 ⟨g, hg⟩
      have hperm : List.Perm (fs.map Prod.fst) (fs2.map Prod.fst) :=
        (List.subperm_of_subset hs hsub).perm_of_length_le (by simp [h2])
      refine ⟨h1, fun name => hperm.mem_iff, ?_, h4⟩
      intro name f g hf hg
      obtain ⟨g2, hg2, he⟩ := h3 name f (mem_of_lookup_eq_some fs name f hf)
      rw [hg] at hg2
      cases hg2
      exact he
    · rintro ⟨h1, h2, h3, h4⟩
      have hperm : List.Perm (fs.map Prod.fst) (fs2.map Prod.fst) :=
        (List.perm_ext_iff_of_nodup hs hd).2 h2
      have hlen : fs.length = fs2.length := by
        simpa using hperm.length_eq
      refine ⟨⟨⟨h1, hlen⟩, ?_⟩, h4⟩
      intro name f hm
      have hf := lookup_of_mem_of_nodup fs name f hs hm
      obtain ⟨g, hg⟩ := (lookup_isSome_iff_mem_keys fs2 name).2
        ((h2 name).1 ((lookup_isSome_iff_mem_keys fs name).1 ⟨f, hf⟩))
      exact ⟨g, hg, h3 name f g hf hg⟩
  · intro m m2 q q2
    rw [CastTo_Struct, CastTo_Struct]

/-- Witness of C12 at `Vec2` and `Point2D`. -/
theorem CastTo_Struct_iff_witness :
    ∃ b, CastTo noGenerics 1 emptySolver vec2Type point2DType = .ok (b, emptySolver) ∧
      (b = true ↔
        false = false ∧
        (∀ name, name ∈ ["x", "y"] ↔ name ∈ ["x", "y"]) ∧
        (∀ name f g,
          List.lookup name [("x", (⟨int32Type, false, false⟩ : TypeValue)),
            ("y", ⟨int32Type, false, false⟩)] = some f →
          List.lookup name [("x", (⟨int32Type, false, false⟩ : TypeValue)),
            ("y", ⟨int32Type, false, false⟩)] = some g →
          EqualsTypeValue f g = true) ∧
        EqualsOption none none = true) :=
  (CastTo_Struct_iff noGenerics 0 emptySolver "Vec2" "Point2D" 0 1
    [("x", ⟨int32Type, false, false⟩), ("y", ⟨int32Type, false, false⟩)]
    [("x", ⟨int32Type, false, false⟩), ("y", ⟨int32Type, false, false⟩)]
    none none false false (by decide) (by decide)).1

/-- C13 (counterexample): two structs with the identical single field `next`
of the unresolved opaque type `Node`, the same packed flag and no inherited
struct do not cast to each other. -/
theorem CastTo_Struct_unresolved_field :
    (CastTo noGenerics 1 emptySolver linkType chainType).result = some false ∧
    (CastTo noGenerics 1 emptySolver chainType linkType).result = some false := by
  decide

/-- C13 (amended): struct cast symmetry on resolved fields: for all structs `A`
and `B` with the identical packed flag, field map and inherited struct, whose
field types and inherited struct hold no unresolved placeholder, `CastTo(A, B)`
and `CastTo(B, A)` are both true, whatever the names and package ids of `A`
and `B`. -/
theorem CastTo_Struct_symm (cgi : GenericInstantiation) (fuel : Nat) (s : Solver)
    (n n2 : String) (p p2 : Nat) (fs : List (String × TypeValue))
    (inh : Option DataType) (pk : Bool)
    (hnd : (fs.map Prod.fst).Nodup) (hfs : ResolvedFields fs = true)
    (hinh : ResolvedOption inh = true) :
    CastTo cgi (fuel + 1) s (.Struct n p fs inh pk) (.Struct n2 p2 fs inh pk) = .ok (true, s) ∧
    CastTo cgi (fuel + 1) s (.Struct n2 p2 fs inh pk) (.Struct n p fs inh pk) = .ok (true, s) := by
  have h1 : castFieldsLoop fs fs = true := by
    rw [castFieldsLoop_eq_EqualsFields]
    exact EqualsFields_refl_of_Resolved fs fs
      (fun a b hm => lookup_of_mem_of_nodup fs a b hnd hm) hfs
  have h2 := EqualsOption_refl_of_Resolved inh hinh
  constructor <;> rw [CastTo_Struct] <;> simp [h1, h2]

/-- Witness of C13 (amended): `CastTo(Vec2, Point2D)` and `CastTo(Point2D,
Vec2)` are true. -/
theorem CastTo_Struct_symm_witness :
    CastTo noGenerics 1 emptySolver vec2Type point2DType = .ok (true, emptySolver) ∧
    CastTo noGenerics 1 emptySolver point2DType vec2Type = .ok (true, emptySolver) :=
  CastTo_Struct_symm noGenerics 0 emptySolver "Vec2" "Point2D" 0 1
    [("x", ⟨int32Type, false, false⟩), ("y", ⟨int32Type, false, false⟩)] none false
    (by decide) (by decide) (by decide)

/-! ## Claims on `Derive` -/

theorem lookup_setMethod_self (name : String) (m : InterfMethod) :
    ∀ (l : List (String × InterfMethod)) (v : InterfMethod), l.lookup name = some v →
      (setMethod name m l).lookup name = some m
  | [], _, h => by simp [List.lookup] at h
  | (k, w) :: rest, v, h => by
    by_cases hk : k = name
    · subst hk
      simp [setMethod, List.lookup]
    · have hne : (k == name) = false := by simpa using hk
      have hne2 : (name == k) = false := by simpa using fun h => hk h.symm
      simp only [List.lookup, hne2] at h
      simp only [setMethod, hne, List.lookup, hne2]
      exact lookup_setMethod_self name m rest v h

theorem lookup_setMethod_other (name other : String) (m : InterfMethod) (hne : other ≠ name) :
    ∀ (l : List (String × InterfMethod)), (setMethod name m l).lookup other = l.lookup other
  | [] => by simp [setMethod]
  | (k, w) :: rest => by
    by_cases hk : k = name
    · subst hk
      have h2 : (other == k) = false := by simpa using hne
      simp [setMethod, List.lookup, h2]
    · have h1 : (k == name) = false := by simpa using hk
      simp only [setMethod, h1]
      by_cases ho : other = k
      · subst ho
        simp [List.lookup]
      · have h3 : (other == k) = false := by simpa using ho
        simp only [List.lookup, h3]
        exact lookup_setMethod_other name other m hne rest

theorem lookup_append_singleton (k : String) (m : InterfMethod) (a : String) :
    ∀ (l : List (String × InterfMethod)),
      (l ++ [(k, m)]).lookup a =
        match l.lookup a with
        | some v => some v
        | none => if a = k then some m else none
  | [] => by
    by_cases h : a = k
    · subst h
      simp [List.lookup]
    · have h2 : (a == k) = false := by simpa using h
      simp [List.lookup, h2, h]
  | (k2, w) :: rest => by
    by_cases h : a = k2
    · subst h
      simp [List.lookup]
    · have h2 : (a == k2) = false := by simpa using h
      simp only [List.cons_append, List.lookup, h2]
      exact lookup_append_singleton k m a rest


theorem deriveMethod_lookup_self (Match : SpecializationMatch)
    (cm : List (String × InterfMethod)) (name : String) (pm : InterfMethod) :
    (deriveMethod Match cm name pm).1.lookup name = derivedMethod (cm.lookup name) pm := by
  unfold deriveMethod derivedMethod
  cases hl : cm.lookup name with
  | none =>
    by_cases hv : pm.Kind = MethodKind.MKVirtual
    · simp [hv, lookup_append_singleton, hl]
    · simp [hv, hl]
  | some im =>
    by_cases hc : im.Specializations.length = 0 ∧ pm.Specializations.length > 0
    · simp only [hc, and_self, if_true]
      exact lookup_setMethod_self name _ cm im hl
    · simp only [hc, if_false]
      exact lookup_setMethod_self name _ cm im hl

theorem deriveMethod_lookup_other (Match : SpecializationMatch)
    (cm : List (String × InterfMethod)) (name other : String) (pm : InterfMethod)
    (hne : other ≠ name) :
    (deriveMethod Match cm name pm).1.lookup other = cm.lookup other := by
  unfold deriveMethod
  cases hl : cm.lookup name with
  | none =>
    by_cases hv : pm.Kind = MethodKind.MKVirtual
    · simp only [hv, if_true, lookup_append_singleton, hne, if_false]
      cases cm.lookup other <;> rfl
    · simp [hv]
  | some im =>
    by_cases hc : im.Specializations.length = 0 ∧ pm.Specializations.length > 0
    · simp only [hc, and_self, if_true]
      exact lookup_setMethod_other name other _ hne cm
    · simp only [hc, if_false]
      exact lookup_setMethod_other name other _ hne cm

theorem deriveLoop_lookup_of_not_mem (Match : SpecializationMatch) (name : String) :
    ∀ (pms cm : List (String × InterfMethod)), name ∉ pms.map Prod.fst →
      (deriveLoop Match cm pms).1.lookup name = cm.lookup name
  | [], cm, _ => by simp [deriveLoop]
  | (k, m) :: rest, cm, h => by
    simp only [List.map_cons, List.mem_cons, not_or] at h
    simp only [deriveLoop]
    rw [deriveLoop_lookup_of_not_mem Match name rest _ h.2]
    exact deriveMethod_lookup_other Match cm k name m h.1

theorem deriveLoop_lookup_of_mem (Match : SpecializationMatch) (name : String)
    (pm : InterfMethod) :
    ∀ (pms cm : List (String × InterfMethod)), (pms.map Prod.fst).Nodup →
      pms.lookup name = some pm →
      (deriveLoop Match cm pms).1.lookup name = derivedMethod (cm.lookup name) pm
  | [], _, _, h => by simp [List.lookup] at h
  | (k, m) :: rest, cm, hnd, h => by
    simp only [List.map_cons, List.nodup_cons] at hnd
    simp only [deriveLoop]
    by_cases hk : name = k
    · subst hk
      simp only [List.lookup, beq_self_eq_true, Option.some.injEq] at h
      subst h
      rw [deriveLoop_lookup_of_not_mem Match name rest _ hnd.1]
      exact deriveMethod_lookup_self Match cm name m
    · have h2 : (name == k) = false := by simpa using hk
      simp only [List.lookup, h2] at h
      rw [deriveLoop_lookup_of_mem Match name pm rest _ hnd.2 h]
      rw [deriveMethod_lookup_other Match cm k name m hk]

theorem deriveMethod_snd (Match : SpecializationMatch)
    (cm : List (String × InterfMethod)) (name : String) (pm : InterfMethod) :
    (deriveMethod Match cm name pm).2 = derivedParentMethod Match (cm.lookup name) pm := by
  unfold deriveMethod derivedParentMethod
  cases hl : cm.lookup name with
  | none =>
    by_cases hv : pm.Kind = MethodKind.MKVirtual <;> simp [hv]
  | some im =>
    by_cases hc : im.Specializations.length = 0 ∧ pm.Specializations.length > 0
    · simp only [hc, and_self, if_true]
    · simp only [hc, if_false]

/-- The method of `parent` under `name` after `Derive`, from the method of `it`
under that name before the call. -/
theorem deriveLoop_parent_lookup (Match : SpecializationMatch) (name : String) :
    ∀ (pms cm : List (String × InterfMethod)), (pms.map Prod.fst).Nodup →
      (deriveLoop Match cm pms).2.lookup name =
        (pms.lookup name).map (derivedParentMethod Match (cm.lookup name))
  | [], _, _ => by simp [deriveLoop]
  | (k, m) :: rest, cm, hnd => by
    simp only [List.map_cons, List.nodup_cons] at hnd
    simp only [deriveLoop]
    by_cases hk : name = k
    · subst hk
      simp [List.lookup, deriveMethod_snd]
    · have h2 : (name == k) = false := by simpa using hk
      simp only [List.lookup, h2]
      rw [deriveLoop_parent_lookup Match name rest _ hnd.2,
        deriveMethod_lookup_other Match cm k name m hk]

/-- C15 (code at the failing input): `Derive(child, parent)` where both declare
`draw`, the child with the specialization `[int32]` and the parent with
`[float]`: afterwards the child's `draw` still holds `[int32]` only, and the
child's specialization has been appended to the parent's method instead. -/
theorem Derive_specializations_not_merged :
    ((Derive specMatch childInterf parentInterf).1.Methods.lookup "draw").map
      (fun m => m.Specializations) = some [[int32Type]] ∧
    ((Derive specMatch childInterf parentInterf).2.Methods.lookup "draw").map
      (fun m => m.Specializations) = some [[floatType], [int32Type]] ∧
    (parentInterf.Methods.lookup "draw").map (fun m => m.Specializations) = some [[floatType]] ∧
    specMatch [floatType] [int32Type] = false :=
  ⟨rfl, rfl, rfl, by decide⟩

/-- C16: after `Derive(child, parent)`, for every method name declared by both
interfaces the child's method is the child's method with its kind set to
`MKImplement` when the parent's method is abstract and to `MKOverride` when
the parent's method is virtual. -/
theorem Derive_promotes_kind (Match : SpecializationMatch) (child parent : InterfType)
    (hnd : (parent.Methods.map Prod.fst).Nodup) (name : String) (cm pm : InterfMethod)
    (hc : child.Methods.lookup name = some cm) (hp : parent.Methods.lookup name = some pm) :
    ∃ cm2, (Derive Match child parent).1.Methods.lookup name = some cm2 ∧
      cm2.Signature = cm.Signature ∧
      (pm.Kind = MethodKind.MKAbstract → cm2.Kind = MethodKind.MKImplement) ∧
      (pm.Kind = MethodKind.MKVirtual → cm2.Kind = MethodKind.MKOverride) := by
  have h := deriveLoop_lookup_of_mem Match name pm parent.Methods child.Methods hnd hp
  rw [hc] at h
  refine ⟨_, h, rfl, ?_, ?_⟩
  · intro hk
    simp [hk]
  · intro hk
    simp [hk]

/-- Witness of C16: `draw` of the example interfaces, abstract in the parent. -/
theorem Derive_promotes_kind_witness :
    ∃ cm2, (Derive specMatch childInterf parentInterf).1.Methods.lookup "draw" = some cm2 ∧
      cm2.Signature = DataType.Func [] floatType ∧
      (MethodKind.MKAbstract = MethodKind.MKAbstract → cm2.Kind = MethodKind.MKImplement) ∧
      (MethodKind.MKAbstract = MethodKind.MKVirtual → cm2.Kind = MethodKind.MKOverride) :=
  Derive_promotes_kind specMatch childInterf parentInterf (by decide) "draw"
    ⟨.Func [] floatType, MethodKind.MKVirtual, [[int32Type]]⟩
    ⟨.Func [] floatType, MethodKind.MKAbstract, [[floatType]]⟩ rfl rfl

/-- C17: after `Derive(child, parent)`, for every method name of `parent` that
`child` did not declare, `child` has a method of that name if and only if the
parent's method is virtual, and it is then the parent's method, which the call
leaves unchanged in `parent`; every child method whose name does not occur in
`parent` is unchanged. -/
theorem Derive_copies_missing_virtual (Match : SpecializationMatch) (child parent : InterfType)
    (hnd : (parent.Methods.map Prod.fst).Nodup) :
    (∀ (name : String) (pm : InterfMethod), parent.Methods.lookup name = some pm →
      child.Methods.lookup name = none →
      (Derive Match child parent).1.Methods.lookup name
        = (if pm.Kind = MethodKind.MKVirtual then some pm else none) ∧
      (Derive Match child parent).2.Methods.lookup name = some pm) ∧
    (∀ (name : String), parent.Methods.lookup name = none →
      (Derive Match child parent).1.Methods.lookup name = child.Methods.lookup name) := by
  constructor
  · intro name pm hp hc
    constructor
    · have h := deriveLoop_lookup_of_mem Match name pm parent.Methods child.Methods hnd hp
      rw [hc] at h
      exact h
    · have h := deriveLoop_parent_lookup Match name parent.Methods child.Methods hnd
      simp only [Derive]
      rw [h, hp, hc]
      rfl
  · intro name hp
    have hnm : name ∉ parent.Methods.map Prod.fst := by
      intro hm
      obtain ⟨b, hb⟩ := (lookup_isSome_iff_mem_keys parent.Methods name).2 hm
      rw [hp] at hb
      cases hb
    exact deriveLoop_lookup_of_not_mem Match name parent.Methods child.Methods hnm

/-- Witness of C17: the example child receives the virtual `area` of the
parent, does not receive the abstract `scale`, and keeps its own `name`. -/
theorem Derive_copies_missing_virtual_witness :
    (Derive specMatch childInterf parentInterf).1.Methods.lookup "area"
      = some ⟨.Func [] floatType, MethodKind.MKVirtual, []⟩ ∧
    ((Derive specMatch childInterf parentInterf).1.Methods.lookup "scale").isNone = true ∧
    (Derive specMatch childInterf parentInterf).1.Methods.lookup "name"
      = childInterf.Methods.lookup "name" :=
  ⟨((Derive_copies_missing_virtual specMatch childInterf parentInterf (by decide)).1 "area"
      ⟨.Func [] floatType, MethodKind.MKVirtual, []⟩ rfl rfl).1,
    by decide,
    (Derive_copies_missing_virtual specMatch childInterf parentInterf (by decide)).2 "name" rfl⟩

/-! ## Claims on the binding registry -/

theorem getInterfType_ClearWildcards (b : Binding) :
    getInterfType b.ClearWildcards = getInterfType b := rfl

theorem wildcardsCleared_ClearWildcards (b : Binding) :
    b.ClearWildcards.wildcardsCleared = true := by
  simp [Binding.ClearWildcards, Binding.wildcardsCleared]

theorem sharedMethodLoop_some (bm : List (String × InterfMethod)) (n : String) :
    ∀ (am : List (String × InterfMethod)), sharedMethodLoop bm am = some n →
      n ∈ am.map Prod.fst ∧ n ∈ bm.map Prod.fst
  | [], h => by simp [sharedMethodLoop] at h
  | (k, v) :: rest, h => by
    simp only [sharedMethodLoop] at h
    cases hl : bm.lookup k with
    | none =>
      simp only [hl] at h
      have := sharedMethodLoop_some bm n rest h
      exact ⟨by simp [this.1], this.2⟩
    | some w =>
      simp only [hl, Option.some.injEq] at h
      subst h
      exact ⟨by simp, (lookup_isSome_iff_mem_keys bm k).1 ⟨w, hl⟩⟩

theorem sharedMethodLoop_none (bm : List (String × InterfMethod)) :
    ∀ (am : List (String × InterfMethod)), sharedMethodLoop bm am = none →
      ∀ n, n ∈ am.map Prod.fst → n ∉ bm.map Prod.fst
  | [], _ => by simp
  | (k, v) :: rest, h => by
    simp only [sharedMethodLoop] at h
    cases hl : bm.lookup k with
    | none =>
      simp only [hl] at h
      intro n hn
      simp only [List.map_cons, List.mem_cons] at hn
      rcases hn with rfl | hn
      · intro hm
        obtain ⟨w, hw⟩ := (lookup_isSome_iff_mem_keys bm n).2 hm
        rw [hl] at hw
        cases hw
      · exact sharedMethodLoop_none bm rest h n hn
    | some w => simp [hl] at h

theorem sharedMethod_some (a b : InterfType) :
    sharedMethod (some a) (some b) = .ok (sharedMethodLoop b.Methods a.Methods) := by
  obtain ⟨addr, ms⟩ := a
  cases ms <;> simp [sharedMethod, sharedMethodLoop]

/-- The loop of `CheckBindingConflicts` on bindings that all attach an
interface. -/
theorem checkBindingConflictsLoop_spec (nb : Binding) (bit : InterfType)
    (hnb : getInterfType nb = .ok (some bit)) :
    ∀ (bs : List Binding), (∀ b ∈ bs, ∃ ait, getInterfType b = .ok (some ait)) →
      ∃ name found bs2, checkBindingConflictsLoop nb bs = .ok ((name, found), bs2) ∧
        (found = true →
          ∃ b ∈ bs, ∃ ait, Equals b.MatchType nb.MatchType = true ∧
            getInterfType b = .ok (some ait) ∧
            name ∈ ait.Methods.map Prod.fst ∧ name ∈ bit.Methods.map Prod.fst) ∧
        (found = false → name = "" ∧
          ∀ b ∈ bs, ∀ ait, Equals b.MatchType nb.MatchType = true →
            getInterfType b = .ok (some ait) →
            ∀ n, n ∈ ait.Methods.map Prod.fst → n ∉ bit.Methods.map Prod.fst)
  | [], _ => ⟨"", false, [], rfl, by simp, by simp⟩
  | b :: rest, hbs => by
    obtain ⟨name, found, bs2, hrec, h1, h2⟩ :=
      checkBindingConflictsLoop_spec nb bit hnb rest
        (fun x hx => hbs x (List.mem_cons_of_mem _ hx))
    obtain ⟨ait, hait⟩ := hbs b (by simp)
    by_cases he : Equals b.MatchType nb.MatchType = true
    · cases hs : sharedMethodLoop bit.Methods ait.Methods with
      | some n =>
        refine ⟨n, true, b.ClearWildcards :: rest, ?_, ?_, ?_⟩
        · simp [checkBindingConflictsLoop, he, getInterfType_ClearWildcards, hait, hnb,
            sharedMethod_some, hs]
        · intro _
          have := sharedMethodLoop_some bit.Methods n ait.Methods hs
          exact ⟨b, by simp, ait, he, hait, this.1, this.2⟩
        · intro h
          cases h
      | none =>
        refine ⟨name, found, b.ClearWildcards :: bs2, ?_, ?_, ?_⟩
        · simp [checkBindingConflictsLoop, he, getInterfType_ClearWildcards, hait, hnb,
            sharedMethod_some, hs, hrec]
        · intro hf
          obtain ⟨x, hx, r⟩ := h1 hf
          exact ⟨x, List.mem_cons_of_mem _ hx, r⟩
        · intro hf
          refine ⟨(h2 hf).1, ?_⟩
          intro x hx ait2 hex hait2 n hn
          simp only [List.mem_cons] at hx
          rcases hx with rfl | hx
          · rw [hait] at hait2
            cases hait2
            exact sharedMethodLoop_none bit.Methods ait.Methods hs n hn
          · exact (h2 hf).2 x hx ait2 hex hait2 n hn
    · refine ⟨name, found, b.ClearWildcards :: bs2, ?_, ?_, ?_⟩
      · simp [checkBindingConflictsLoop, he, hrec]
      · intro hf
        obtain ⟨x, hx, r⟩ := h1 hf
        exact ⟨x, List.mem_cons_of_mem _ hx, r⟩
      · intro hf
        refine ⟨(h2 hf).1, ?_⟩
        intro x hx ait2 hex hait2 n hn
        simp only [List.mem_cons] at hx
        rcases hx with rfl | hx
        · exact absurd hex he
        · exact (h2 hf).2 x hx ait2 hex hait2 n hn

/-- The loop of `CheckBindingConflicts` clears the bindings it has compared and
leaves the others as they were. -/
theorem checkBindingConflictsLoop_clears (nb : Binding) :
    ∀ (bs : List Binding) (name : String) (found : Bool) (bs2 : List Binding),
      checkBindingConflictsLoop nb bs = .ok ((name, found), bs2) →
      ∃ k, k ≤ bs.length ∧
        bs2 = (bs.take k).map Binding.ClearWildcards ++ bs.drop k ∧
        (found = false → k = bs.length)
  | [], name, found, bs2, h => by
    simp only [checkBindingConflictsLoop, Except.ok.injEq, Prod.mk.injEq] at h
    exact ⟨0, by simp, by simp [← h.2], by simp⟩
  | b :: rest, name, found, bs2, h => by
    simp only [checkBindingConflictsLoop] at h
    have key : ∀ r rest1, checkBindingConflictsLoop nb rest = .ok (r, rest1) →
        (r, b.ClearWildcards :: rest1) = ((name, found), bs2) →
        ∃ k, k ≤ (b :: rest).length ∧
          bs2 = ((b :: rest).take k).map Binding.ClearWildcards ++ (b :: rest).drop k ∧
          (found = false → k = (b :: rest).length) := by
      intro r rest1 hr he
      obtain ⟨n2, f2⟩ := r
      simp only [Prod.mk.injEq] at he
      obtain ⟨⟨rfl, rfl⟩, rfl⟩ := he
      obtain ⟨k, hk, hb, hf⟩ := checkBindingConflictsLoop_clears nb rest n2 f2 rest1 hr
      refine ⟨k + 1, by simp [hk], by simp [hb], ?_⟩
      intro hff
      simp [hf hff]
    split at h
    · split at h
      · simp at h
      · split at h
        · simp at h
        · split at h
          · simp at h
          · simp only [Except.ok.injEq, Prod.mk.injEq] at h
            obtain ⟨⟨rfl, rfl⟩, rfl⟩ := h
            exact ⟨1, by simp, by simp, by simp⟩
          · split at h
            · simp at h
            · rename_i r rest1 hr
              simp only [Except.ok.injEq] at h
              exact key r rest1 hr h
    · split at h
      · simp at h
      · rename_i r rest1 hr
        simp only [Except.ok.injEq] at h
        exact key r rest1 hr h

/-- The loop of `CheckBindingConflicts`, binding by binding: without a conflict
every binding is cleared and no binding that matched shares a method; with a
conflict the loop stops at the first binding that matches and shares a method,
and clears the bindings up to and including it. -/
theorem checkBindingConflictsLoop_trace (nb : Binding) :
    ∀ (bs : List Binding) (name : String) (found : Bool) (bs2 : List Binding),
      checkBindingConflictsLoop nb bs = .ok ((name, found), bs2) →
      (found = false →
        name = "" ∧ bs2 = bs.map Binding.ClearWildcards ∧
        ∀ c ∈ bs, Equals c.MatchType nb.MatchType = true →
          ∃ ait bit, getInterfType c = .ok ait ∧ getInterfType nb = .ok bit ∧
            sharedMethod ait bit = .ok none) ∧
      (found = true →
        ∃ (k : Nat) (b : Binding), bs[k]? = some b ∧
          Equals b.MatchType nb.MatchType = true ∧
          (∃ ait bit, getInterfType b = .ok ait ∧ getInterfType nb = .ok bit ∧
            sharedMethod ait bit = .ok (some name)) ∧
          (∀ (j : Nat) (c : Binding), j < k → bs[j]? = some c →
            Equals c.MatchType nb.MatchType = true →
            ∃ ait bit, getInterfType c = .ok ait ∧ getInterfType nb = .ok bit ∧
              sharedMethod ait bit = .ok none) ∧
          bs2 = (bs.take (k + 1)).map Binding.ClearWildcards ++ bs.drop (k + 1))
  | [], name, found, bs2, h => by
    simp only [checkBindingConflictsLoop, Except.ok.injEq, Prod.mk.injEq] at h
    obtain ⟨⟨rfl, rfl⟩, rfl⟩ := h
    simp
  | b :: rest, name, found, bs2, h => by
    simp only [checkBindingConflictsLoop] at h
    -- the step for a binding after which the loop goes on
    have key : ∀ r rest1,
        (Equals b.MatchType nb.MatchType = true →
          ∃ ait bit, getInterfType b = .ok ait ∧ getInterfType nb = .ok bit ∧
            sharedMethod ait bit = .ok none) →
        checkBindingConflictsLoop nb rest = .ok (r, rest1) →
        (r, b.ClearWildcards :: rest1) = ((name, found), bs2) →
        (found = false →
          name = "" ∧ bs2 = (b :: rest).map Binding.ClearWildcards ∧
          ∀ c ∈ b :: rest, Equals c.MatchType nb.MatchType = true →
            ∃ ait bit, getInterfType c = .ok ait ∧ getInterfType nb = .ok bit ∧
              sharedMethod ait bit = .ok none) ∧
        (found = true →
          ∃ (k : Nat) (x : Binding), (b :: rest)[k]? = some x ∧
            Equals x.MatchType nb.MatchType = true ∧
            (∃ ait bit, getInterfType x = .ok ait ∧ getInterfType nb = .ok bit ∧
              sharedMethod ait bit = .ok (some name)) ∧
            (∀ (j : Nat) (c : Binding), j < k → (b :: rest)[j]? = some c →
              Equals c.MatchType nb.MatchType = true →
              ∃ ait bit, getInterfType c = .ok ait ∧ getInterfType nb = .ok bit ∧
                sharedMethod ait bit = .ok none) ∧
            bs2 = ((b :: rest).take (k + 1)).map Binding.ClearWildcards
              ++ (b :: rest).drop (k + 1)) := by
      intro r rest1 hb hr he
      obtain ⟨n2, f2⟩ := r
      simp only [Prod.mk.injEq] at he
      obtain ⟨⟨rfl, rfl⟩, rfl⟩ := he
      obtain ⟨h1, h2⟩ := checkBindingConflictsLoop_trace nb rest n2 f2 rest1 hr
      constructor
      · intro hf
        obtain ⟨hn, hl, hc⟩ := h1 hf
        refine ⟨hn, by simp [hl], ?_⟩
        intro c hc2 hec
        simp only [List.mem_cons] at hc2
        rcases hc2 with rfl | hc2
        · exact hb hec
        · exact hc c hc2 hec
      · intro hf
        obtain ⟨k, x, hx, hex, hsh, hbefore, hl⟩ := h2 hf
        refine ⟨k + 1, x, by simpa using hx, hex, hsh, ?_, by simp [hl]⟩
        intro j c hj hjc hec
        cases j with
        | zero =>
          simp only [List.getElem?_cons_zero, Option.some.injEq] at hjc
          subst hjc
          exact hb hec
        | succ i =>
          simp only [List.getElem?_cons_succ] at hjc
          exact hbefore i c (by omega) hjc hec
    split at h
    · rename_i heq
      split at h
      · simp at h
      · rename_i ait hait
        split at h
        · simp at h
        · rename_i bit hbit
          rw [getInterfType_ClearWildcards] at hait
          split at h
          · simp at h
          · rename_i n hs
            simp only [Except.ok.injEq, Prod.mk.injEq] at h
            obtain ⟨⟨rfl, rfl⟩, rfl⟩ := h
            constructor
            · intro hf
              cases hf
            · intro _
              refine ⟨0, b, by simp, heq, ⟨ait, bit, hait, hbit, hs⟩, ?_, by simp⟩
              intro j c hj
              omega
          · rename_i hs
            split at h
            · simp at h
            · rename_i r rest1 hr
              simp only [Except.ok.injEq] at h
              exact key r rest1 (fun _ => ⟨ait, bit, hait, hbit, hs⟩) hr h
    · rename_i hne
      split at h
      · simp at h
      · rename_i r rest1 hr
        simp only [Except.ok.injEq] at h
        exact key r rest1 (fun he => absurd he hne) hr h

/-- C18: for a registry and a new binding that all attach an interface (the
template interface for a generic binding), `CheckBindingConflicts(nb)` returns
`(name, true)` if and only if the registry holds a binding whose match type
`Equals` the match type of `nb` and whose interface shares a method name with
the interface of `nb`; the returned name is then such a shared method name of
such a binding; otherwise it returns `("", false)`.  The registry holds the
same list of bindings after the call: each binding is as it was or has had its
wildcard values cleared. -/
theorem CheckBindingConflicts_iff (br : BindingRegistry) (nb : Binding) (bit : InterfType)
    (hbr : ∀ b ∈ br.Bindings, ∃ ait, getInterfType b = .ok (some ait))
    (hnb : getInterfType nb = .ok (some bit)) :
    ∃ name found br2, br.CheckBindingConflicts nb = .ok ((name, found), br2) ∧
      (found = true ↔
        ∃ b ∈ br.Bindings, ∃ ait, Equals b.MatchType nb.MatchType = true ∧
          getInterfType b = .ok (some ait) ∧
          ∃ n, n ∈ ait.Methods.map Prod.fst ∧ n ∈ bit.Methods.map Prod.fst) ∧
      (found = true →
        ∃ b ∈ br.Bindings, ∃ ait, Equals b.MatchType nb.MatchType = true ∧
          getInterfType b = .ok (some ait) ∧
          name ∈ ait.Methods.map Prod.fst ∧ name ∈ bit.Methods.map Prod.fst) ∧
      (found = false → name = "") ∧
      ∃ k, k ≤ br.Bindings.length ∧
        br2.Bindings = (br.Bindings.take k).map Binding.ClearWildcards ++ br.Bindings.drop k := by
  obtain ⟨name, found, bs2, hrec, h1, h2⟩ :=
    checkBindingConflictsLoop_spec nb bit hnb br.Bindings hbr
  obtain ⟨k, hk, hb, _⟩ := checkBindingConflictsLoop_clears nb br.Bindings name found bs2 hrec
  refine ⟨name, found, ⟨bs2⟩, ?_, ?_, h1, fun hf => (h2 hf).1, k, hk, hb⟩
  · simp [BindingRegistry.CheckBindingConflicts, hrec]
  · constructor
    · intro hf
      obtain ⟨b, hb, ait, he, hait, hn1, hn2⟩ := h1 hf
      exact ⟨b, hb, ait, he, hait, name, hn1, hn2⟩
    · rintro ⟨b, hb, ait, he, hait, n, hn1, hn2⟩
      cases found with
      | true => rfl
      | false => exact absurd hn2 ((h2 rfl).2 b hb ait he hait n hn1)

/-- Witness of C18: the registry `[int32 ↦ perimeter, Circle ↦ area]` and a new
binding of `Shape` (with `area`) to `Circle`. -/
theorem CheckBindingConflicts_iff_witness :
    ∃ name found br2,
      (BindingRegistry.mk [intBinding, circleBinding]).CheckBindingConflicts circleNewBinding
        = .ok ((name, found), br2) ∧
      (found = true ↔
        ∃ b ∈ [intBinding, circleBinding], ∃ ait,
          Equals b.MatchType circleNewBinding.MatchType = true ∧
          getInterfType b = .ok (some ait) ∧
          ∃ n, n ∈ ait.Methods.map Prod.fst ∧ n ∈ shapeInterf.Methods.map Prod.fst) ∧
      (found = true →
        ∃ b ∈ [intBinding, circleBinding], ∃ ait,
          Equals b.MatchType circleNewBinding.MatchType = true ∧
          getInterfType b = .ok (some ait) ∧
          name ∈ ait.Methods.map Prod.fst ∧ name ∈ shapeInterf.Methods.map Prod.fst) ∧
      (found = false → name = "") ∧
      ∃ k, k ≤ 2 ∧
        br2.Bindings = ([intBinding, circleBinding].take k).map Binding.ClearWildcards
          ++ [intBinding, circleBinding].drop k :=
  CheckBindingConflicts_iff ⟨[intBinding, circleBinding]⟩ circleNewBinding shapeInterf
    (by
      intro b hb
      simp only [List.mem_cons, List.mem_singleton, List.not_mem_nil, or_false] at hb
      rcases hb with rfl | rfl
      · exact ⟨perimeterInterf, rfl⟩
      · exact ⟨areaInterf, rfl⟩)
    rfl

/-- C19 (counterexample): the existing binding `staleBinding` enters the call
with a bound wildcard value; nothing clears it before its match type is
compared, so the stale value decides the comparison and a conflict with the new
binding for `int32` is reported.  The value is cleared only after the
comparison: the registry is left as `[clearedBinding]`, on which the same call
reports no conflict. -/
theorem CheckBindingConflicts_stale_wildcard :
    staleBinding.wildcardsCleared = false ∧
    Equals staleBinding.MatchType intNewBinding.MatchType = true ∧
    (BindingRegistry.mk [staleBinding]).CheckBindingConflicts intNewBinding
      = .ok (("area", true), ⟨[clearedBinding]⟩) ∧
    Equals clearedBinding.MatchType intNewBinding.MatchType = false ∧
    (BindingRegistry.mk [clearedBinding]).CheckBindingConflicts intNewBinding
      = .ok (("", false), ⟨[clearedBinding]⟩) :=
  ⟨by decide, by decide, rfl, by decide, rfl⟩

/-- C19 (amended): `CheckBindingConflicts` clears no wildcard before a
comparison: every existing binding is compared, in the order of the registry,
with the match type it holds when the call starts, and its wildcards are
cleared after its comparison, whatever the outcome.  The loop stops at the
first binding whose match type equals that of the new binding and whose
interface shares a method name with it: when the call returns, exactly the
bindings up to and including that one (all bindings when no conflict is found)
have had their wildcard values cleared and hold no bound value, and the
bindings after it are as they were. -/
theorem CheckBindingConflicts_clears_compared (br : BindingRegistry) (nb : Binding)
    (name : String) (found : Bool) (br2 : BindingRegistry)
    (h : br.CheckBindingConflicts nb = .ok ((name, found), br2)) :
    (found = false →
      br2.Bindings = br.Bindings.map Binding.ClearWildcards ∧
      (∀ b ∈ br2.Bindings, b.wildcardsCleared = true) ∧
      ∀ c ∈ br.Bindings, Equals c.MatchType nb.MatchType = true →
        ∃ ait bit, getInterfType c = .ok ait ∧ getInterfType nb = .ok bit ∧
          sharedMethod ait bit = .ok none) ∧
    (found = true →
      ∃ (k : Nat) (b : Binding), br.Bindings[k]? = some b ∧
        Equals b.MatchType nb.MatchType = true ∧
        (∃ ait bit, getInterfType b = .ok ait ∧ getInterfType nb = .ok bit ∧
          sharedMethod ait bit = .ok (some name)) ∧
        (∀ (j : Nat) (c : Binding), j < k → br.Bindings[j]? = some c →
          Equals c.MatchType nb.MatchType = true →
          ∃ ait bit, getInterfType c = .ok ait ∧ getInterfType nb = .ok bit ∧
            sharedMethod ait bit = .ok none) ∧
        br2.Bindings = (br.Bindings.take (k + 1)).map Binding.ClearWildcards
          ++ br.Bindings.drop (k + 1) ∧
        ∀ c ∈ br2.Bindings.take (k + 1), c.wildcardsCleared = true) := by
  unfold BindingRegistry.CheckBindingConflicts at h
  split at h
  · simp at h
  · rename_i r bs hr
    simp only [Except.ok.injEq, Prod.mk.injEq] at h
    obtain ⟨rfl, rfl⟩ := h
    obtain ⟨h1, h2⟩ := checkBindingConflictsLoop_trace nb br.Bindings name found bs hr
    constructor
    · intro hf
      obtain ⟨_, hl, hc⟩ := h1 hf
      refine ⟨hl, ?_, hc⟩
      intro b hb
      rw [hl] at hb
      obtain ⟨x, _, rfl⟩ := List.mem_map.1 hb
      exact wildcardsCleared_ClearWildcards x
    · intro hf
      obtain ⟨k, b, hb, he, hsh, hbefore, hl⟩ := h2 hf
      refine ⟨k, b, hb, he, hsh, hbefore, hl, ?_⟩
      intro c hc
      have hlen : k + 1 ≤ br.Bindings.length := by
        have := (List.getElem?_eq_some_iff.1 hb).1
        omega
      have htake : bs.take (k + 1) = (br.Bindings.take (k + 1)).map Binding.ClearWildcards := by
        rw [hl, List.take_append_of_le_length (by simp [hlen])]
        rw [List.take_of_length_le (by simp [hlen])]
      rw [htake] at hc
      obtain ⟨x, _, rfl⟩ := List.mem_map.1 hc
      exact wildcardsCleared_ClearWildcards x

/-- Witness of C19 (amended): the registry `[staleBinding]`, whose binding is
compared with its stale value and cleared afterwards. -/
theorem CheckBindingConflicts_clears_compared_witness :
    (BindingRegistry.mk [staleBinding]).CheckBindingConflicts intNewBinding
      = .ok (("area", true), ⟨[clearedBinding]⟩) ∧
    ∃ (k : Nat) (b : Binding), [staleBinding][k]? = some b ∧
      Equals b.MatchType intNewBinding.MatchType = true ∧
      (∃ ait bit, getInterfType b = .ok ait ∧ getInterfType intNewBinding = .ok bit ∧
        sharedMethod ait bit = .ok (some "area")) ∧
      (∀ (j : Nat) (c : Binding), j < k → [staleBinding][j]? = some c →
        Equals c.MatchType intNewBinding.MatchType = true →
        ∃ ait bit, getInterfType c = .ok ait ∧ getInterfType intNewBinding = .ok bit ∧
          sharedMethod ait bit = .ok none) ∧
      [clearedBinding] = ([staleBinding].take (k + 1)).map Binding.ClearWildcards
        ++ [staleBinding].drop (k + 1) ∧
      ∀ c ∈ [clearedBinding].take (k + 1), c.wildcardsCleared = true :=
  ⟨rfl, (CheckBindingConflicts_clears_compared ⟨[staleBinding]⟩ intNewBinding "area" true
    ⟨[clearedBinding]⟩ rfl).2 rfl⟩

/-! ## Claims on `GetBindings` -/

theorem getBindingsLoop_nongeneric (cgi : GenericInstantiation) (dt : DataType) :
    ∀ (bs : List Binding), (∀ b ∈ bs, ∃ it, b.TypeInterf = .Interf it) →
      ∃ found, getBindingsLoop cgi dt bs = .ok (found, bs) ∧
        found.map DataType.Interf
          = (bs.filter (fun b => pureEquals b.MatchType dt)).map Binding.TypeInterf
  | [], _ => ⟨[], rfl, rfl⟩
  | b :: rest, h => by
    obtain ⟨found, hrec, hmap⟩ := getBindingsLoop_nongeneric cgi dt rest
      (fun x hx => h x (List.mem_cons_of_mem _ hx))
    obtain ⟨it, hit⟩ := h b (by simp)
    by_cases hp : pureEquals b.MatchType dt = true
    · refine ⟨it :: found, ?_, ?_⟩
      · simp [getBindingsLoop, hp, hit, hrec]
      · simp [List.filter, hp, hit, hmap]
    · refine ⟨found, ?_, ?_⟩
      · simp [getBindingsLoop, hp, hrec]
      · simp [List.filter, hp, hmap]

/-- C20: for a registry in which every binding attaches a non-generic
interface, `GetBindings(registry, dt)` returns exactly the attached interfaces
of the bindings whose match type pure-equals `dt`, as they are, once per
matching binding and in registry order (so none when no binding matches), and
it leaves the registry unchanged. -/
theorem GetBindings_nongeneric (cgi : GenericInstantiation) (br : BindingRegistry)
    (dt : DataType) (h : ∀ b ∈ br.Bindings, ∃ it, b.TypeInterf = .Interf it) :
    ∃ found, GetBindings cgi br dt = .ok (found, br) ∧
      found.map DataType.Interf
        = (br.Bindings.filter (fun b => pureEquals b.MatchType dt)).map Binding.TypeInterf ∧
      found.length = (br.Bindings.filter (fun b => pureEquals b.MatchType dt)).length ∧
      ((∀ b ∈ br.Bindings, pureEquals b.MatchType dt = false) → found = []) := by
  obtain ⟨found, hrec, hmap⟩ := getBindingsLoop_nongeneric cgi dt br.Bindings h
  refine ⟨found, ?_, hmap, ?_, ?_⟩
  · simp [GetBindings, hrec]
  · have := congrArg List.length hmap
    simpa using this
  · intro hno
    have hf : br.Bindings.filter (fun b => pureEquals b.MatchType dt) = [] := by
      rw [List.filter_eq_nil_iff]
      intro b hb
      simp [hno b hb]
    rw [hf] at hmap
    simpa using hmap

/-- Witness of C20: the registry `[int32 ↦ perimeter, Circle ↦ area]` queried
for `Circle`. -/
theorem GetBindings_nongeneric_witness :
    ∃ found, GetBindings noGenerics ⟨[intBinding, circleBinding]⟩ circleType
        = .ok (found, ⟨[intBinding, circleBinding]⟩) ∧
      found.map DataType.Interf
        = ([intBinding, circleBinding].filter
            (fun b => pureEquals b.MatchType circleType)).map Binding.TypeInterf ∧
      found.length
        = ([intBinding, circleBinding].filter
            (fun b => pureEquals b.MatchType circleType)).length ∧
      ((∀ b ∈ [intBinding, circleBinding], pureEquals b.MatchType circleType = false) →
        found = []) :=
  GetBindings_nongeneric noGenerics ⟨[intBinding, circleBinding]⟩ circleType
    (by
      intro b hb
      simp only [List.mem_cons, List.mem_singleton, List.not_mem_nil, or_false] at hb
      rcases hb with rfl | rfl
      · exact ⟨perimeterInterf, rfl⟩
      · exact ⟨areaInterf, rfl⟩)

/-! ## Claims on private copies and opaque generics -/

/-- C21 (code at the failing input): the private copy of the exported binding
of `areaInterf` to `Circle` has no match type, and the private copy of a
generic binding has no wildcards; for every binding the copy holds only the
attached interface and the cleared exported flag. -/
theorem PrivateCopy_drops_MatchType :
    circleBinding.PrivateCopy.MatchType = none ∧
    clearedBinding.PrivateCopy.Wildcards = [] ∧
    clearedBinding.Wildcards.length = 1 ∧
    ∀ b : Binding, b.PrivateCopy =
      { MatchType := none, Wildcards := [], TypeInterf := some b.TypeInterf, Exported := false } :=
  ⟨rfl, rfl, rfl, fun _ => rfl⟩

theorem evaluateLoop_fst (cgi : GenericInstantiation) (gt : DataType) :
    ∀ l : List OpaqueGenericInstanceType,
      (evaluateLoop cgi gt l).1 = true ↔
        ∀ I ∈ l, (cgi gt (I.TypeParams.map some)).2 = true
  | [] => by simp [evaluateLoop]
  | I :: rest => by
    have ih := evaluateLoop_fst cgi gt rest
    simp only [evaluateLoop, List.mem_cons, forall_eq_or_imp]
    rcases h : cgi gt (I.TypeParams.map some) with ⟨g, ok⟩
    cases ok
    · simp
    · simpa using ih

theorem evaluateLoop_snd (cgi : GenericInstantiation) (gt : DataType) :
    ∀ l : List OpaqueGenericInstanceType,
      (evaluateLoop cgi gt l).2 = l.map (fun I =>
        if (cgi gt (I.TypeParams.map some)).2 = true then
          { I with MemoizedGenerate := (cgi gt (I.TypeParams.map some)).1 }
        else I)
  | [] => by simp [evaluateLoop]
  | I :: rest => by
    have ih := evaluateLoop_snd cgi gt rest
    simp only [evaluateLoop, List.map_cons]
    rcases h : cgi gt (I.TypeParams.map some) with ⟨g, ok⟩
    cases ok
    · simp [ih]
    · simp [ih]

/-- C22: `Evaluate(G)` returns true if and only if `CreateGenericInstance(G,
P)` succeeds for the recorded parameter list `P` of every pending instance;
every pending instance for which it succeeds receives the generated type,
whether or not another instance failed, and the evaluated type is `G`
afterwards in either case. -/
theorem Evaluate_iff (cgi : GenericInstantiation) (ogt : OpaqueGenericType) (G : DataType) :
    ((OpaqueGenericType.Evaluate cgi ogt G).1 = true ↔
      ∀ I ∈ ogt.Instances, (cgi G (I.TypeParams.map some)).2 = true) ∧
    (OpaqueGenericType.Evaluate cgi ogt G).2.EvalType = some G ∧
    (OpaqueGenericType.Evaluate cgi ogt G).2.Instances = ogt.Instances.map (fun I =>
      if (cgi G (I.TypeParams.map some)).2 = true then
        { I with MemoizedGenerate := (cgi G (I.TypeParams.map some)).1 }
      else I) :=
  ⟨evaluateLoop_fst cgi G ogt.Instances, rfl, evaluateLoop_snd cgi G ogt.Instances⟩

/-- C23: pending generic instance repair: a request with the parameter list
`P` on an opaque generic that is not evaluated yet succeeds and registers a new
pending instance; after `Evaluate(G)`, whatever instances were requested in
between, that same instance holds the result of `CreateGenericInstance(G, P)`
as its memoized generate, provided `CreateGenericInstance(G, P)` succeeds. -/
theorem Evaluate_repairs_pending (cgi : GenericInstantiation) (v : OpaqueGenericType)
    (P : List DataType) (branch : Nat) (later : List OpaqueGenericInstanceType) (G : DataType)
    (hv : v.EvalType = none) (hok : (cgi G (P.map some)).2 = true) :
    (createGenericInstance cgi v P branch).1 = (InstanceResult.pending v.Instances.length, true) ∧
    (OpaqueGenericType.Evaluate cgi
        { EvalType := none,
          Instances := (createGenericInstance cgi v P branch).2.Instances ++ later }
        G).2.Instances[v.Instances.length]? =
      some { TypeParams := P, MemoizedGenerate := (cgi G (P.map some)).1,
             TypeParamsBranch := branch } := by
  have h1 : createGenericInstance cgi v P branch =
      ((InstanceResult.pending v.Instances.length, true),
        { v with Instances := v.Instances ++
            [{ TypeParams := P, MemoizedGenerate := none, TypeParamsBranch := branch }] }) := by
    simp [createGenericInstance, hv]
  refine ⟨by rw [h1], ?_⟩
  rw [h1]
  simp only [OpaqueGenericType.Evaluate, evaluateLoop_snd, List.map_append, List.map_cons,
    List.map_nil, hok, if_true, List.append_assoc]
  rw [List.getElem?_append_right (by simp)]
  simp

/-- Witness of C23: the instance `Box<int32>` requested from a fresh opaque
generic, which is then evaluated to the generic `Box`. -/
theorem Evaluate_repairs_pending_witness :
    freshOpaque.EvalType = none ∧
    (arityInstantiation boxGeneric ([int32Type].map some)).2 = true ∧
    (createGenericInstance arityInstantiation freshOpaque [int32Type] 7).1 =
      (InstanceResult.pending 0, true) ∧
    (OpaqueGenericType.Evaluate arityInstantiation
        { EvalType := none,
          Instances := (createGenericInstance arityInstantiation freshOpaque [int32Type]
            7).2.Instances ++ [] } boxGeneric).2.Instances[freshOpaque.Instances.length]? =
      some { TypeParams := [int32Type],
             MemoizedGenerate := (arityInstantiation boxGeneric ([int32Type].map some)).1,
             TypeParamsBranch := 7 } :=
  ⟨rfl, by decide,
    Evaluate_repairs_pending arityInstantiation freshOpaque [int32Type] 7 [] boxGeneric rfl
      (by decide)⟩

/-- C24 (counterexample): an opaque generic that was evaluated to `Box` is
evaluated a second time, to `Pair`: the call returns and `Pair` replaces
`Box` as the evaluated type. -/
theorem Evaluate_twice_replaces :
    (OpaqueGenericType.Evaluate arityInstantiation freshOpaque boxGeneric).2.EvalType
      = some boxGeneric ∧
    OpaqueGenericType.Evaluate arityInstantiation
        (OpaqueGenericType.Evaluate arityInstantiation freshOpaque boxGeneric).2 pairGeneric
      = (true, { EvalType := some pairGeneric, Instances := [] }) ∧
    boxGeneric ≠ pairGeneric :=
  ⟨rfl, rfl, by simp [boxGeneric, pairGeneric]⟩

/-- C24 (amended): `Evaluate` does not look at an earlier evaluation: after
`Evaluate(G1)` and then `Evaluate(G2)` the evaluated type is `G2`, the flag
of the second call tells whether every recorded parameter list instantiates
`G2`, and each instance holds the generate of `G2` if `G2` accepts its
parameters, else that of `G1` if `G1` does, else what it held before. -/
theorem Evaluate_overwrites (cgi : GenericInstantiation) (ogt : OpaqueGenericType)
    (G1 G2 : DataType) :
    (OpaqueGenericType.Evaluate cgi (OpaqueGenericType.Evaluate cgi ogt G1).2 G2).2.EvalType
      = some G2 ∧
    ((OpaqueGenericType.Evaluate cgi (OpaqueGenericType.Evaluate cgi ogt G1).2 G2).1 = true ↔
      ∀ I ∈ ogt.Instances, (cgi G2 (I.TypeParams.map some)).2 = true) ∧
    (OpaqueGenericType.Evaluate cgi (OpaqueGenericType.Evaluate cgi ogt G1).2 G2).2.Instances
      = ogt.Instances.map (fun I =>
          if (cgi G2 (I.TypeParams.map some)).2 = true then
            { I with MemoizedGenerate := (cgi G2 (I.TypeParams.map some)).1 }
          else if (cgi G1 (I.TypeParams.map some)).2 = true then
            { I with MemoizedGenerate := (cgi G1 (I.TypeParams.map some)).1 }
          else I) := by
  refine ⟨rfl, ?_, ?_⟩
  · simp only [OpaqueGenericType.Evaluate, evaluateLoop_fst, evaluateLoop_snd, List.mem_map]
    constructor
    · intro h I hI
      have := h _ ⟨I, hI, rfl⟩
      split at this <;> simpa using this
    · rintro h _ ⟨I, hI, rfl⟩
      have := h I hI
      split <;> simpa using this
  · simp only [OpaqueGenericType.Evaluate, evaluateLoop_snd, List.map_map]
    apply List.map_congr_left
    intro I _
    simp only [Function.comp]
    by_cases h1 : (cgi G1 (I.TypeParams.map some)).2 = true <;>
      by_cases h2 : (cgi G2 (I.TypeParams.map some)).2 = true <;> simp [h1, h2]

/-- C25 (counterexample): two requests with the parameter list `[int32]`
against the same unresolved opaque generic return two instances (the first
and the second entry of the pending list), and the list then holds two
entries for that parameter list. -/
theorem createGenericInstance_not_memoized :
    (createGenericInstance arityInstantiation freshOpaque [int32Type] 7).1
      = (InstanceResult.pending 0, true) ∧
    (createGenericInstance arityInstantiation
      (createGenericInstance arityInstantiation freshOpaque [int32Type] 7).2 [int32Type] 7).1
      = (InstanceResult.pending 1, true) ∧
    (createGenericInstance arityInstantiation
      (createGenericInstance arityInstantiation freshOpaque [int32Type] 7).2 [int32Type]
        7).2.Instances.map (fun I => I.TypeParams.length) = [1, 1] :=
  ⟨rfl, rfl, by decide⟩

/-- C25 (amended): every request against an unresolved opaque generic creates
a new pending instance and appends it to the list: two requests with the same
parameter list `P` return the two distinct entries at the end of the list,
both recorded with `P` and without generate, and the opaque generic stays
unresolved. -/
theorem createGenericInstance_appends (cgi : GenericInstantiation) (v : OpaqueGenericType)
    (P : List DataType) (b1 b2 : Nat) (hv : v.EvalType = none) :
    (createGenericInstance cgi v P b1).1 = (InstanceResult.pending v.Instances.length, true) ∧
    (createGenericInstance cgi (createGenericInstance cgi v P b1).2 P b2).1
      = (InstanceResult.pending (v.Instances.length + 1), true) ∧
    (createGenericInstance cgi (createGenericInstance cgi v P b1).2 P b2).2
      = { EvalType := none,
          Instances := v.Instances ++
            [{ TypeParams := P, MemoizedGenerate := none, TypeParamsBranch := b1 },
             { TypeParams := P, MemoizedGenerate := none, TypeParamsBranch := b2 }] } := by
  have h1 : createGenericInstance cgi v P b1 =
      ((InstanceResult.pending v.Instances.length, true),
        { EvalType := none, Instances := v.Instances ++
            [{ TypeParams := P, MemoizedGenerate := none, TypeParamsBranch := b1 }] }) := by
    simp [createGenericInstance, hv]
  rw [h1]
  simp [createGenericInstance]

/-- Witness of C25 (amended): two requests of `Box<int32>` from a fresh opaque
generic. -/
theorem createGenericInstance_appends_witness :
    freshOpaque.EvalType = none ∧
    (createGenericInstance arityInstantiation freshOpaque [int32Type] 7).1
      = (InstanceResult.pending freshOpaque.Instances.length, true) ∧
    (createGenericInstance arityInstantiation
      (createGenericInstance arityInstantiation freshOpaque [int32Type] 7).2 [int32Type] 8).1
      = (InstanceResult.pending (freshOpaque.Instances.length + 1), true) ∧
    (createGenericInstance arityInstantiation
      (createGenericInstance arityInstantiation freshOpaque [int32Type] 7).2 [int32Type] 8).2
      = { EvalType := none,
          Instances := freshOpaque.Instances ++
            [{ TypeParams := [int32Type], MemoizedGenerate := none, TypeParamsBranch := 7 },
             { TypeParams := [int32Type], MemoizedGenerate := none, TypeParamsBranch := 8 }] } :=
  ⟨rfl, createGenericInstance_appends arityInstantiation freshOpaque [int32Type] 7 8 rfl⟩

/-! ## Claims on opaque types -/

/-- C26: opaque representation is transparent: the representation of an
`OpaqueType` whose evaluated type is `X` is the representation of `X`, and
that of an `OpaqueType` without evaluated type is its name. -/
theorem Repr_Opaque (baseRepr : DataType → String) (name : String) (X : DataType) :
    Repr baseRepr (.Opaque name (some X)) = Repr baseRepr X ∧
    Repr baseRepr (.Opaque name none) = name := by
  constructor <;> simp [Repr]

theorem Equals_unresolved_right (p : DataType)
    (hp : (∃ name, p = .Opaque name none) ∨ p = .OpaqueGeneric none ∨
      (∃ tps, p = .OpaqueGenericInstance tps none)) :
    ∀ (Y : DataType), Equals Y p = false
  | .Wildcard _ _ (some v) => by simpa [Equals] using Equals_unresolved_right p hp v
  | .Opaque _ (some e) => by simpa [Equals] using Equals_unresolved_right p hp e
  | .OpaqueGeneric (some e) => by simpa [Equals] using Equals_unresolved_right p hp e
  | .OpaqueGenericInstance _ (some g) => by
    simpa [Equals] using Equals_unresolved_right p hp g
  | .Wildcard _ _ none => by simp [Equals]
  | .Opaque _ none => by simp [Equals]
  | .OpaqueGeneric none => by simp [Equals]
  | .OpaqueGenericInstance _ none => by simp [Equals]
  | .Primitive _ _ => by rcases hp with ⟨_, rfl⟩ | rfl | ⟨_, rfl⟩ <;> simp [Equals, InnerType]
  | .Tuple _ => by rcases hp with ⟨_, rfl⟩ | rfl | ⟨_, rfl⟩ <;> simp [Equals, InnerType]
  | .Vector _ _ => by rcases hp with ⟨_, rfl⟩ | rfl | ⟨_, rfl⟩ <;> simp [Equals, InnerType]
  | .Ref _ _ => by rcases hp with ⟨_, rfl⟩ | rfl | ⟨_, rfl⟩ <;> simp [Equals, InnerType]
  | .Struct _ _ _ _ _ => by
    rcases hp with ⟨_, rfl⟩ | rfl | ⟨_, rfl⟩ <;> simp [Equals, InnerType]
  | .Interf _ => by rcases hp with ⟨_, rfl⟩ | rfl | ⟨_, rfl⟩ <;> simp [Equals, InnerType]
  | .Algebraic _ _ _ _ => by
    rcases hp with ⟨_, rfl⟩ | rfl | ⟨_, rfl⟩ <;> simp [Equals, InnerType]
  | .AlgebraicVariant _ _ => by
    rcases hp with ⟨_, rfl⟩ | rfl | ⟨_, rfl⟩ <;> simp [Equals, InnerType]
  | .Constraint _ _ _ => by
    rcases hp with ⟨_, rfl⟩ | rfl | ⟨_, rfl⟩ <;> simp [Equals, InnerType]
  | .Func _ _ => by rcases hp with ⟨_, rfl⟩ | rfl | ⟨_, rfl⟩ <;> simp [Equals, InnerType]
  | .Generic _ _ => by rcases hp with ⟨_, rfl⟩ | rfl | ⟨_, rfl⟩ <;> simp [Equals, InnerType]
  | .GenericInstance _ _ _ => by
    rcases hp with ⟨_, rfl⟩ | rfl | ⟨_, rfl⟩ <;> simp [Equals, InnerType]

/-- C27: unresolved opaque types are never equal to anything: for an
unresolved opaque type, opaque generic or opaque generic instance `p` and
every type `Y` (also `p` itself and any other unresolved opaque), the equality
check of `p` against `Y` is false, and so is that of `Y` against `p`. -/
theorem Equals_unresolved_opaque (Y : DataType) (name : String) (tps : List DataType) :
    Equals (.Opaque name none) Y = false ∧
    Equals (.OpaqueGeneric none) Y = false ∧
    Equals (.OpaqueGenericInstance tps none) Y = false ∧
    Equals Y (.Opaque name none) = false ∧
    Equals Y (.OpaqueGeneric none) = false ∧
    Equals Y (.OpaqueGenericInstance tps none) = false :=
  ⟨by simp [Equals], by simp [Equals], by simp [Equals],
    Equals_unresolved_right _ (Or.inl ⟨name, rfl⟩) Y,
    Equals_unresolved_right _ (Or.inr (Or.inl rfl)) Y,
    Equals_unresolved_right _ (Or.inr (Or.inr ⟨tps, rfl⟩)) Y⟩

/-! ## Claims on coercion to `any`, of references and to constraints -/

/-- With enough fuel, `CoerceTo(src, any)` returns true and leaves the solver
as it was. -/
theorem CoerceTo_any_fuel (cgi : GenericInstantiation) :
    ∀ (src : DataType), ∃ n, ∀ fuel, n ≤ fuel → ∀ s : Solver,
      CoerceTo cgi fuel s src (.Primitive PrimKind.PrimKindUnit 1) = .ok (true, s)
  | .Wildcard _ _ (some v) => by
    obtain ⟨n, hn⟩ := CoerceTo_any_fuel cgi v
    refine ⟨n + 1, fun fuel hf s => ?_⟩
    obtain ⟨f, rfl⟩ : ∃ f, fuel = f + 1 := ⟨fuel - 1, by omega⟩
    have := hn (f + 1) (by omega) s
    simpa only [CoerceTo, Equals, InnerType] using this
  | .Opaque _ (some v) => by
    obtain ⟨n, hn⟩ := CoerceTo_any_fuel cgi v
    refine ⟨n + 1, fun fuel hf s => ?_⟩
    obtain ⟨f, rfl⟩ : ∃ f, fuel = f + 1 := ⟨fuel - 1, by omega⟩
    have := hn (f + 1) (by omega) s
    simpa only [CoerceTo, Equals, InnerType] using this
  | .OpaqueGeneric (some v) => by
    obtain ⟨n, hn⟩ := CoerceTo_any_fuel cgi v
    refine ⟨n + 1, fun fuel hf s => ?_⟩
    obtain ⟨f, rfl⟩ : ∃ f, fuel = f + 1 := ⟨fuel - 1, by omega⟩
    have := hn (f + 1) (by omega) s
    simpa only [CoerceTo, Equals, InnerType] using this
  | .OpaqueGenericInstance _ (some v) => by
    obtain ⟨n, hn⟩ := CoerceTo_any_fuel cgi v
    refine ⟨n + 1, fun fuel hf s => ?_⟩
    obtain ⟨f, rfl⟩ : ∃ f, fuel = f + 1 := ⟨fuel - 1, by omega⟩
    have := hn (f + 1) (by omega) s
    simpa only [CoerceTo, Equals, InnerType] using this
  | .Wildcard _ [] none => by
    refine ⟨1, fun fuel hf s => ?_⟩
    obtain ⟨f, rfl⟩ : ∃ f, fuel = f + 1 := ⟨fuel - 1, by omega⟩
    simp [CoerceTo, Equals, InnerType, anySrcLoop, coerceSwitch]
  | .Wildcard _ (r :: _) none => by
    obtain ⟨n, hn⟩ := CoerceTo_any_fuel cgi r
    refine ⟨n + 1, fun fuel hf s => ?_⟩
    obtain ⟨f, rfl⟩ : ∃ f, fuel = f + 1 := ⟨fuel - 1, by omega⟩
    have := hn f (by omega) s
    simp [CoerceTo, Equals, InnerType, anySrcLoop, this]
  | .Opaque _ none => by
    refine ⟨1, fun fuel hf s => ?_⟩
    obtain ⟨f, rfl⟩ : ∃ f, fuel = f + 1 := ⟨fuel - 1, by omega⟩
    simp [CoerceTo, Equals, InnerType, coerceSwitch]
  | .OpaqueGeneric none => by
    refine ⟨1, fun fuel hf s => ?_⟩
    obtain ⟨f, rfl⟩ : ∃ f, fuel = f + 1 := ⟨fuel - 1, by omega⟩
    simp [CoerceTo, Equals, InnerType, coerceSwitch]
  | .OpaqueGenericInstance _ none => by
    refine ⟨1, fun fuel hf s => ?_⟩
    obtain ⟨f, rfl⟩ : ∃ f, fuel = f + 1 := ⟨fuel - 1, by omega⟩
    simp [CoerceTo, Equals, InnerType, coerceSwitch]
  | .Primitive _ _ => by
    refine ⟨1, fun fuel hf s => ?_⟩
    obtain ⟨f, rfl⟩ : ∃ f, fuel = f + 1 := ⟨fuel - 1, by omega⟩
    simp [CoerceTo, InnerType, coerceSwitch]
  | .Tuple _ => by
    refine ⟨1, fun fuel hf s => ?_⟩
    obtain ⟨f, rfl⟩ : ∃ f, fuel = f + 1 := ⟨fuel - 1, by omega⟩
    simp [CoerceTo, InnerType, coerceSwitch]
  | .Vector _ _ => by
    refine ⟨1, fun fuel hf s => ?_⟩
    obtain ⟨f, rfl⟩ : ∃ f, fuel = f + 1 := ⟨fuel - 1, by omega⟩
    simp [CoerceTo, InnerType, coerceSwitch]
  | .Ref _ _ => by
    refine ⟨1, fun fuel hf s => ?_⟩
    obtain ⟨f, rfl⟩ : ∃ f, fuel = f + 1 := ⟨fuel - 1, by omega⟩
    simp [CoerceTo, InnerType, coerceSwitch]
  | .Struct _ _ _ _ _ => by
    refine ⟨1, fun fuel hf s => ?_⟩
    obtain ⟨f, rfl⟩ : ∃ f, fuel = f + 1 := ⟨fuel - 1, by omega⟩
    simp [CoerceTo, InnerType, coerceSwitch]
  | .Interf _ => by
    refine ⟨1, fun fuel hf s => ?_⟩
    obtain ⟨f, rfl⟩ : ∃ f, fuel = f + 1 := ⟨fuel - 1, by omega⟩
    simp [CoerceTo, InnerType, coerceSwitch]
  | .Algebraic _ _ _ _ => by
    refine ⟨1, fun fuel hf s => ?_⟩
    obtain ⟨f, rfl⟩ : ∃ f, fuel = f + 1 := ⟨fuel - 1, by omega⟩
    simp [CoerceTo, InnerType, coerceSwitch]
  | .AlgebraicVariant _ _ => by
    refine ⟨1, fun fuel hf s => ?_⟩
    obtain ⟨f, rfl⟩ : ∃ f, fuel = f + 1 := ⟨fuel - 1, by omega⟩
    simp [CoerceTo, InnerType, coerceSwitch]
  | .Constraint _ _ _ => by
    refine ⟨1, fun fuel hf s => ?_⟩
    obtain ⟨f, rfl⟩ : ∃ f, fuel = f + 1 := ⟨fuel - 1, by omega⟩
    simp [CoerceTo, InnerType, coerceSwitch]
  | .Func _ _ => by
    refine ⟨1, fun fuel hf s => ?_⟩
    obtain ⟨f, rfl⟩ : ∃ f, fuel = f + 1 := ⟨fuel - 1, by omega⟩
    simp [CoerceTo, InnerType, coerceSwitch]
  | .Generic _ _ => by
    refine ⟨1, fun fuel hf s => ?_⟩
    obtain ⟨f, rfl⟩ : ∃ f, fuel = f + 1 := ⟨fuel - 1, by omega⟩
    simp [CoerceTo, InnerType, coerceSwitch]
  | .GenericInstance _ _ _ => by
    refine ⟨1, fun fuel hf s => ?_⟩
    obtain ⟨f, rfl⟩ : ∃ f, fuel = f + 1 := ⟨fuel - 1, by omega⟩
    simp [CoerceTo, InnerType, coerceSwitch]

/-- C28: for every type `src`, `CoerceTo(src, any)` is true, where `any` is
the unit-kind primitive with spec 1, also when `src` is a wildcard, bound or
unbound, with any list of constraints: from some amount of fuel on, the call
returns true and leaves the solver as it was. -/
theorem CoerceTo_any (cgi : GenericInstantiation) (src : DataType) :
    ∃ n, ∀ (fuel : Nat) (s : Solver), CoerceTo cgi (n + fuel) s src anyType = .ok (true, s) := by
  obtain ⟨n, hn⟩ := CoerceTo_any_fuel cgi src
  exact ⟨n, fun fuel s => hn (n + fuel) (by omega) s⟩

/-- C29: for reference types `src` and `dest` that are not equal,
`CoerceTo(src, dest)` is true if and only if the element type of `dest` equals
that of `src`, `dest` is a constant reference and `src` is not; the solver is
left as it was.  So a constant reference never coerces to a non-constant one
and no reference coerces to a reference with an unequal element type. -/
theorem CoerceTo_Ref (cgi : GenericInstantiation) (fuel : Nat) (s : Solver)
    (srcElem destElem : DataType) (srcConst destConst : Bool)
    (hne : Equals (.Ref srcElem srcConst) (.Ref destElem destConst) = false) :
    CoerceTo cgi (fuel + 1) s (.Ref srcElem srcConst) (.Ref destElem destConst) =
      .ok (decide (Equals destElem srcElem = true ∧ destConst = true ∧ srcConst = false), s) ∧
    (srcConst = true → destConst = false →
      (CoerceTo cgi (fuel + 1) s (.Ref srcElem srcConst) (.Ref destElem destConst)).result
        = some false) ∧
    (Equals destElem srcElem = false →
      (CoerceTo cgi (fuel + 1) s (.Ref srcElem srcConst) (.Ref destElem destConst)).result
        = some false) := by
  have h : CoerceTo cgi (fuel + 1) s (.Ref srcElem srcConst) (.Ref destElem destConst) =
      .ok (decide (Equals destElem srcElem = true ∧ destConst = true ∧ srcConst = false), s) := by
    simp only [CoerceTo, hne, InnerType, coerceSwitch]
    cases srcConst <;> cases destConst <;> simp
  refine ⟨h, ?_, ?_⟩
  · intro h1 h2
    rw [h, result_ok]
    simp [h1, h2]
  · intro h1
    rw [h, result_ok]
    simp [h1]

/-- Witness of C29: `&int32` coerces to `&const int32`. -/
theorem CoerceTo_Ref_witness :
    Equals (.Ref int32Type false) (.Ref int32Type true) = false ∧
    CoerceTo noGenerics 1 emptySolver (.Ref int32Type false) (.Ref int32Type true) =
      .ok (decide (Equals int32Type int32Type = true ∧ true = true ∧ false = false),
        emptySolver) ∧
    (CoerceTo noGenerics 1 emptySolver (.Ref int32Type false) (.Ref int32Type true)).result
      = some true :=
  ⟨by decide,
    (CoerceTo_Ref noGenerics 0 emptySolver int32Type int32Type false true (by decide)).1,
    by decide⟩

/-- The constraint case of `CoerceTo` for a source constraint: the loop over
the member types of the source. -/
theorem CoerceTo_Constraint_of_Constraint (cgi : GenericInstantiation) (fuel : Nat) (s : Solver)
    (n n2 : String) (ts ts2 : List DataType) (i : Bool)
    (hne : Equals (.Constraint n ts i) (.Constraint n2 ts2 false) = false) :
    CoerceTo cgi (fuel + 1) s (.Constraint n ts i) (.Constraint n2 ts2 false) =
      allSrcLoop (CoerceTo cgi fuel) (.Constraint n2 ts2 false) s ts := by
  simp [CoerceTo, hne, InnerType, coerceSwitch]

/-- The constraint case of `CoerceTo` for a source that is neither a
constraint nor a wildcard: the loop over the member types of the
destination. -/
theorem CoerceTo_Constraint_of_other (cgi : GenericInstantiation) (fuel : Nat) (s : Solver)
    (src : DataType) (n2 : String) (ts2 : List DataType)
    (hne : Equals src (.Constraint n2 ts2 false) = false)
    (hc : ∀ n ts i, InnerType src ≠ .Constraint n ts i)
    (hw : ∀ n cs v, InnerType src ≠ .Wildcard n cs v) :
    CoerceTo cgi (fuel + 1) s src (.Constraint n2 ts2 false) =
      anyDestLoop (CoerceTo cgi fuel) (InnerType src) s ts2 := by
  simp only [CoerceTo, hne, InnerType]
  cases h : InnerType src <;> simp_all [coerceSwitch]

/-- C30 (code at the failing input): the tuple `(int32)` coerces to the member
`(int32)` of the non-intrinsic constraint `{(int32, int32), (int32)}` and is
not equal to the constraint, but `CoerceTo` of the tuple to the constraint
does not return: the loop over the members first compares it with the longer
tuple `(int32, int32)`, which reads past the end of `(int32)`. -/
theorem CoerceTo_Constraint_member_fault :
    Equals singleTuple tupleSet = false ∧
    (CoerceTo noGenerics 2 emptySolver singleTuple singleTuple).result = some true ∧
    CoerceTo noGenerics 2 emptySolver singleTuple pairTuple = .error Fault.indexOutOfRange ∧
    ∀ fuel : Nat,
      CoerceTo noGenerics (fuel + 3) emptySolver singleTuple tupleSet
        = .error Fault.indexOutOfRange :=
  ⟨by decide, by decide, rfl, fun _ => rfl⟩

/-! ## Claims on coercion to wildcards, structs and algebraic types -/

/-- The wildcard case of `CoerceTo` for a destination wildcard without value
and a source that is not a wildcard: the loop over the constraints of the
destination, and `false` when it runs to its end. -/
theorem CoerceTo_Wildcard_unbound (cgi : GenericInstantiation) (fuel : Nat) (s : Solver)
    (src : DataType) (name : String) (cons : List DataType)
    (hne : Equals src (.Wildcard name cons none) = false)
    (hw : ∀ n cs v, InnerType src ≠ .Wildcard n cs v) :
    CoerceTo cgi (fuel + 1) s src (.Wildcard name cons none) =
      anyDestLoop (CoerceTo cgi fuel) (InnerType src) s cons := by
  simp only [CoerceTo, hne, InnerType]
  cases h : InnerType src <;> simp_all [coerceSwitch]

/-- A destination wildcard with the value `V` is coerced to as `V` is. -/
theorem CoerceTo_Wildcard_bound (cgi : GenericInstantiation) (fuel : Nat) (s : Solver)
    (src : DataType) (name : String) (cons : List DataType) (V : DataType) :
    CoerceTo cgi (fuel + 1) s src (.Wildcard name cons (some V)) =
      CoerceTo cgi (fuel + 1) s src V := by
  have h : Equals src (.Wildcard name cons (some V)) = Equals src V := by
    rw [← Equals_InnerType_right src (.Wildcard name cons (some V)),
      ← Equals_InnerType_right src V]
    simp [InnerType]
  simp only [CoerceTo, h, InnerType]

/-- C31 (code at the failing input): the tuple `(int32)` coerces to the
constraint `(int32)` of the unbound wildcard `T` with the constraints
`(int32, int32)` and `(int32)`, and is not equal to `T`, but `CoerceTo` of the
tuple to `T` does not return: the loop over the constraints first compares it
with `(int32, int32)`, which reads past the end of `(int32)`. -/
theorem CoerceTo_Wildcard_constraint_fault :
    Equals singleTuple tupleWildcard = false ∧
    CoerceTo noGenerics 1 emptySolver singleTuple singleTuple = .ok (true, emptySolver) ∧
    ∀ fuel : Nat,
      CoerceTo noGenerics (fuel + 3) emptySolver singleTuple tupleWildcard
        = .error Fault.indexOutOfRange :=
  ⟨by decide, rfl, fun _ => rfl⟩

/-- C32: structs and algebraic types are never coercible: for every
destination that is a struct or an algebraic type and every source that is
not a wildcard and not equal to the destination, `CoerceTo` returns false and
leaves the solver as it was. -/
theorem CoerceTo_Struct_Algebraic_never (cgi : GenericInstantiation) (fuel : Nat) (s : Solver)
    (src dest : DataType)
    (hd : (∃ n p fs inh pk, dest = .Struct n p fs inh pk) ∨
      (∃ n p vs cl, dest = .Algebraic n p vs cl))
    (hw : ∀ n cs v, InnerType src ≠ .Wildcard n cs v)
    (hne : Equals src dest = false) :
    CoerceTo cgi (fuel + 1) s src dest = .ok (false, s) := by
  rcases hd with ⟨n, p, fs, inh, pk, rfl⟩ | ⟨n, p, vs, cl, rfl⟩
  · simp only [CoerceTo, hne, InnerType]
    cases h : InnerType src <;> simp_all [coerceSwitch]
  · simp only [CoerceTo, hne, InnerType]
    cases h : InnerType src <;> simp_all [coerceSwitch]

/-- Witness of C32: the struct `Vec2` does not coerce to the struct `Point2D`
with exactly the same fields, and the algebraic type `Option` does not coerce
to `Maybe` with exactly the same variants. -/
theorem CoerceTo_Struct_Algebraic_never_witness :
    Equals vec2Type point2DType = false ∧
    Equals optionType maybeType = false ∧
    CoerceTo noGenerics 1 emptySolver vec2Type point2DType = .ok (false, emptySolver) ∧
    CoerceTo noGenerics 1 emptySolver optionType maybeType = .ok (false, emptySolver) :=
  ⟨by decide, by decide,
    CoerceTo_Struct_Algebraic_never noGenerics 0 emptySolver vec2Type point2DType
      (Or.inl ⟨_, _, _, _, _, rfl⟩) (by simp [vec2Type, InnerType]) (by decide),
    CoerceTo_Struct_Algebraic_never noGenerics 0 emptySolver optionType maybeType
      (Or.inr ⟨_, _, _, _, rfl⟩) (by simp [optionType, InnerType]) (by decide)⟩

/-! ## Claims on casts of interfaces, algebraic types and constraints -/

theorem castMethodsLoop_iff (dit : List (String × InterfMethod)) :
    ∀ (sv : List (String × InterfMethod)),
      castMethodsLoop dit sv = true ↔
        ∀ name method dmethod, (name, method) ∈ sv → dit.lookup name = some dmethod →
          Equals method.Signature dmethod.Signature = true
  | [] => by simp [castMethodsLoop]
  | (n, m) :: rest => by
    have ih := castMethodsLoop_iff dit rest
    simp only [castMethodsLoop]
    cases hl : dit.lookup n with
    | none =>
      simp only [ih, List.mem_cons, Prod.mk.injEq]
      constructor
      · rintro h name method dmethod (⟨rfl, rfl⟩ | hm) hd
        · rw [hl] at hd
          cases hd
        · exact h name method dmethod hm hd
      · intro h name method dmethod hm hd
        exact h name method dmethod (Or.inr hm) hd
    | some dm =>
      by_cases he : Equals m.Signature dm.Signature = true
      · simp only [he, if_true, ih, List.mem_cons, Prod.mk.injEq]
        constructor
        · rintro h name method dmethod (⟨rfl, rfl⟩ | hm) hd
          · rw [hl] at hd
            cases hd
            exact he
          · exact h name method dmethod hm hd
        · intro h name method dmethod hm hd
          exact h name method dmethod (Or.inr hm) hd
      · simp only [he]
        constructor
        · intro h
          simp at h
        · intro h
          exact absurd (h n m dm (by simp) hl) he

/-- One call of `CastTo` on two interface types, in closed form. -/
theorem CastTo_Interf (cgi : GenericInstantiation) (fuel : Nat) (s : Solver)
    (a b : InterfType) :
    CastTo cgi (fuel + 1) s (.Interf a) (.Interf b) =
      .ok (castMethodsLoop b.Methods a.Methods, s) := by
  simp [CastTo, InnerType, castSwitch]

/-- C33: for interface types `src` and `dest` (the method map of `src` having
distinct names, as a Go map has), `CastTo(src, dest)` returns, and it is true
if and only if there is no method name present in both method maps whose two
signatures are not equal; interfaces with disjoint method names cast to each
other. -/
theorem CastTo_Interf_iff (cgi : GenericInstantiation) (fuel : Nat) (s : Solver)
    (a b : InterfType) (hs : (a.Methods.map Prod.fst).Nodup) :
    ∃ r, CastTo cgi (fuel + 1) s (.Interf a) (.Interf b) = .ok (r, s) ∧
      (r = true ↔
        ¬ ∃ name m dm, a.Methods.lookup name = some m ∧ b.Methods.lookup name = some dm ∧
          Equals m.Signature dm.Signature = false) ∧
      ((∀ name, name ∈ a.Methods.map Prod.fst → name ∉ b.Methods.map Prod.fst) → r = true) := by
  refine ⟨_, CastTo_Interf cgi fuel s a b, ?_, ?_⟩
  · rw [castMethodsLoop_iff]
    constructor
    · rintro h ⟨name, m, dm, hm, hd, he⟩
      have := h name m dm (mem_of_lookup_eq_some a.Methods name m hm) hd
      rw [he] at this
      cases this
    · intro h name m dm hm hd
      by_contra he
      exact h ⟨name, m, dm, lookup_of_mem_of_nodup a.Methods name m hs hm, hd, by simpa using he⟩
  · intro hdis
    rw [castMethodsLoop_iff]
    intro name m dm hm hd
    exfalso
    exact hdis name (List.mem_map.2 ⟨(name, m), hm, rfl⟩)
      ((lookup_isSome_iff_mem_keys b.Methods name).1 ⟨dm, hd⟩)

/-- Witness of C33: `areaInterf` and `perimeterInterf` have no method name in
common. -/
theorem CastTo_Interf_iff_witness :
    (areaInterf.Methods.map Prod.fst).Nodup ∧
    ∃ r, CastTo noGenerics 1 emptySolver (.Interf areaInterf) (.Interf perimeterInterf)
        = .ok (r, emptySolver) ∧
      (r = true ↔
        ¬ ∃ name m dm, areaInterf.Methods.lookup name = some m ∧
          perimeterInterf.Methods.lookup name = some dm ∧
          Equals m.Signature dm.Signature = false) ∧
      ((∀ name, name ∈ areaInterf.Methods.map Prod.fst →
          name ∉ perimeterInterf.Methods.map Prod.fst) → r = true) :=
  ⟨by decide,
    CastTo_Interf_iff noGenerics 0 emptySolver areaInterf perimeterInterf (by decide)⟩

theorem EqualsList_iff : ∀ (xs ys : List DataType),
    EqualsList xs ys = true ↔
      xs.length = ys.length ∧
        ∀ (i : Nat) a b, xs[i]? = some a → ys[i]? = some b → Equals a b = true
  | [], [] => by simp [EqualsList]
  | [], _ :: _ => by simp [EqualsList]
  | _ :: _, [] => by simp [EqualsList]
  | x :: xs, y :: ys => by
    have ih := EqualsList_iff xs ys
    simp only [EqualsList, Bool.and_eq_true, ih, List.length_cons, add_left_inj]
    constructor
    · rintro ⟨h0, hl, h⟩
      refine ⟨hl, ?_⟩
      intro i a b ha hb
      cases i with
      | zero =>
        simp only [List.getElem?_cons_zero, Option.some.injEq] at ha hb
        subst ha hb
        exact h0
      | succ j =>
        simp only [List.getElem?_cons_succ] at ha hb
        exact h j a b ha hb
    · rintro ⟨hl, h⟩
      refine ⟨h 0 x y (by simp) (by simp), hl, ?_⟩
      intro i a b ha hb
      exact h (i + 1) a b (by simpa using ha) (by simpa using hb)

theorem castVariantsLoop_eq : ∀ (vs vs2 pre : List DataType), vs.length = vs2.length →
    castVariantsLoop (pre ++ vs2) pre.length vs = .ok (EqualsList vs vs2)
  | [], [], _, _ => by simp [castVariantsLoop, EqualsList]
  | [], _ :: _, _, h => by simp at h
  | _ :: _, [], _, h => by simp at h
  | v :: vs, w :: ws, pre, h => by
    have ih := castVariantsLoop_eq vs ws (pre ++ [w]) (by simpa using h)
    simp only [List.append_assoc, List.singleton_append, List.length_append,
      List.length_singleton] at ih
    simp only [castVariantsLoop, List.get?_eq_getElem?, EqualsList]
    rw [List.getElem?_append_right (le_refl _)]
    simp only [Nat.sub_self, List.getElem?_cons_zero]
    by_cases he : Equals v w = true
    · simp [he, ih]
    · simp [he]

/-- One call of `CastTo` on two algebraic types, in closed form. -/
theorem CastTo_Algebraic (cgi : GenericInstantiation) (fuel : Nat) (s : Solver)
    (n n2 : String) (p p2 : Nat) (vs vs2 : List DataType) (cl cl2 : Bool) :
    CastTo cgi (fuel + 1) s (.Algebraic n p vs cl) (.Algebraic n2 p2 vs2 cl2) =
      .ok (decide (vs.length = vs2.length) && EqualsList vs vs2 && decide (cl = cl2), s) := by
  simp only [CastTo, InnerType, castSwitch]
  by_cases hl : vs.length = vs2.length
  · have h := castVariantsLoop_eq vs vs2 [] hl
    simp only [List.nil_append, List.length_nil] at h
    simp only [hl, ne_eq, not_true_eq_false, if_false, h]
    cases EqualsList vs vs2 <;> simp
  · simp [hl]

/-- C34: for algebraic types `src` and `dest`, `CastTo(src, dest)` returns, and
it is true if and only if they have the same number of variants, the variants
are pairwise equal position by position, and their closed flags are
identical. -/
theorem CastTo_Algebraic_iff (cgi : GenericInstantiation) (fuel : Nat) (s : Solver)
    (n n2 : String) (p p2 : Nat) (vs vs2 : List DataType) (cl cl2 : Bool) :
    ∃ r, CastTo cgi (fuel + 1) s (.Algebraic n p vs cl) (.Algebraic n2 p2 vs2 cl2)
        = .ok (r, s) ∧
      (r = true ↔
        vs.length = vs2.length ∧
        (∀ (i : Nat) a b, vs[i]? = some a → vs2[i]? = some b → Equals a b = true) ∧
        cl = cl2) := by
  refine ⟨_, CastTo_Algebraic cgi fuel s n n2 p p2 vs vs2 cl cl2, ?_⟩
  simp only [Bool.and_eq_true, decide_eq_true_eq, EqualsList_iff]
  tauto

theorem Equals_InnerType_left : ∀ (a b : DataType), Equals (InnerType a) b = Equals a b
  | .Wildcard _ _ (some v), b => by simpa [Equals, InnerType] using Equals_InnerType_left v b
  | .Opaque _ (some e), b => by simpa [Equals, InnerType] using Equals_InnerType_left e b
  | .OpaqueGeneric (some e), b => by simpa [Equals, InnerType] using Equals_InnerType_left e b
  | .OpaqueGenericInstance _ (some g), b => by
    simpa [Equals, InnerType] using Equals_InnerType_left g b
  | .Wildcard _ _ none, _ => by simp [InnerType]
  | .Opaque _ none, _ => by simp [InnerType]
  | .OpaqueGeneric none, _ => by simp [InnerType]
  | .OpaqueGenericInstance _ none, _ => by simp [InnerType]
  | .Primitive _ _, _ => by simp [InnerType]
  | .Tuple _, _ => by simp [InnerType]
  | .Vector _ _, _ => by simp [InnerType]
  | .Ref _ _, _ => by simp [InnerType]
  | .Struct _ _ _ _ _, _ => by simp [InnerType]
  | .Interf _, _ => by simp [InnerType]
  | .Algebraic _ _ _ _, _ => by simp [InnerType]
  | .AlgebraicVariant _ _, _ => by simp [InnerType]
  | .Constraint _ _ _, _ => by simp [InnerType]
  | .Func _ _, _ => by simp [InnerType]
  | .Generic _ _, _ => by simp [InnerType]
  | .GenericInstance _ _ _, _ => by simp [InnerType]

/-- C35: for every constraint type `src` and every destination that is not a
wildcard, `CastTo(src, dest)` returns, leaves the solver as it was, and is
true if and only if `dest` is equal to one of the member types of `src`. -/
theorem CastTo_Constraint_iff (cgi : GenericInstantiation) (fuel : Nat) (s : Solver)
    (name : String) (types : List DataType) (intrinsic : Bool) (dest : DataType)
    (hw : ∀ n cs v, InnerType dest ≠ .Wildcard n cs v) :
    ∃ r, CastTo cgi (fuel + 1) s (.Constraint name types intrinsic) dest = .ok (r, s) ∧
      (r = true ↔ ∃ t ∈ types, Equals dest t = true) := by
  refine ⟨ContainsType (InnerType dest) types, ?_, ?_⟩
  · simp only [CastTo, InnerType]
    cases h : InnerType dest <;> simp_all [castSwitch]
  · simp [ContainsType, Equals_InnerType_left]

/-- Witness of C35: the type set `{int32, float}` casts to `float` and does not
cast to `bool`. -/
theorem CastTo_Constraint_iff_witness :
    (∃ r, CastTo noGenerics 1 emptySolver numberSet floatType = .ok (r, emptySolver) ∧
      (r = true ↔ ∃ t ∈ [int32Type, floatType], Equals floatType t = true)) ∧
    (CastTo noGenerics 1 emptySolver numberSet floatType).result = some true ∧
    (CastTo noGenerics 1 emptySolver numberSet boolType).result = some false :=
  ⟨CastTo_Constraint_iff noGenerics 0 emptySolver "Number" [int32Type, floatType] false
      floatType (by simp [floatType, InnerType]),
    by decide, by decide⟩

/-! ## Claims on the copies of opaque generic instances -/

/-- C37 (counterexample): an instance with the type parameter named
`opaque generate` is requested from an unresolved opaque generic, which is then
evaluated to a generic whose template has the empty representation: the
instance holds a memoized generate, and its `Repr` is `<opaque generate>`,
the string of an instance without generate. -/
theorem Repr_sentinel_with_generate :
    (OpaqueOp.run arityInstantiation nestedSliceCopy freshOpaque
      [.request [generateNamedOpaque] 7,
        .evaluate [.Wildcard "T" [] none] (.Opaque "" none)]).Instances.map
      (fun I => I.MemoizedGenerate.isSome) = [true] ∧
    (OpaqueOp.run arityInstantiation nestedSliceCopy freshOpaque
      [.request [generateNamedOpaque] 7,
        .evaluate [.Wildcard "T" [] none] (.Opaque "" none)]).Instances.map
      (fun I => I.Repr kindRepr
        (OpaqueOp.run arityInstantiation nestedSliceCopy freshOpaque
          [.request [generateNamedOpaque] 7,
            .evaluate [.Wildcard "T" [] none] (.Opaque "" none)]))
      = [.ok "<opaque generate>"] ∧
    Repr kindRepr (.Opaque "" none) = "" :=
  ⟨rfl, rfl, rfl⟩

/-- C38 (code at the failing input): `Derive(child, parent)` where both declare
`draw`, the child with the specialization `[int32]` and the parent with
`[float]` and `[bool]`: the call writes to the parent, whose method `draw`
holds the child's specialization twice after it; kind and signature of the
parent's method are as before. -/
theorem Derive_writes_parent :
    (wideParentInterf.Methods.lookup "draw").map (fun m => m.Specializations)
      = some [[floatType], [boolType]] ∧
    ((Derive specMatch childInterf wideParentInterf).2.Methods.lookup "draw").map
      (fun m => m.Specializations)
      = some [[floatType], [boolType], [int32Type], [int32Type]] ∧
    ((Derive specMatch childInterf wideParentInterf).2.Methods.lookup "draw").map
      (fun m => m.Specializations.length) ≠
      (wideParentInterf.Methods.lookup "draw").map (fun m => m.Specializations.length) ∧
    ((Derive specMatch childInterf wideParentInterf).2.Methods.lookup "draw").map
      (fun m => m.Kind) = some MethodKind.MKAbstract :=
  ⟨rfl, rfl, by decide, rfl⟩

/-! ## Claims on the scanner -/

/-- C39 (code at the failing input): for the well-formed char literal of `a`,
`readCharLiteral` returns `true` into `malformed`: `scan` appends the token
`CHAR_LITERAL` and returns the error `Malformed Token`; for a char literal that
is too long and for one without content at the end of the input, `scan` returns
no error and no token. -/
theorem scan_char_literal_inverted (lex : Lexicon) (fuel : Nat) :
    (Scanner.scan lex (fuel + 1) (NewScanner charLiteralInput "main.wrl")).map
        (fun r => (r.1, r.2.Tokens))
      = some (some { tokBuff := String.mk charLiteralInput, line := 1, col := 3 },
          [{ Name := "CHAR_LITERAL", Value := String.mk charLiteralInput, Line := 1, Col := 0 }]) ∧
    (Scanner.scan lex (fuel + 3) (NewScanner longCharLiteralInput "main.wrl")).map
        (fun r => (r.1, r.2.Tokens))
      = some (none, []) ∧
    (Scanner.scan lex (fuel + 2) (NewScanner openCharLiteralInput "main.wrl")).map
        (fun r => (r.1, r.2.Tokens))
      = some (none, []) :=
  ⟨rfl, rfl, rfl⟩

/-- The loop of `readWord` is never left when the rune that the init statement
peeked is a letter, a digit or an underscore. -/
theorem readWordLoop_none (c : Char)
    (hc : (isDigit c || decide (c.toNat = 95)) = true ∨ isLetter c = true) :
    ∀ (fuel : Nat) (keywordValid : Bool) (s : Scanner),
      readWordLoop c fuel keywordValid s = none
  | 0, _, _ => rfl
  | fuel + 1, keywordValid, s => by
    rcases hc with h | h
    · have h2 : (isDigit c = true ∨ c.toNat = 95) := by simpa using h
      simp only [readWordLoop, Bool.or_eq_true, decide_eq_true_eq, h2, if_true]
      exact readWordLoop_none c (Or.inl h) fuel false _
    · by_cases h2 : (isDigit c = true ∨ c.toNat = 95)
      · simp only [readWordLoop, Bool.or_eq_true, decide_eq_true_eq, h2, if_true]
        exact readWordLoop_none c (Or.inr h) fuel false _
      · simp only [readWordLoop, Bool.or_eq_true, decide_eq_true_eq, h2, if_false, h,
          Bool.not_true, Bool.false_eq_true]
        exact readWordLoop_none c (Or.inr h) fuel keywordValid _

/-- C40 (code at the failing input): on the input `ab`, `readWord` does not
return, whatever amount of fuel it is given: the rune `b` that the init
statement of its loop peeked is tested in every iteration, also after the end
of the input; so `scan` does not return on this input.  On the input `a`,
where the peek finds the end of the input, `scan` returns one identifier. -/
theorem scan_word_never_returns (lex : Lexicon) :
    (∀ fuel : Nat,
      Scanner.readWord lex fuel (NewScanner ['a', 'b'] "main.wrl").readNext.2 = none) ∧
    (∀ fuel : Nat, Scanner.scan lex fuel (NewScanner ['a', 'b'] "main.wrl") = none) ∧
    (Scanner.scan exampleLexicon 2 (NewScanner ['a'] "main.wrl")).map
        (fun r => (r.1, r.2.Tokens))
      = some (none, [{ Name := "IDENTIFIER", Value := "a", Line := 1, Col := 0 }]) := by
  have hb : (isDigit 'b' || decide (('b' : Char).toNat = 95)) = true ∨ isLetter 'b' = true :=
    Or.inr (by decide)
  have hw : ∀ fuel : Nat,
      Scanner.readWord lex fuel (NewScanner ['a', 'b'] "main.wrl").readNext.2 = none := by
    intro fuel
    have hp : (NewScanner ['a', 'b'] "main.wrl").readNext.2.peek = ('b', true) := by decide
    simp only [Scanner.readWord, hp, if_true, readWordLoop_none 'b' hb]
  refine ⟨hw, ?_, by decide⟩
  intro fuel
  cases fuel with
  | zero => rfl
  | succ f =>
    have h1 : (NewScanner ['a', 'b'] "main.wrl").readNext.1 = true := rfl
    have h2 : (NewScanner ['a', 'b'] "main.wrl").readNext.2.curr = 'a' := rfl
    have h3 : scanToken lex f (NewScanner ['a', 'b'] "main.wrl").readNext.2 = none := by
      have ha1 : ¬ (('a' : Char).toNat = 34) := by decide
      have ha2 : ¬ (('a' : Char).toNat = 39) := by decide
      have ha3 : ¬ (('a' : Char) = '/') := by decide
      have ha4 : ¬ (('a' : Char) = '.') := by decide
      have ha5 : isLetter 'a' = true := by decide
      simp only [scanToken, h2, ha1, ha2, ha3, ha4, ha5, if_false, if_true, hw f, Option.map_none']
    have hs : ¬ (('a' : Char) = ' ' ∨ ('a' : Char).toNat = 9 ∨ ('a' : Char).toNat = 10) := by
      decide
    simp only [Scanner.scan, h1, h2, hs, h3, Bool.not_true, Bool.false_eq_true, if_false]

end Whirlwind
